import Mathlib

/-! # Controller-expression parser (`gst/gstcontrolparser.c`)

A shallow embedding of the textual controller-setup parser and the properties
of its specification.

Modelling conventions.

* An expression (`const gchar *`) is the list of its bytes, in the byte-indexed
  form described at `is_continuation`: a character stands at the offset of the
  first byte of its UTF-8 encoding and is followed by a placeholder for each
  further byte.  The length of the list is the length of the text in bytes, a
  cursor is a byte offset, and ASCII text is the list of its characters.  The
  text is valid UTF-8; GRegex matches nothing in text that is not.
* The character classes of the patterns are those of GRegex, which compiles
  its patterns for UTF-8 text with Unicode properties: white space and digits
  are not only the ASCII ones.
* `gint` error codes are natural numbers.  A cursor is the natural number of
  the offset, and `to_gint` is the value of the `gint` that holds it.  For an
  expression shorter than `2^31` bytes the two agree at every step of a parse.
  Longer expressions are outside the embedding: GRegex takes the length of its
  subject and reports the offsets of a match as 32-bit integers.
* The C function `parse` receives a pointer `_ctx` to the caller's context and
  works on a local copy `ctx`.  The embedding returns the C return value, the
  caller's context after the call and the state of the object world.
* Side effects on GObjects (construction, binding attachment, property
  assignment) are recorded in a chronological log.  Reference counting
  (`gst_object_unref`) and log output (`GST_DEBUG` ...) are not modelled.
* The recursion of `parse` is bounded by a fuel argument; `none` means that the
  fuel ran out, never that the C code failed.
-/

namespace GstControlParser

/-! ## Terminal symbols and their patterns -/

/-- Grammar rules, `enum Symbol`. -/
inductive Symbol
  | FUNCTION
  | NAMED_PARAMETERS
  | NAMED_PARAMETER
  | VALUE
deriving DecidableEq, Repr

/-- Lexical categories, `enum TerminalSymbol`. -/
inductive TerminalSymbol
  | NAME
  | NUMERIC_VALUE
  | STRING_VALUE
  | OPENING_PAREN
  | CLOSING_PAREN
  | COMMA
  | ASSIGNMENT
deriving DecidableEq, Repr

/-- A continuation unit.  Every string of the embedding (expression, name,
value, message) is indexed by byte offset, as the `gchar` arrays of the C code
are: a character stands at the offset of the first byte of its UTF-8 encoding
and is followed by one continuation unit, written as the character NUL, for
each further byte.  NUL cannot occur in the text of a C string, and ASCII text
is its own byte-indexed form. -/
def is_continuation (c : Char) : Bool :=
  c.toNat = 0

/-- The byte-indexed form of a text given as a list of characters. -/
def utf8_units : List Char → List Char
  | [] => []
  | c :: t => c :: (List.replicate (c.utf8Size - 1) (Char.ofNat 0) ++ utf8_units t)

/-- The class `[\s\n]`, as a set of units.  GRegex compiles its patterns for
UTF-8 text with Unicode properties, so `\s` is PCRE's horizontal and vertical
white space and the separators: HT, LF, VT, FF, CR and the space below 128,
and NEL, NBSP, U+1680, U+180E, U+2000 to U+200A, LS, PS, U+202F, U+205F and
U+3000 above.  A run of the class steps over the continuation units of each
character it takes, so they belong to the set of units. -/
def is_space (c : Char) : Bool :=
  if c.toNat < 128 then c.toNat = 0 || c.toNat = 32 || (9 ≤ c.toNat && c.toNat ≤ 13)
  else c.toNat = 0x85 || c.toNat = 0xA0 || c.toNat = 0x1680 || c.toNat = 0x180E
    || (0x2000 ≤ c.toNat && c.toNat ≤ 0x200A) || c.toNat = 0x2028 || c.toNat = 0x2029
    || c.toNat = 0x202F || c.toNat = 0x205F || c.toNat = 0x3000

/-- The ranges of the Unicode decimal digits (general category Nd) in the
tables of PCRE2 10.42, which GLib 2.74 uses: 660 characters. -/
def decimal_digit_ranges : List (Nat × Nat) :=
  [(0x30, 0x39), (0x660, 0x669), (0x6F0, 0x6F9), (0x7C0, 0x7C9), (0x966, 0x96F), (0x9E6,
   0x9EF), (0xA66, 0xA6F), (0xAE6, 0xAEF), (0xB66, 0xB6F), (0xBE6, 0xBEF), (0xC66, 0xC6F),
   (0xCE6, 0xCEF), (0xD66, 0xD6F), (0xDE6, 0xDEF), (0xE50, 0xE59), (0xED0, 0xED9), (0xF20,
   0xF29), (0x1040, 0x1049), (0x1090, 0x1099), (0x17E0, 0x17E9), (0x1810, 0x1819), (0x1946,
   0x194F), (0x19D0, 0x19D9), (0x1A80, 0x1A89), (0x1A90, 0x1A99), (0x1B50, 0x1B59), (0x1BB0,
   0x1BB9), (0x1C40, 0x1C49), (0x1C50, 0x1C59), (0xA620, 0xA629), (0xA8D0, 0xA8D9), (0xA900,
   0xA909), (0xA9D0, 0xA9D9), (0xA9F0, 0xA9F9), (0xAA50, 0xAA59), (0xABF0, 0xABF9), (0xFF10,
   0xFF19), (0x104A0, 0x104A9), (0x10D30, 0x10D39), (0x11066, 0x1106F), (0x110F0, 0x110F9),
   (0x11136, 0x1113F), (0x111D0, 0x111D9), (0x112F0, 0x112F9), (0x11450, 0x11459), (0x114D0,
   0x114D9), (0x11650, 0x11659), (0x116C0, 0x116C9), (0x11730, 0x11739), (0x118E0, 0x118E9),
   (0x11950, 0x11959), (0x11C50, 0x11C59), (0x11D50, 0x11D59), (0x11DA0, 0x11DA9), (0x16A60,
   0x16A69), (0x16AC0, 0x16AC9), (0x16B50, 0x16B59), (0x1D7CE, 0x1D7FF), (0x1E140, 0x1E149),
   (0x1E2F0, 0x1E2F9), (0x1E950, 0x1E959), (0x1FBF0, 0x1FBF9)]

/-- Whether a character is a Unicode decimal digit. -/
def is_decimal_digit (c : Char) : Bool :=
  decimal_digit_ranges.any fun r => r.1 ≤ c.toNat && c.toNat ≤ r.2

/-- The class `\d`, as a set of units: with Unicode properties it is the
decimal digits of every script, of which only `0` to `9` lie below 128; the
continuation units belong to the set as for `[\s\n]`. -/
def is_digit (c : Char) : Bool :=
  if c.toNat < 128 then c.toNat = 0 || (48 ≤ c.toNat && c.toNat ≤ 57)
  else is_decimal_digit c

/-- The class `[a-z]`. -/
def is_lower (c : Char) : Bool :=
  97 ≤ c.toNat && c.toNat ≤ 122

/-- The class `[a-z0-9_-]`: the ranges are literal, so the digits are the ASCII
digits only. -/
def is_name_char (c : Char) : Bool :=
  is_lower c || (48 ≤ c.toNat && c.toNat ≤ 57) || c.toNat = 95 || c.toNat = 45

/-- Characters the pattern `.` does not match: GRegex compiles with PCRE's
"any newline" convention, under which the dot matches neither LF, VT, FF, CR,
NEL, LS nor PS. -/
def is_newline (c : Char) : Bool :=
  (10 ≤ c.toNat && c.toNat ≤ 13) || c.toNat = 133 || c.toNat = 8232 || c.toNat = 8233

/-- Characters the lazy `.*?` of the string pattern steps over before it
reaches the closing quote. -/
def is_string_char (c : Char) : Bool :=
  !(c.toNat = 39) && !is_newline c

/-- Length of the run matched by `[\s\n]*` at the start of `s`. -/
def space_len (s : List Char) : Nat :=
  (s.takeWhile is_space).length

/-- Pattern of a punctuation terminal, `^[\s\n]*<c>[\s\n]*`: the number of
bytes of the whole match. -/
def match_punct (c : Char) (s : List Char) : Option Nat :=
  match s.dropWhile is_space with
  | d :: r => if d = c then some (space_len s + 1 + space_len r) else none
  | [] => none

/-- Pattern `^[\s\n]*([a-z][a-z0-9_-]*)[\s\n]*`: capture group 1 and the
length of the whole match. -/
def match_name (s : List Char) : Option (List Char × Nat) :=
  match s.dropWhile is_space with
  | c :: r =>
    if is_lower c then
      some (c :: r.takeWhile is_name_char,
        space_len s + 1 + (r.takeWhile is_name_char).length
          + space_len (r.dropWhile is_name_char))
    else none
  | [] => none

/-- Pattern `^[\s\n]*(\d*\.\d*)[\s\n]*`: capture group 1 and the length of the
whole match. -/
def match_numeric (s : List Char) : Option (List Char × Nat) :=
  let r := s.dropWhile is_space
  match r.dropWhile is_digit with
  | c :: r1 =>
    if c.toNat = 46 then
      some (r.takeWhile is_digit ++ c :: r1.takeWhile is_digit,
        space_len s + (r.takeWhile is_digit).length + 1
          + (r1.takeWhile is_digit).length + space_len (r1.dropWhile is_digit))
    else none
  | [] => none

/-- Pattern `^[\s\n]*'(.*?)'[\s\n]*`: capture group 1 (the text between the
opening quote and the first quote after it) and the length of the whole
match. -/
def match_string (s : List Char) : Option (List Char × Nat) :=
  match s.dropWhile is_space with
  | q :: r =>
    if q.toNat = 39 then
      match r.dropWhile is_string_char with
      | q2 :: r1 =>
        if q2.toNat = 39 then
          some (r.takeWhile is_string_char,
            space_len s + 1 + (r.takeWhile is_string_char).length + 1 + space_len r1)
        else none
      | [] => none
    else none
  | [] => none

/-- The compiled pattern `regex[type]` applied at the start of `s`
(`g_regex_match_full`): on a match, capture group 1 (empty for the
punctuation terminals, which have no group) and the end offset of the whole
match. -/
def regex_match : TerminalSymbol → List Char → Option (List Char × Nat)
  | .NAME, s => match_name s
  | .NUMERIC_VALUE, s => match_numeric s
  | .STRING_VALUE, s => match_string s
  | .OPENING_PAREN, s => (match_punct '(' s).map fun n => ([], n)
  | .CLOSING_PAREN, s => (match_punct ')' s).map fun n => ([], n)
  | .COMMA, s => (match_punct ',' s).map fun n => ([], n)
  | .ASSIGNMENT, s => (match_punct '=' s).map fun n => ([], n)

/-! ## Objects, registry and effects -/

/-- A `GType` descriptor; `0` is `G_TYPE_INVALID`. -/
abbrev GType := Nat

/-- The value `G_TYPE_INVALID`. -/
def G_TYPE_INVALID : GType := 0

/-- A GObject instance behind a `GstObject *`: its identity and its run-time
type. -/
structure GstObject where
  id : Nat
  gtype : GType
deriving DecidableEq, Repr

/-- The run-time type checks the parser uses; the macros `GST_IS_OBJECT` and
`GST_IS_CONTROL_BINDING` are declared outside this file and are taken as
parameters: which types are `GstObject`s and which are control bindings. -/
structure TypeSystem where
  is_object : GType → Bool
  is_control_binding : GType → Bool

/-- Macro `GST_IS_OBJECT (obj)` on a possibly null pointer. -/
def GST_IS_OBJECT (ts : TypeSystem) : Option GstObject → Bool
  | none => false
  | some o => ts.is_object o.gtype

/-- Macro `GST_IS_CONTROL_BINDING (obj)` on a non-null pointer. -/
def GST_IS_CONTROL_BINDING (ts : TypeSystem) (o : GstObject) : Bool :=
  ts.is_control_binding o.gtype

/-- A `GHashTable` with string keys (`g_str_hash`, `g_str_equal`): keys with
the pointer-sized value stored under them. -/
abbrev GHashTable := List (List Char × Nat)

/-- Library call `g_hash_table_insert`: a value stored under an existing key
is replaced. -/
def g_hash_table_insert (t : GHashTable) (key : List Char) (value : Nat) : GHashTable :=
  (key, value) :: t.filter fun e => e.1 ≠ key

/-- Library call `g_hash_table_lookup`: the stored value, or `NULL` (0). -/
def g_hash_table_lookup (t : GHashTable) (key : List Char) : Nat :=
  match t.find? fun e => e.1 = key with
  | some e => e.2
  | none => 0

/-- Macro `GINT_TO_POINTER` applied to a `GType` on an LP64 platform,
`(gpointer) (glong) (type)`: all 64 bits are kept. -/
def GINT_TO_POINTER (type : GType) : Nat :=
  type % 2 ^ 64

/-- Macro `GPOINTER_TO_INT` followed by the cast `(GType)` on an LP64
platform, `(GType) (gint) (glong) (p)`: the pointer is cut to a signed 32-bit
`gint`, which is then sign-extended to the 64-bit `GType`. -/
def GPOINTER_TO_INT (p : Nat) : GType :=
  if p % 2 ^ 32 < 2 ^ 31 then p % 2 ^ 32 else 2 ^ 64 - 2 ^ 32 + p % 2 ^ 32

/-- The two static tables `bindings` and `sources`; `none` is the `NULL`
pointer of a table that was never created. -/
structure Registry where
  bindings : Option GHashTable
  sources : Option GHashTable
deriving DecidableEq, Repr

/-- The registry at program start. -/
def Registry.empty : Registry := ⟨none, none⟩

/-- Function `gst_control_binding_register`. -/
def gst_control_binding_register (reg : Registry) (name : List Char) (type : GType) : Registry :=
  let table := g_hash_table_insert (reg.bindings.getD []) name (GINT_TO_POINTER type)
  { reg with bindings := some table }

/-- Function `gst_control_source_register`. -/
def gst_control_source_register (reg : Registry) (name : List Char) (type : GType) : Registry :=
  let table := g_hash_table_insert (reg.sources.getD []) name (GINT_TO_POINTER type)
  { reg with sources := some table }

/-- One observable side effect of the parser on the object world. -/
inductive Effect
  /-- Call `g_object_new (type, "object", parent, "name", prop_name, NULL)`. -/
  | new_binding (object parent : GstObject) (prop_name : List Char)
  /-- Call `g_object_new (type, NULL)`. -/
  | new_source (object : GstObject)
  /-- Call `gst_object_add_control_binding (parent, binding)`. -/
  | add_control_binding (parent binding : GstObject)
  /-- Call `g_object_set (parent, prop_name, object, NULL)`. -/
  | object_set (parent : GstObject) (prop_name : List Char) (object : GstObject)
  /-- Call `gst_util_set_object_arg (object, prop_name, value)`. -/
  | set_object_arg (object : GstObject) (prop_name : List Char) (value : List Char)
deriving DecidableEq, Repr

/-- The object world: the number of objects constructed so far (the identity
of the next one) and the chronological log of effects. -/
structure World where
  next_id : Nat
  log : List Effect
deriving DecidableEq, Repr

/-- Library call `g_object_new`: a fresh instance of `type`. -/
def g_object_new (type : GType) (w : World) : GstObject :=
  ⟨w.next_id, type⟩

/-- Function `gst_control_binding_facory_make`: `none` is the `NULL` result. -/
def gst_control_binding_facory_make (reg : Registry) (name : List Char) (parent : GstObject)
    (prop_name : List Char) (w : World) : Option (GstObject × World) :=
  match reg.bindings with
  | none => none
  | some bindings =>
    let type := GPOINTER_TO_INT (g_hash_table_lookup bindings name)
    if type ≠ G_TYPE_INVALID then
      let object := g_object_new type w
      some (object, ⟨w.next_id + 1, w.log ++ [Effect.new_binding object parent prop_name]⟩)
    else none

/-- Function `gst_control_source_facory_make`: `none` is the `NULL` result. -/
def gst_control_source_facory_make (reg : Registry) (name : List Char) (w : World) :
    Option (GstObject × World) :=
  match reg.sources with
  | none => none
  | some sources =>
    let type := GPOINTER_TO_INT (g_hash_table_lookup sources name)
    if type ≠ G_TYPE_INVALID then
      let object := g_object_new type w
      some (object, ⟨w.next_id + 1, w.log ++ [Effect.new_source object]⟩)
    else none

/-! ## Parser context and error codes -/

/-- The record `GstControlParserContext`: `expr` in byte-indexed form, `pos` the
byte offset of the cursor. -/
structure GstControlParserContext where
  expr : List Char
  pos : Nat
  error_code : Nat
  object : GstObject
  prop_name : List Char
deriving DecidableEq, Repr

/-- Error code `GST_CONTROL_PARSER_ERROR_EXPECT_FUNCTION_NAME`. -/
def EXPECT_FUNCTION_NAME : Nat := 1
/-- Error code `GST_CONTROL_PARSER_ERROR_EXPECT_OPENING_PAREN`. -/
def EXPECT_OPENING_PAREN : Nat := 2
/-- Error code `GST_CONTROL_PARSER_ERROR_EXPECT_COMMA_OR_CLOSING_PAREN`. -/
def EXPECT_COMMA_OR_CLOSING_PAREN : Nat := 3
/-- Error code `GST_CONTROL_PARSER_ERROR_EXPECT_PARAMETER_NAME`. -/
def EXPECT_PARAMETER_NAME : Nat := 4
/-- Error code `GST_CONTROL_PARSER_ERROR_EXPECT_ASSIGNMENT`. -/
def EXPECT_ASSIGNMENT : Nat := 5
/-- Error code `GST_CONTROL_PARSER_ERROR_EXPECT_VALUE`. -/
def EXPECT_VALUE : Nat := 6
/-- Error code `GST_CONTROL_PARSER_ERROR_EXPECT_FUNCTION_OR_VALUE`. -/
def EXPECT_FUNCTION_OR_VALUE : Nat := 7
/-- Error code `GST_CONTROL_PARSER_ERROR_UNSUPPORTED_CONTROL_SOURCE`. -/
def UNSUPPORTED_CONTROL_SOURCE : Nat := 8
/-- Error code `GST_CONTROL_PARSER_ERROR_UNSUPPORTED_CONTROL_BINDING`. -/
def UNSUPPORTED_CONTROL_BINDING : Nat := 9

/-- Function `get_error_string`. -/
def get_error_string (ctx : GstControlParserContext) : List Char :=
  match ctx.error_code with
  | 1 => "expect <name> for function".toList
  | 2 => "expect <(>".toList
  | 3 => "expect <,> or <)>".toList
  | 4 => "expect <name> for parameter".toList
  | 5 => "expect <=>".toList
  | 6 => "expect <value>".toList
  | 7 => "expect <function> or <value> for parameter".toList
  | 8 => "unsupported control-source".toList
  | 9 => "unsupported control-binding".toList
  | _ => []

/-- Conversion `%d` of a non-negative `gint`. -/
def format_decimal (n : Nat) : List Char :=
  (Nat.toDigits 10 n)

/-- Conversion `%*s` with field width `width`: the text right-justified, padded
with spaces on the left up to the width. -/
def pad_left (width : Nat) (s : List Char) : List Char :=
  List.replicate (width - s.length) ' ' ++ s

/-- Function `format_error`. -/
def format_error (ctx : GstControlParserContext) : List Char :=
  let one_line := ctx.expr.map fun c => if c = '\n' then ' ' else c
  "Syntax error: ".toList ++ get_error_string ctx ++ " at pos: ".toList
    ++ format_decimal ctx.pos ++ "\n  ".toList ++ one_line ++ "\n   ".toList
    ++ pad_left ctx.pos ['^']

/-- Function `parse_terminal`: `none` is the result `FALSE` (the context is not
touched); otherwise the context with the cursor advanced by the length of the
match in bytes (`consumed`, the end offset of the whole match), and capture
group 1. -/
def parse_terminal (type : TerminalSymbol) (ctx : GstControlParserContext) :
    Option (GstControlParserContext × List Char) :=
  match regex_match type (ctx.expr.drop ctx.pos) with
  | some (value, consumed) => some ({ ctx with pos := ctx.pos + consumed }, value)
  | none => none

/-- The exit through the label `error:` of `parse`: the caller's context
`_ctx` receives cursor and error code of the local copy `ctx` only when
`fatal` is set. -/
def error_exit (_ctx ctx : GstControlParserContext) (fatal : Bool) : GstControlParserContext :=
  if fatal then { _ctx with pos := ctx.pos, error_code := ctx.error_code } else _ctx

/-- Appends an effect to the log of the world. -/
def World.record (w : World) (e : Effect) : World :=
  { w with log := w.log ++ [e] }

/-! ## The grammar engine -/

mutual

/-- Function `parse`: one grammar rule applied to the caller's context `_ctx`.
The result is the C return value, the caller's context after the call and the
world after the call. -/
def parse (ts : TypeSystem) (reg : Registry) :
    Nat → Symbol → GstControlParserContext → Bool → World →
      Option (Bool × GstControlParserContext × World)
  | 0, _, _, _, _ => none
  | fuel + 1, .FUNCTION, _ctx, fatal, w =>
    match parse_terminal .NAME _ctx with
    | none => some (false, error_exit _ctx { _ctx with error_code := EXPECT_FUNCTION_NAME } fatal, w)
    | some (ctx, name) =>
      match parse_terminal .OPENING_PAREN ctx with
      | none => some (false, error_exit _ctx { ctx with error_code := EXPECT_OPENING_PAREN } fatal, w)
      | some (ctx, _) =>
        -- create new object
        let made :=
          if GST_IS_CONTROL_BINDING ts ctx.object then
            (gst_control_source_facory_make reg name w, UNSUPPORTED_CONTROL_SOURCE)
          else
            (gst_control_binding_facory_make reg name ctx.object ctx.prop_name w,
              UNSUPPORTED_CONTROL_BINDING)
        match made with
        | (none, code) => some (false, error_exit _ctx { ctx with error_code := code } fatal, w)
        | (some (object, w), _) =>
          -- set object on parent
          let w :=
            if GST_IS_CONTROL_BINDING ts object then
              w.record (Effect.add_control_binding ctx.object object)
            else w.record (Effect.object_set ctx.object ctx.prop_name object)
          let ctx := { ctx with object := object }
          match parse_terminal .CLOSING_PAREN ctx with
          | some (ctx, _) => some (true, { _ctx with object := object, pos := ctx.pos }, w)
          | none =>
            match parse ts reg fuel .NAMED_PARAMETERS ctx fatal w with
            | none => none
            | some (false, _, w) => some (false, _ctx, w)
            | some (true, ctx, w) =>
              some (true, { _ctx with object := object, pos := ctx.pos }, w)
  | fuel + 1, .NAMED_PARAMETERS, _ctx, fatal, w =>
    match named_parameters_loop ts reg fuel _ctx fatal w with
    | none => none
    | some (true, ctx, w) => some (true, { _ctx with pos := ctx.pos }, w)
    | some (false, ctx, w) => some (false, error_exit _ctx ctx fatal, w)
  | fuel + 1, .NAMED_PARAMETER, _ctx, fatal, w =>
    match parse_terminal .NAME _ctx with
    | none =>
      some (false, error_exit _ctx { _ctx with error_code := EXPECT_PARAMETER_NAME } fatal, w)
    | some (ctx, name) =>
      match parse_terminal .ASSIGNMENT ctx with
      | none => some (false, error_exit _ctx { ctx with error_code := EXPECT_ASSIGNMENT } fatal, w)
      | some (ctx, _) =>
        let ctx := { ctx with prop_name := name }
        -- try a function or value, don't store error, so that we can backtrack
        match parse ts reg fuel .FUNCTION ctx false w with
        | none => none
        | some (true, ctx, w) => some (true, { _ctx with pos := ctx.pos }, w)
        | some (false, ctx, w) =>
          match parse ts reg fuel .VALUE ctx false w with
          | none => none
          | some (true, ctx, w) => some (true, { _ctx with pos := ctx.pos }, w)
          | some (false, ctx, w) =>
            some (false,
              error_exit _ctx { ctx with error_code := EXPECT_FUNCTION_OR_VALUE } fatal, w)
  | _ + 1, .VALUE, _ctx, fatal, w =>
    match parse_terminal .NUMERIC_VALUE _ctx with
    | some (ctx, value) =>
      some (true, { _ctx with pos := ctx.pos },
        w.record (Effect.set_object_arg ctx.object ctx.prop_name value))
    | none =>
      match parse_terminal .STRING_VALUE _ctx with
      | some (ctx, value) =>
        some (true, { _ctx with pos := ctx.pos },
          w.record (Effect.set_object_arg ctx.object ctx.prop_name value))
      | none => some (false, error_exit _ctx { _ctx with error_code := EXPECT_VALUE } fatal, w)

/-- The `do ... while (more_parameters)` loop of the `NAMED_PARAMETERS` case,
run on the local copy `ctx`.  The result is `true` when the loop is left
through `break`, `false` when it is left through `goto error`, with the local
copy at that point. -/
def named_parameters_loop (ts : TypeSystem) (reg : Registry) :
    Nat → GstControlParserContext → Bool → World →
      Option (Bool × GstControlParserContext × World)
  | 0, _, _, _ => none
  | fuel + 1, ctx, fatal, w =>
    match parse ts reg fuel .NAMED_PARAMETER ctx fatal w with
    | none => none
    | some (false, ctx, w) => some (false, ctx, w)
    | some (true, ctx, w) =>
      match parse_terminal .COMMA ctx with
      | some (ctx, _) => named_parameters_loop ts reg fuel ctx fatal w
      | none =>
        match parse_terminal .CLOSING_PAREN ctx with
        | some (ctx, _) => some (true, ctx, w)
        | none => some (false, { ctx with error_code := EXPECT_COMMA_OR_CLOSING_PAREN }, w)

end

/-- Outcome of `gst_control_parser_parse`: the return value, the `GError` set
through `error` (code and message) if any, the local context at the end
(`none` when a precondition check returned before the grammar ran), and the
world. -/
structure Outcome where
  ret : Bool
  error : Option (Nat × List Char)
  ctx : Option GstControlParserContext
  world : World
deriving DecidableEq, Repr

/-- Fuel that `gst_control_parser_parse` hands to `parse`. -/
def parse_fuel (expr : List Char) : Nat :=
  2 * expr.length + 8

/-- Function `gst_control_parser_parse`.  The pointers `expr`, `parent` and
`prop_name` may be null (`none`); `error` tells whether the caller passed a
place for the `GError`. -/
def gst_control_parser_parse (ts : TypeSystem) (reg : Registry) (expr : Option (List Char))
    (parent : Option GstObject) (prop_name : Option (List Char)) (error : Bool) (w : World) :
    Option Outcome :=
  match expr, parent, prop_name with
  | some expr, some parent, some prop_name =>
    if GST_IS_OBJECT ts (some parent) then
      let ctx : GstControlParserContext :=
        { expr := expr, pos := 0, error_code := 0, object := parent, prop_name := prop_name }
      match parse ts reg (parse_fuel expr) .FUNCTION ctx true w with
      | none => none
      | some (true, ctx, w) => some ⟨true, none, some ctx, w⟩
      | some (false, ctx, w) =>
        some ⟨false, if error then some (ctx.error_code, format_error ctx) else none, some ctx, w⟩
    else some ⟨false, none, none, w⟩
  | _, _, _ => some ⟨false, none, none, w⟩

/-! ## Vocabulary of the specification -/

/-- The type the binding factory finds for `name`: the value read back from the
table `bindings`, `G_TYPE_INVALID` when there is none. -/
def Registry.binding_type (reg : Registry) (name : List Char) : GType :=
  match reg.bindings with
  | none => G_TYPE_INVALID
  | some bindings => GPOINTER_TO_INT (g_hash_table_lookup bindings name)

/-- The type the source factory finds for `name`. -/
def Registry.source_type (reg : Registry) (name : List Char) : GType :=
  match reg.sources with
  | none => G_TYPE_INVALID
  | some sources => GPOINTER_TO_INT (g_hash_table_lookup sources name)

/-- Whether the table `bindings` has an entry under the key `name`. -/
def Registry.has_binding (reg : Registry) (name : List Char) : Bool :=
  match reg.bindings with
  | none => false
  | some bindings => bindings.any fun e => e.1 = name

/-- Whether the table `sources` has an entry under the key `name`. -/
def Registry.has_source (reg : Registry) (name : List Char) : Bool :=
  match reg.sources with
  | none => false
  | some sources => sources.any fun e => e.1 = name

/-- The name `name` is registered as a binding: the binding factory finds a
valid type for it, and instances of that type are control bindings. -/
def registered_binding (ts : TypeSystem) (reg : Registry) (name : List Char) : Prop :=
  reg.binding_type name ≠ G_TYPE_INVALID ∧ ts.is_control_binding (reg.binding_type name) = true

/-- The name `name` is registered as a source: the source factory finds a valid
type for it, and instances of that type are not control bindings. -/
def registered_source (ts : TypeSystem) (reg : Registry) (name : List Char) : Prop :=
  reg.source_type name ≠ G_TYPE_INVALID ∧ ts.is_control_binding (reg.source_type name) = false

/-- The outcome of a failed precondition check (`g_return_val_if_fail`): the
result `FALSE`, no `GError`, the grammar not run, the world untouched. -/
def precondition_failure (w : World) : Outcome :=
  ⟨false, none, none, w⟩

/-! ## The example program (`tests/examples/controller/controlparser.c`) -/

/-- Sample descriptor for the type of the target element (`audiotestsrc`). -/
def example_element_type : GType := 80
/-- Sample descriptor standing for `GST_TYPE_ARGB_CONTROL_BINDING`. -/
def example_argb_type : GType := 81
/-- Sample descriptor standing for `GST_TYPE_DIRECT_CONTROL_BINDING`. -/
def example_direct_type : GType := 82
/-- Sample descriptor standing for `GST_TYPE_LFO_CONTROL_SOURCE`. -/
def example_lfo_type : GType := 83

/-- Type system of the example: the four types are `GstObject`s, the argb and
the direct type are control bindings. -/
def example_types : TypeSystem where
  is_object t := 80 ≤ t && t ≤ 83
  is_control_binding t := t = 81 || t = 82

/-- The registrations of `main`: bindings `argb` and `direct`, source `lfo`. -/
def example_registry : Registry :=
  gst_control_source_register
    (gst_control_binding_register
      (gst_control_binding_register Registry.empty "argb".toList example_argb_type)
      "direct".toList example_direct_type)
    "lfo".toList example_lfo_type

/-- A registry with the binding `direct` and the source `lfo` only. -/
def registry_without_argb : Registry :=
  gst_control_source_register
    (gst_control_binding_register Registry.empty "direct".toList example_direct_type)
    "lfo".toList example_lfo_type

/-- The target element `src` of the example. -/
def example_src : GstObject := ⟨0, example_element_type⟩

/-- A world in which only the target element exists. -/
def example_world : World := ⟨1, []⟩

/-! ## Notions used in the statements -/

/-- The log of `w'` continues the log of `w`. -/
def World.extends_log (w w' : World) : Prop :=
  ∃ rest, w'.log = w.log ++ rest

/-- Relation between the caller's context before (`c`) and after (`c'`) a call
of a rule with return value `b`: expression and attribute name are kept, the
cursor does not move back, moves forward on success and stays inside the
expression. -/
def Advanced (c c' : GstControlParserContext) (b : Bool) : Prop :=
  c'.expr = c.expr ∧ c'.prop_name = c.prop_name ∧ c.pos ≤ c'.pos ∧
    (b = true → c.pos < c'.pos ∧ c'.pos ≤ c.expr.length) ∧
    (c.pos ≤ c.expr.length → c'.pos ≤ c.expr.length)

/-- Fuel that suffices for a rule when `r` characters remain after the cursor. -/
def rule_fuel : Symbol → Nat → Nat
  | .FUNCTION, r => r + 3
  | .NAMED_PARAMETERS, r => r + 4
  | .NAMED_PARAMETER, r => r + 2
  | .VALUE, _ => 1

/-- The effect by which the FUNCTION rule sets a constructed object on its
parent. -/
def attach_effect (ts : TypeSystem) (parent : GstObject) (prop_name : List Char)
    (object : GstObject) : Effect :=
  if GST_IS_CONTROL_BINDING ts object then Effect.add_control_binding parent object
  else Effect.object_set parent prop_name object

/-- The effect by which the FUNCTION rule constructs an object. -/
def construct_effect (ts : TypeSystem) (parent : GstObject) (prop_name : List Char)
    (object : GstObject) : Effect :=
  if GST_IS_CONTROL_BINDING ts parent then Effect.new_source object
  else Effect.new_binding object parent prop_name

/-- The type found in the table the dispatch rule selects. -/
def dispatch_type (ts : TypeSystem) (reg : Registry) (target : GstObject) (name : List Char) :
    GType :=
  if GST_IS_CONTROL_BINDING ts target then reg.source_type name else reg.binding_type name

/-! ## Expressions of the scenarios -/

/-- The expression in which the value after `frequency=` is missing. -/
def missing_value_expr : List Char :=
  "direct(control-source=lfo(waveform='sine',frequency=))".toList

/-- The expression of the example program that uses the source `add`. -/
def add_expr : List Char :=
  "direct(control-source=add(v1=0.5,v2=direct(control-source=lfo(waveform='sine',frequency=0.5))))".toList

/-- The first expression of the example program. -/
def lfo_expr : List Char :=
  "direct(control-source=lfo(waveform='sine',offset=0.5,amplitude=0.3,frequency=0.5))".toList

/-! ## The grammar of controller expressions -/

/-- Productions of the grammar of controller expressions:
`function := NAME '(' [parameters] ')'`,
`parameters := parameter (',' parameter)*`,
`parameter := NAME '=' (function | value)`,
`value := NUMERIC_VALUE | STRING_VALUE`. -/
inductive Production
  | function
  | parameters
  | parameter
  | value
deriving DecidableEq, Repr

/-- The function name is registered in the table that the dispatch rule
selects for a target that is a binding (`true`: the source table) or is not
one (`false`: the binding table). -/
def registered_for (ts : TypeSystem) (reg : Registry) (target_is_binding : Bool)
    (name : List Char) : Prop :=
  if target_is_binding then registered_source ts reg name else registered_binding ts reg name

/-- Relation `Derives ts reg p b s n`: the first `n` characters of the text `s`
are derived from the production `p` of the grammar, the terminals being what the
tokenizer's patterns match, for a current target object that is (`b = true`)
or is not a binding; every function name is registered in the table the
dispatch rule selects at its nesting position. -/
inductive Derives (ts : TypeSystem) (reg : Registry) :
    Production → Bool → List Char → Nat → Prop
  | value_numeric {b : Bool} {s v : List Char} {n : Nat} :
      regex_match .NUMERIC_VALUE s = some (v, n) → Derives ts reg .value b s n
  | value_string {b : Bool} {s v : List Char} {n : Nat} :
      regex_match .STRING_VALUE s = some (v, n) → Derives ts reg .value b s n
  | parameter_value {b : Bool} {s name x : List Char} {n1 n2 n3 : Nat} :
      regex_match .NAME s = some (name, n1) →
      regex_match .ASSIGNMENT (s.drop n1) = some (x, n2) →
      Derives ts reg .value b (s.drop (n1 + n2)) n3 →
      Derives ts reg .parameter b s (n1 + n2 + n3)
  | parameter_function {b : Bool} {s name x : List Char} {n1 n2 n3 : Nat} :
      regex_match .NAME s = some (name, n1) →
      regex_match .ASSIGNMENT (s.drop n1) = some (x, n2) →
      Derives ts reg .function b (s.drop (n1 + n2)) n3 →
      Derives ts reg .parameter b s (n1 + n2 + n3)
  | parameters_last {b : Bool} {s : List Char} {n : Nat} :
      Derives ts reg .parameter b s n → Derives ts reg .parameters b s n
  | parameters_more {b : Bool} {s x : List Char} {n1 n2 n3 : Nat} :
      Derives ts reg .parameter b s n1 →
      regex_match .COMMA (s.drop n1) = some (x, n2) →
      Derives ts reg .parameters b (s.drop (n1 + n2)) n3 →
      Derives ts reg .parameters b s (n1 + n2 + n3)
  | function_empty {b : Bool} {s name x y : List Char} {n1 n2 n3 : Nat} :
      regex_match .NAME s = some (name, n1) →
      regex_match .OPENING_PAREN (s.drop n1) = some (x, n2) →
      registered_for ts reg b name →
      regex_match .CLOSING_PAREN (s.drop (n1 + n2)) = some (y, n3) →
      Derives ts reg .function b s (n1 + n2 + n3)
  | function_parameters {b : Bool} {s name x y : List Char} {n1 n2 n3 n4 : Nat} :
      regex_match .NAME s = some (name, n1) →
      regex_match .OPENING_PAREN (s.drop n1) = some (x, n2) →
      registered_for ts reg b name →
      Derives ts reg .parameters (!b) (s.drop (n1 + n2)) n3 →
      regex_match .CLOSING_PAREN (s.drop (n1 + n2 + n3)) = some (y, n4) →
      Derives ts reg .function b s (n1 + n2 + n3 + n4)

/-- A short expression of the grammar: a binding with one source that has one
numeric parameter. -/
def short_expr : List Char := "direct(control-source=lfo(frequency=0.5))".toList

/-! ## The diagnostic as the specification words it, and its lines -/

/-- The diagnostic as the specification words it: the fixed head, the
description, the cursor, the expression on one line after two spaces, and on
the last line three spaces, as many spaces as the cursor says, and the caret. -/
def spec_diagnostic (ctx : GstControlParserContext) : List Char :=
  "Syntax error: ".toList ++ get_error_string ctx ++ " at pos: ".toList
    ++ (toString ctx.pos).toList ++ ['\n'] ++ [' ', ' ']
    ++ (ctx.expr.map fun c => if c = '\n' then ' ' else c) ++ ['\n'] ++ [' ', ' ', ' ']
    ++ List.replicate ctx.pos ' ' ++ ['^']

/-- The last line of a message: the text after its last newline. -/
def last_line (msg : List Char) : List Char :=
  (msg.reverse.takeWhile fun c => c ≠ '\n').reverse

/-- The text of a message before its last newline. -/
def before_last_line (msg : List Char) : List Char :=
  (msg.reverse.dropWhile fun c => c ≠ '\n').tail.reverse

/-- The line above the last line of a message. -/
def line_above (msg : List Char) : List Char :=
  last_line (before_last_line msg)

/-- Column of the caret on the last line of a diagnostic. -/
def caret_column (msg : List Char) : Nat :=
  (last_line msg).indexOf '^'

/-! ## The matched span of a terminal, in the words of the specification -/

/-- Every unit of the text is white space. -/
def all_space (s : List Char) : Prop :=
  ∀ c ∈ s, is_space c = true

/-- Shape of the token of a terminal symbol: `text` is the token, `value` its
first capture group and `after` the text that follows the token.  A name is a
lowercase letter followed by name characters, as many as there are; a numeric
value is digits, a dot, digits, as many as there are; a string value is the
text between two quotes, with no quote and no line break in it; the punctuation
terminals are one character and have no capture group. -/
def Token : TerminalSymbol → List Char → List Char → List Char → Prop
  | .NAME, value, text, after =>
    text = value ∧ (∃ c t, value = c :: t ∧ is_lower c = true ∧ ∀ x ∈ t, is_name_char x = true) ∧
      ∀ c, after.head? = some c → is_name_char c = false
  | .NUMERIC_VALUE, value, text, after =>
    text = value ∧ (∃ d1 d2, value = d1 ++ '.' :: d2 ∧ (∀ x ∈ d1, is_digit x = true) ∧
      ∀ x ∈ d2, is_digit x = true) ∧
      ∀ c, after.head? = some c → is_digit c = false
  | .STRING_VALUE, value, text, _ =>
    text = '\'' :: (value ++ ['\'']) ∧ ∀ x ∈ value, is_string_char x = true
  | .OPENING_PAREN, value, text, _ => text = ['('] ∧ value = []
  | .CLOSING_PAREN, value, text, _ => text = [')'] ∧ value = []
  | .COMMA, value, text, _ => text = [','] ∧ value = []
  | .ASSIGNMENT, value, text, _ => text = ['='] ∧ value = []

/-- The first `n` units of `s` are the matched span of a terminal: all the
white space at the start of `s`, the token with capture group `value`, and all
the white space that follows the token. -/
def Span (type : TerminalSymbol) (s value : List Char) (n : Nat) : Prop :=
  ∃ ws1 text ws2 rest, s = ws1 ++ text ++ ws2 ++ rest ∧ n = (ws1 ++ text ++ ws2).length ∧
    all_space ws1 ∧ all_space ws2 ∧ (∀ c, rest.head? = some c → is_space c = false) ∧
    (∀ c, text.head? = some c → is_space c = false) ∧ Token type value text (ws2 ++ rest)

/-- The offset just past the opening parenthesis, in the words of the
specification: the offset of the first opening parenthesis of the expression,
plus one. -/
def offset_past_opening_paren (expr : List Char) : Nat :=
  expr.indexOf '(' + 1

/-- The value of a `gint` in which the offset `n` is stored: the low 32 bits of
`n`, read as a two's complement number. -/
def to_gint (n : Nat) : Int :=
  if n % 2 ^ 32 < 2 ^ 31 then ((n % 2 ^ 32 : Nat) : Int) else ((n % 2 ^ 32 : Nat) : Int) - 2 ^ 32

/-! ## The documented numeric literal, and the meaning of an expression -/

/-- A numeric literal of the grammar documented with the example program,
numeric-value written as digits, an optional dot, digits: one or more digits, an
optional dot, one or more digits. -/
def documented_numeric (s : List Char) : Bool :=
  match s.dropWhile is_digit with
  | [] => decide (2 ≤ s.length)
  | c :: d2 => c = '.' && decide (1 ≤ (s.takeWhile is_digit).length) && decide (1 ≤ d2.length)
      && d2.all is_digit

/-- The production of the grammar that a rule of the parser stands for. -/
def rule_production : Symbol → Production
  | .FUNCTION => .function
  | .NAMED_PARAMETERS => .parameters
  | .NAMED_PARAMETER => .parameter
  | .VALUE => .value

/-- The world after an object was constructed for a function and set on the
target of the function: the next free identity, and the two effects. -/
def World.constructed (ts : TypeSystem) (w : World) (target : GstObject) (prop : List Char)
    (object : GstObject) : World :=
  ⟨w.next_id + 1,
    w.log ++ [construct_effect ts target prop object, attach_effect ts target prop object]⟩

/-- Relation `Applied ts reg p target prop s n w w1`, the meaning of an
expression in the words of the specification: the first `n` units of the text
`s`, read as production `p`, are applied to the object `target` under the
attribute name `prop`, which takes the world from `w` to `w1`.  A value is set
on the target under the attribute name.  A parameter `name=...` applies its
value or its function to the target under its own name.  Every parameter of a
list is applied to the target of the list; the list ends with the closing
parenthesis.  A function constructs an object of the type registered for its
name, sets it on the target, and applies its parameter list to the constructed
object. -/
inductive Applied (ts : TypeSystem) (reg : Registry) :
    Production → GstObject → List Char → List Char → Nat → World → World → Prop
  | value_numeric {target : GstObject} {prop s v : List Char} {n : Nat} {w : World} :
      regex_match .NUMERIC_VALUE s = some (v, n) →
      Applied ts reg .value target prop s n w (w.record (Effect.set_object_arg target prop v))
  | value_string {target : GstObject} {prop s v : List Char} {n : Nat} {w : World} :
      regex_match .NUMERIC_VALUE s = none →
      regex_match .STRING_VALUE s = some (v, n) →
      Applied ts reg .value target prop s n w (w.record (Effect.set_object_arg target prop v))
  | parameter_value {target : GstObject} {prop s name x : List Char} {n1 n2 n3 : Nat}
      {w w1 : World} :
      regex_match .NAME s = some (name, n1) →
      regex_match .ASSIGNMENT (s.drop n1) = some (x, n2) →
      Applied ts reg .value target name (s.drop (n1 + n2)) n3 w w1 →
      Applied ts reg .parameter target prop s (n1 + n2 + n3) w w1
  | parameter_function {target : GstObject} {prop s name x : List Char} {n1 n2 n3 : Nat}
      {w w1 : World} :
      regex_match .NAME s = some (name, n1) →
      regex_match .ASSIGNMENT (s.drop n1) = some (x, n2) →
      Applied ts reg .function target name (s.drop (n1 + n2)) n3 w w1 →
      Applied ts reg .parameter target prop s (n1 + n2 + n3) w w1
  | parameters_last {target : GstObject} {prop s y : List Char} {n1 n2 : Nat} {w w1 : World} :
      Applied ts reg .parameter target prop s n1 w w1 →
      regex_match .COMMA (s.drop n1) = none →
      regex_match .CLOSING_PAREN (s.drop n1) = some (y, n2) →
      Applied ts reg .parameters target prop s (n1 + n2) w w1
  | parameters_more {target : GstObject} {prop s x : List Char} {n1 n2 n3 : Nat}
      {w w1 w2 : World} :
      Applied ts reg .parameter target prop s n1 w w1 →
      regex_match .COMMA (s.drop n1) = some (x, n2) →
      Applied ts reg .parameters target prop (s.drop (n1 + n2)) n3 w1 w2 →
      Applied ts reg .parameters target prop s (n1 + n2 + n3) w w2
  | function_empty {target : GstObject} {prop s name x y : List Char} {n1 n2 n3 : Nat}
      {w : World} :
      regex_match .NAME s = some (name, n1) →
      regex_match .OPENING_PAREN (s.drop n1) = some (x, n2) →
      dispatch_type ts reg target name ≠ G_TYPE_INVALID →
      regex_match .CLOSING_PAREN (s.drop (n1 + n2)) = some (y, n3) →
      Applied ts reg .function target prop s (n1 + n2 + n3) w
        (w.constructed ts target prop ⟨w.next_id, dispatch_type ts reg target name⟩)
  | function_parameters {target : GstObject} {prop s name x : List Char} {n1 n2 n3 : Nat}
      {w w1 : World} :
      regex_match .NAME s = some (name, n1) →
      regex_match .OPENING_PAREN (s.drop n1) = some (x, n2) →
      dispatch_type ts reg target name ≠ G_TYPE_INVALID →
      regex_match .CLOSING_PAREN (s.drop (n1 + n2)) = none →
      Applied ts reg .parameters ⟨w.next_id, dispatch_type ts reg target name⟩ prop
        (s.drop (n1 + n2)) n3
        (w.constructed ts target prop ⟨w.next_id, dispatch_type ts reg target name⟩) w1 →
      Applied ts reg .function target prop s (n1 + n2 + n3) w w1

/-! ## Places of failure, replaced expressions and the contexts of a parse -/

/-- The four places at which the top-level FUNCTION of `expr`, evaluated on
`parent`, can fail, with the error kind and the cursor that the final context
`ctx` of `gst_control_parser_parse` then holds: at the name, at the opening
parenthesis, at the factory, or inside the parameter list. -/
def FailurePlace (ts : TypeSystem) (reg : Registry) (expr : List Char) (parent : GstObject)
    (ctx : GstControlParserContext) : Prop :=
  (regex_match .NAME expr = none ∧ ctx.error_code = EXPECT_FUNCTION_NAME ∧ ctx.pos = 0) ∨
  (∃ name n1, regex_match .NAME expr = some (name, n1) ∧
    regex_match .OPENING_PAREN (expr.drop n1) = none ∧
    ctx.error_code = EXPECT_OPENING_PAREN ∧ ctx.pos = n1) ∨
  (∃ name n1 x n2, regex_match .NAME expr = some (name, n1) ∧
    regex_match .OPENING_PAREN (expr.drop n1) = some (x, n2) ∧
    dispatch_type ts reg parent name = G_TYPE_INVALID ∧
    ctx.error_code = (if GST_IS_CONTROL_BINDING ts parent then UNSUPPORTED_CONTROL_SOURCE
      else UNSUPPORTED_CONTROL_BINDING) ∧
    ctx.pos = n1 + n2) ∨
  (∃ name n1 x n2, regex_match .NAME expr = some (name, n1) ∧
    regex_match .OPENING_PAREN (expr.drop n1) = some (x, n2) ∧
    dispatch_type ts reg parent name ≠ G_TYPE_INVALID ∧
    ctx.error_code = 0 ∧ ctx.pos = 0)

/-- The context `ctx` with its expression replaced by `e`. -/
def with_expr (e : List Char) (ctx : GstControlParserContext) : GstControlParserContext :=
  { ctx with expr := e }

/-- Contexts that occur during a top-level parse of `expr`: the initial context
of `gst_control_parser_parse` (cursor 0), the local copy after a terminal has
matched, the caller's context after a rule or the parameter loop has returned,
and a copy with another error code, target object or attribute name.  The code
writes a cursor nowhere else: `parse_terminal` advances the local copy, and the
exits of `parse` copy the cursor of the local copy to the caller. -/
inductive Occurs (ts : TypeSystem) (reg : Registry) (expr : List Char) :
    GstControlParserContext → Prop
  | start (parent : GstObject) (prop_name : List Char) :
    Occurs ts reg expr ⟨expr, 0, 0, parent, prop_name⟩
  | terminal (type : TerminalSymbol) (ctx ctx1 : GstControlParserContext) (value : List Char) :
    Occurs ts reg expr ctx → parse_terminal type ctx = some (ctx1, value) →
    Occurs ts reg expr ctx1
  | rule (fuel : Nat) (type : Symbol) (ctx ctx' : GstControlParserContext) (fatal b : Bool)
      (w w' : World) :
    Occurs ts reg expr ctx → parse ts reg fuel type ctx fatal w = some (b, ctx', w') →
    Occurs ts reg expr ctx'
  | loop (fuel : Nat) (ctx ctx' : GstControlParserContext) (fatal b : Bool) (w w' : World) :
    Occurs ts reg expr ctx →
    named_parameters_loop ts reg fuel ctx fatal w = some (b, ctx', w') →
    Occurs ts reg expr ctx'
  | fields (ctx : GstControlParserContext) (error_code : Nat) (object : GstObject)
      (prop_name : List Char) :
    Occurs ts reg expr ctx →
    Occurs ts reg expr
      { ctx with error_code := error_code, object := object, prop_name := prop_name }

/-! ## Basic facts about the tokenizer and the rules -/

theorem parse_fuel_succ (expr : List Char) : parse_fuel expr = (2 * expr.length + 7) + 1 := rfl

theorem binding_make_eq (reg : Registry) (name : List Char) (parent : GstObject)
    (prop_name : List Char) (w : World) :
    gst_control_binding_facory_make reg name parent prop_name w =
      if reg.binding_type name = G_TYPE_INVALID then none
      else some (⟨w.next_id, reg.binding_type name⟩,
        ⟨w.next_id + 1,
          w.log ++ [Effect.new_binding ⟨w.next_id, reg.binding_type name⟩ parent prop_name]⟩) := by
  unfold gst_control_binding_facory_make Registry.binding_type g_object_new
  cases reg.bindings with
  | none => simp [G_TYPE_INVALID]
  | some t => by_cases h : GPOINTER_TO_INT (g_hash_table_lookup t name) = G_TYPE_INVALID <;> simp [h]

theorem source_make_eq (reg : Registry) (name : List Char) (w : World) :
    gst_control_source_facory_make reg name w =
      if reg.source_type name = G_TYPE_INVALID then none
      else some (⟨w.next_id, reg.source_type name⟩,
        ⟨w.next_id + 1, w.log ++ [Effect.new_source ⟨w.next_id, reg.source_type name⟩]⟩) := by
  unfold gst_control_source_facory_make Registry.source_type g_object_new
  cases reg.sources with
  | none => simp [G_TYPE_INVALID]
  | some t => by_cases h : GPOINTER_TO_INT (g_hash_table_lookup t name) = G_TYPE_INVALID <;> simp [h]

theorem lookup_absent (t : GHashTable) (name : List Char)
    (h : (t.any fun e => e.1 = name) = false) : g_hash_table_lookup t name = 0 := by
  unfold g_hash_table_lookup
  have : t.find? (fun e => decide (e.1 = name)) = none := by
    rw [List.find?_eq_none]
    intro e he
    have := List.any_eq_false.mp h e he
    simpa using this
  rw [this]

theorem binding_type_absent (reg : Registry) (name : List Char)
    (h : reg.has_binding name = false) : reg.binding_type name = G_TYPE_INVALID := by
  unfold Registry.has_binding at h
  unfold Registry.binding_type
  cases hb : reg.bindings with
  | none => rfl
  | some t =>
    rw [hb] at h
    simp only at h ⊢
    rw [lookup_absent t name h]
    rfl

theorem source_type_absent (reg : Registry) (name : List Char)
    (h : reg.has_source name = false) : reg.source_type name = G_TYPE_INVALID := by
  unfold Registry.has_source at h
  unfold Registry.source_type
  cases hb : reg.sources with
  | none => rfl
  | some t =>
    rw [hb] at h
    simp only at h ⊢
    rw [lookup_absent t name h]
    rfl

theorem parse_terminal_of_match (type : TerminalSymbol) (ctx : GstControlParserContext)
    (v : List Char) (n : Nat) (h : regex_match type (ctx.expr.drop ctx.pos) = some (v, n)) :
    parse_terminal type ctx = some ({ ctx with pos := ctx.pos + n }, v) := by
  simp [parse_terminal, h]

theorem parse_terminal_of_no_match (type : TerminalSymbol) (ctx : GstControlParserContext)
    (h : regex_match type (ctx.expr.drop ctx.pos) = none) : parse_terminal type ctx = none := by
  simp [parse_terminal, h]

theorem function_no_name (ts : TypeSystem) (reg : Registry) (fuel : Nat)
    (_ctx : GstControlParserContext) (fatal : Bool) (w : World)
    (h : parse_terminal .NAME _ctx = none) :
    parse ts reg (fuel + 1) .FUNCTION _ctx fatal w =
      some (false, error_exit _ctx { _ctx with error_code := EXPECT_FUNCTION_NAME } fatal, w) := by
  simp only [parse, h]

theorem function_lookup_failed (ts : TypeSystem) (reg : Registry) (fuel : Nat)
    (_ctx ctx1 ctx2 : GstControlParserContext) (name v : List Char) (fatal : Bool) (w : World)
    (hname : parse_terminal .NAME _ctx = some (ctx1, name))
    (hparen : parse_terminal .OPENING_PAREN ctx1 = some (ctx2, v))
    (hmake : (if GST_IS_CONTROL_BINDING ts ctx2.object then reg.source_type name
        else reg.binding_type name) = G_TYPE_INVALID) :
    parse ts reg (fuel + 1) .FUNCTION _ctx fatal w =
      some (false,
        error_exit _ctx
          { ctx2 with error_code :=
              if GST_IS_CONTROL_BINDING ts ctx2.object then UNSUPPORTED_CONTROL_SOURCE
              else UNSUPPORTED_CONTROL_BINDING } fatal, w) := by
  simp only [parse, hname, hparen, binding_make_eq, source_make_eq]
  by_cases hb : GST_IS_CONTROL_BINDING ts ctx2.object = true
  · simp only [hb, if_true] at hmake ⊢
    simp [hmake]
  · simp only [hb] at hmake ⊢
    simp at hmake
    simp [hmake]

/-! ## Tokens have a length between one and the rest of the text -/

theorem length_split (p : Char → Bool) (l : List Char) :
    l.length = (l.takeWhile p).length + (l.dropWhile p).length := by
  have h := congrArg List.length (List.takeWhile_append_dropWhile p l)
  rw [List.length_append] at h
  exact h.symm

theorem space_len_le (s : List Char) : space_len s ≤ s.length := by
  unfold space_len
  have := length_split is_space s
  omega

theorem space_len_add (s : List Char) : s.length = space_len s + (s.dropWhile is_space).length :=
  length_split is_space s

theorem match_punct_bounds (c : Char) (s : List Char) (n : Nat) (h : match_punct c s = some n) :
    1 ≤ n ∧ n ≤ s.length := by
  unfold match_punct at h
  have hs := space_len_add s
  split at h
  · rename_i d r hd
    rw [hd] at hs
    have hr := space_len_le r
    split at h
    · simp only [Option.some.injEq] at h
      simp only [List.length_cons] at hs
      omega
    · simp at h
  · simp at h

theorem match_name_bounds (s v : List Char) (n : Nat) (h : match_name s = some (v, n)) :
    1 ≤ n ∧ n ≤ s.length := by
  unfold match_name at h
  have hs := space_len_add s
  split at h
  · rename_i c r hd
    rw [hd] at hs
    have h1 := length_split is_name_char r
    have h2 := space_len_le (r.dropWhile is_name_char)
    split at h
    · simp only [Option.some.injEq, Prod.mk.injEq] at h
      simp only [List.length_cons] at hs
      omega
    · simp at h
  · simp at h

theorem match_numeric_bounds (s v : List Char) (n : Nat) (h : match_numeric s = some (v, n)) :
    1 ≤ n ∧ n ≤ s.length := by
  unfold match_numeric at h
  have hs := space_len_add s
  have h0 := length_split is_digit (s.dropWhile is_space)
  simp only at h
  split at h
  · rename_i c r1 hd
    rw [hd] at h0
    have h1 := length_split is_digit r1
    have h2 := space_len_le (r1.dropWhile is_digit)
    split at h
    · simp only [Option.some.injEq, Prod.mk.injEq] at h
      simp only [List.length_cons] at h0
      omega
    · simp at h
  · simp at h

theorem match_string_bounds (s v : List Char) (n : Nat) (h : match_string s = some (v, n)) :
    1 ≤ n ∧ n ≤ s.length := by
  unfold match_string at h
  have hs := space_len_add s
  split at h
  · rename_i q r hd
    rw [hd] at hs
    have h0 := length_split is_string_char r
    split at h
    · split at h
      · rename_i q2 r1 hd2
        rw [hd2] at h0
        have h2 := space_len_le r1
        split at h
        · simp only [Option.some.injEq, Prod.mk.injEq] at h
          simp only [List.length_cons] at hs h0
          omega
        · simp at h
      · simp at h
    · simp at h
  · simp at h

theorem regex_match_bounds (type : TerminalSymbol) (s v : List Char) (n : Nat)
    (h : regex_match type s = some (v, n)) : 1 ≤ n ∧ n ≤ s.length := by
  cases type <;> simp only [regex_match, Option.map_eq_some', Prod.mk.injEq] at h
  · exact match_name_bounds s v n h
  · exact match_numeric_bounds s v n h
  · exact match_string_bounds s v n h
  all_goals
    obtain ⟨m, hm, _, rfl⟩ := h
    exact match_punct_bounds _ s m hm

theorem parse_terminal_some {type : TerminalSymbol} {ctx ctx1 : GstControlParserContext}
    {v : List Char} (h : parse_terminal type ctx = some (ctx1, v)) :
    ∃ n, regex_match type (ctx.expr.drop ctx.pos) = some (v, n) ∧
      ctx1 = { ctx with pos := ctx.pos + n } ∧ 1 ≤ n ∧ ctx.pos + n ≤ ctx.expr.length := by
  unfold parse_terminal at h
  cases hm : regex_match type (ctx.expr.drop ctx.pos) with
  | none => rw [hm] at h; simp at h
  | some r =>
    obtain ⟨v1, n⟩ := r
    rw [hm] at h
    simp only [Option.some.injEq, Prod.mk.injEq] at h
    have hb := regex_match_bounds type _ v1 n hm
    simp only [List.length_drop] at hb
    exact ⟨n, by rw [h.2], h.1.symm, hb.1, by omega⟩

/-! ## The log only grows -/

theorem extends_refl (w : World) : w.extends_log w := ⟨[], by simp⟩

theorem extends_trans {w1 w2 w3 : World} (h1 : w1.extends_log w2) (h2 : w2.extends_log w3) :
    w1.extends_log w3 := by
  obtain ⟨r1, h1⟩ := h1
  obtain ⟨r2, h2⟩ := h2
  exact ⟨r1 ++ r2, by rw [h2, h1, List.append_assoc]⟩

theorem extends_record (w : World) (e : Effect) : w.extends_log (w.record e) :=
  ⟨[e], rfl⟩

theorem extends_binding_make {reg : Registry} {name : List Char} {parent : GstObject}
    {prop_name : List Char} {w w' : World} {o : GstObject}
    (h : gst_control_binding_facory_make reg name parent prop_name w = some (o, w')) :
    w.extends_log w' := by
  rw [binding_make_eq] at h
  split at h
  · simp at h
  · simp only [Option.some.injEq, Prod.mk.injEq] at h
    exact ⟨_, by rw [← h.2]⟩

theorem extends_source_make {reg : Registry} {name : List Char} {w w' : World} {o : GstObject}
    (h : gst_control_source_facory_make reg name w = some (o, w')) : w.extends_log w' := by
  rw [source_make_eq] at h
  split at h
  · simp at h
  · simp only [Option.some.injEq, Prod.mk.injEq] at h
    exact ⟨_, by rw [← h.2]⟩

theorem log_extends (ts : TypeSystem) (reg : Registry) (fuel : Nat) :
    (∀ type _ctx fatal w b ctx' w', parse ts reg fuel type _ctx fatal w = some (b, ctx', w') →
      w.extends_log w') ∧
    (∀ ctx fatal w b ctx' w', named_parameters_loop ts reg fuel ctx fatal w = some (b, ctx', w') →
      w.extends_log w') := by
  induction fuel with
  | zero => constructor <;> intros <;> simp_all [parse, named_parameters_loop]
  | succ fuel ih =>
    obtain ⟨ihp, ihl⟩ := ih
    constructor
    · intro type _ctx fatal w b ctx' w' h
      cases type <;> simp only [parse] at h
      · -- FUNCTION
        split at h
        · simp only [Option.some.injEq, Prod.mk.injEq] at h; rw [← h.2.2]; exact extends_refl w
        · split at h
          · simp only [Option.some.injEq, Prod.mk.injEq] at h; rw [← h.2.2]; exact extends_refl w
          · rename_i ctx1 name _ ctx2 v _
            split at h
            · simp only [Option.some.injEq, Prod.mk.injEq] at h; rw [← h.2.2]; exact extends_refl w
            · rename_i object w1 code hmade
              have hw1 : w.extends_log w1 := by
                split at hmade
                · simp only [Prod.mk.injEq] at hmade
                  exact extends_source_make hmade.1
                · simp only [Prod.mk.injEq] at hmade
                  exact extends_binding_make hmade.1
              have hw2 : ∀ e1 e2 : Effect, w.extends_log (if GST_IS_CONTROL_BINDING ts object = true
                  then w1.record e1 else w1.record e2) := by
                intro e1 e2
                split
                · exact extends_trans hw1 (extends_record _ _)
                · exact extends_trans hw1 (extends_record _ _)
              split at h
              · simp only [Option.some.injEq, Prod.mk.injEq] at h; rw [← h.2.2]; exact hw2 _ _
              · split at h
                · simp at h
                · rename_i hp
                  simp only [Option.some.injEq, Prod.mk.injEq] at h; rw [← h.2.2]
                  exact extends_trans (hw2 _ _) (ihp _ _ _ _ _ _ _ hp)
                · rename_i hp
                  simp only [Option.some.injEq, Prod.mk.injEq] at h; rw [← h.2.2]
                  exact extends_trans (hw2 _ _) (ihp _ _ _ _ _ _ _ hp)
      · -- NAMED_PARAMETERS
        split at h
        · simp at h
        · rename_i hl
          simp only [Option.some.injEq, Prod.mk.injEq] at h; rw [← h.2.2]
          exact ihl _ _ _ _ _ _ hl
        · rename_i hl
          simp only [Option.some.injEq, Prod.mk.injEq] at h; rw [← h.2.2]
          exact ihl _ _ _ _ _ _ hl
      · -- NAMED_PARAMETER
        split at h
        · simp only [Option.some.injEq, Prod.mk.injEq] at h; rw [← h.2.2]; exact extends_refl w
        · split at h
          · simp only [Option.some.injEq, Prod.mk.injEq] at h; rw [← h.2.2]; exact extends_refl w
          · split at h
            · simp at h
            · rename_i hf
              simp only [Option.some.injEq, Prod.mk.injEq] at h; rw [← h.2.2]
              exact ihp _ _ _ _ _ _ _ hf
            · rename_i hf
              have h1 := ihp _ _ _ _ _ _ _ hf
              split at h
              · simp at h
              · rename_i hv
                simp only [Option.some.injEq, Prod.mk.injEq] at h; rw [← h.2.2]
                exact extends_trans h1 (ihp _ _ _ _ _ _ _ hv)
              · rename_i hv
                simp only [Option.some.injEq, Prod.mk.injEq] at h; rw [← h.2.2]
                exact extends_trans h1 (ihp _ _ _ _ _ _ _ hv)
      · -- VALUE
        split at h
        · simp only [Option.some.injEq, Prod.mk.injEq] at h; rw [← h.2.2]; exact extends_record _ _
        · split at h
          · simp only [Option.some.injEq, Prod.mk.injEq] at h; rw [← h.2.2]
            exact extends_record _ _
          · simp only [Option.some.injEq, Prod.mk.injEq] at h; rw [← h.2.2]; exact extends_refl w
    · intro ctx fatal w b ctx' w' h
      simp only [named_parameters_loop] at h
      split at h
      · simp at h
      · rename_i hp
        simp only [Option.some.injEq, Prod.mk.injEq] at h; rw [← h.2.2]
        exact ihp _ _ _ _ _ _ _ hp
      · rename_i hp
        have h1 := ihp _ _ _ _ _ _ _ hp
        split at h
        · exact extends_trans h1 (ihl _ _ _ _ _ _ h)
        · split at h
          · simp only [Option.some.injEq, Prod.mk.injEq] at h; rw [← h.2.2]; exact h1
          · simp only [Option.some.injEq, Prod.mk.injEq] at h; rw [← h.2.2]; exact h1

/-! ## Cursor movement and termination -/

theorem parse_terminal_facts {type : TerminalSymbol} {ctx ctx1 : GstControlParserContext}
    {v : List Char} (h : parse_terminal type ctx = some (ctx1, v)) :
    ctx1.expr = ctx.expr ∧ ctx1.prop_name = ctx.prop_name ∧ ctx1.object = ctx.object ∧
      ctx1.error_code = ctx.error_code ∧ ctx.pos < ctx1.pos ∧ ctx1.pos ≤ ctx.expr.length := by
  obtain ⟨n, _, rfl, h1, h2⟩ := parse_terminal_some h
  simp only [true_and]
  omega

theorem advanced_error_exit (_ctx ctx : GstControlParserContext) (fatal : Bool)
    (h1 : _ctx.pos ≤ ctx.pos) (h2 : _ctx.pos ≤ _ctx.expr.length → ctx.pos ≤ _ctx.expr.length) :
    Advanced _ctx (error_exit _ctx ctx fatal) false := by
  unfold Advanced error_exit
  cases fatal
  · simp
  · simp
    exact ⟨h1, h2⟩

theorem parse_advanced (ts : TypeSystem) (reg : Registry) (fuel : Nat) :
    (∀ type _ctx fatal w b ctx' w', parse ts reg fuel type _ctx fatal w = some (b, ctx', w') →
      Advanced _ctx ctx' b ∧ (type ≠ .FUNCTION → ctx'.object = _ctx.object)) ∧
    (∀ ctx fatal w b ctx' w', named_parameters_loop ts reg fuel ctx fatal w = some (b, ctx', w') →
      Advanced ctx ctx' b ∧ ctx'.object = ctx.object) := by
  induction fuel with
  | zero => constructor <;> intros <;> simp_all [parse, named_parameters_loop]
  | succ fuel ih =>
    obtain ⟨ihp, ihl⟩ := ih
    constructor
    · intro type _ctx fatal w b ctx' w' h
      cases type <;> simp only [parse] at h
      · -- FUNCTION
        refine ⟨?_, by simp⟩
        split at h
        · simp only [Option.some.injEq, Prod.mk.injEq] at h
          obtain ⟨rfl, rfl, -⟩ := h
          exact advanced_error_exit _ _ _ (by simp) (by simp)
        · rename_i ctx1 name h1
          have f1 := parse_terminal_facts h1
          split at h
          · simp only [Option.some.injEq, Prod.mk.injEq] at h
            obtain ⟨rfl, rfl, -⟩ := h
            exact advanced_error_exit _ _ _ (by simp; omega) (by simp; omega)
          · rename_i ctx2 v h2
            have f2 := parse_terminal_facts h2
            split at h
            · simp only [Option.some.injEq, Prod.mk.injEq] at h
              obtain ⟨rfl, rfl, -⟩ := h
              exact advanced_error_exit _ _ _ (by simp; omega) (by simp; rw [← f1.1]; omega)
            · rename_i object w1 code hmade
              split at h
              · rename_i ctx3 v3 h3
                have f3 := parse_terminal_facts h3
                simp only [Option.some.injEq, Prod.mk.injEq] at h
                obtain ⟨rfl, rfl, -⟩ := h
                simp only [Advanced] at f3 ⊢
                simp only [true_and]
                rw [f2.1, f1.1] at f3
                omega
              · split at h
                · simp at h
                · simp only [Option.some.injEq, Prod.mk.injEq] at h
                  obtain ⟨rfl, rfl, -⟩ := h
                  simp [Advanced]
                · rename_i ctx3 w3 hp
                  have f3 := (ihp _ _ _ _ _ _ _ hp).1
                  simp only [Option.some.injEq, Prod.mk.injEq] at h
                  obtain ⟨rfl, rfl, -⟩ := h
                  simp only [Advanced] at f3 ⊢
                  simp only [true_and, forall_const] at f3 ⊢
                  rw [f2.1, f1.1] at f3
                  omega
      · -- NAMED_PARAMETERS
        split at h
        · simp at h
        · rename_i ctx1 w1 hl
          have f := ihl _ _ _ _ _ _ hl
          simp only [Option.some.injEq, Prod.mk.injEq] at h
          obtain ⟨rfl, rfl, -⟩ := h
          simp only [Advanced, true_and, forall_const] at f ⊢
          refine ⟨?_, by simp⟩
          omega
        · rename_i ctx1 w1 hl
          have f := ihl _ _ _ _ _ _ hl
          simp only [Option.some.injEq, Prod.mk.injEq] at h
          obtain ⟨rfl, rfl, -⟩ := h
          simp only [Advanced] at f
          refine ⟨advanced_error_exit _ _ _ f.1.2.2.1 f.1.2.2.2.2, ?_⟩
          intro _
          unfold error_exit
          split <;> rfl
      · -- NAMED_PARAMETER
        have hobj : ∀ c, (error_exit _ctx c fatal).object = _ctx.object := by
          intro c; unfold error_exit; split <;> rfl
        split at h
        · simp only [Option.some.injEq, Prod.mk.injEq] at h
          obtain ⟨rfl, rfl, -⟩ := h
          exact ⟨advanced_error_exit _ _ _ (by simp) (by simp), fun _ => hobj _⟩
        · rename_i ctx1 name h1
          have f1 := parse_terminal_facts h1
          split at h
          · simp only [Option.some.injEq, Prod.mk.injEq] at h
            obtain ⟨rfl, rfl, -⟩ := h
            exact ⟨advanced_error_exit _ _ _ (by simp; omega) (by simp; omega), fun _ => hobj _⟩
          · rename_i ctx2 v h2
            have f2 := parse_terminal_facts h2
            split at h
            · simp at h
            · rename_i ctx3 w3 hf
              have f3 := (ihp _ _ _ _ _ _ _ hf).1
              simp only [Option.some.injEq, Prod.mk.injEq] at h
              obtain ⟨rfl, rfl, -⟩ := h
              simp only [Advanced, true_and, forall_const] at f3 ⊢
              refine ⟨?_, by simp⟩
              rw [f2.1, f1.1] at f3
              omega
            · rename_i ctx3 w3 hf
              have f3 := (ihp _ _ _ _ _ _ _ hf).1
              simp only [Advanced] at f3
              split at h
              · simp at h
              · rename_i ctx4 w4 hv
                have f4 := (ihp _ _ _ _ _ _ _ hv).1
                simp only [Option.some.injEq, Prod.mk.injEq] at h
                obtain ⟨rfl, rfl, -⟩ := h
                simp only [Advanced, true_and, forall_const] at f4 ⊢
                refine ⟨?_, by simp⟩
                rw [f3.1, f2.1, f1.1] at f4
                omega
              · rename_i ctx4 w4 hv
                have f4 := (ihp _ _ _ _ _ _ _ hv).1
                simp only [Option.some.injEq, Prod.mk.injEq] at h
                obtain ⟨rfl, rfl, -⟩ := h
                simp only [Advanced] at f4
                have e1 := congrArg List.length f1.1
                have e2 := congrArg List.length f2.1
                have e3 := congrArg List.length f3.1
                simp only at e3
                refine ⟨advanced_error_exit _ _ _ ?_ ?_, fun _ => hobj _⟩
                · simp only; omega
                · simp only
                  omega
      · -- VALUE
        have hobj : ∀ c, (error_exit _ctx c fatal).object = _ctx.object := by
          intro c; unfold error_exit; split <;> rfl
        split at h
        · rename_i ctx1 v h1
          have f1 := parse_terminal_facts h1
          simp only [Option.some.injEq, Prod.mk.injEq] at h
          obtain ⟨rfl, rfl, -⟩ := h
          simp only [Advanced, true_and, forall_const]
          refine ⟨?_, by simp⟩
          omega
        · split at h
          · rename_i ctx1 v h1
            have f1 := parse_terminal_facts h1
            simp only [Option.some.injEq, Prod.mk.injEq] at h
            obtain ⟨rfl, rfl, -⟩ := h
            simp only [Advanced, true_and, forall_const]
            refine ⟨?_, by simp⟩
            omega
          · simp only [Option.some.injEq, Prod.mk.injEq] at h
            obtain ⟨rfl, rfl, -⟩ := h
            exact ⟨advanced_error_exit _ _ _ (by simp) (by simp), fun _ => hobj _⟩
    · intro ctx fatal w b ctx' w' h
      simp only [named_parameters_loop] at h
      split at h
      · simp at h
      · rename_i ctx1 w1 hp
        have f1 := ihp _ _ _ _ _ _ _ hp
        simp only [Option.some.injEq, Prod.mk.injEq] at h
        obtain ⟨rfl, rfl, -⟩ := h
        exact ⟨f1.1, f1.2 (by simp)⟩
      · rename_i ctx1 w1 hp
        have f1 := ihp _ _ _ _ _ _ _ hp
        have o1 := f1.2 (by simp)
        replace f1 := f1.1
        simp only [Advanced, true_and, forall_const] at f1
        split at h
        · rename_i ctx2 v h2
          have f2 := parse_terminal_facts h2
          have f3 := ihl _ _ _ _ _ _ h
          have o3 := f3.2
          replace f3 := f3.1
          simp only [Advanced] at f3 ⊢
          rw [f2.1, f1.1] at f3
          rw [f2.2.1, f1.2.1] at f3
          refine ⟨⟨f3.1, f3.2.1, by omega, ?_, ?_⟩, by rw [o3, f2.2.2.1, o1]⟩
          · intro _; rw [f1.1] at f2; omega
          · intro _; rw [f1.1] at f2; omega
        · split at h
          · rename_i ctx2 v h2
            have f2 := parse_terminal_facts h2
            simp only [Option.some.injEq, Prod.mk.injEq] at h
            obtain ⟨rfl, rfl, -⟩ := h
            simp only [Advanced]
            rw [f1.1] at f2
            refine ⟨⟨by rw [f2.1], by rw [f2.2.1, f1.2.1], by omega, ?_, ?_⟩, by rw [f2.2.2.1, o1]⟩
            · intro _; omega
            · intro _; omega
          · simp only [Option.some.injEq, Prod.mk.injEq] at h
            obtain ⟨rfl, rfl, -⟩ := h
            simp only [Advanced]
            refine ⟨⟨f1.1, f1.2.1, by omega, by simp, ?_⟩, o1⟩
            intro _; omega

theorem parse_total (ts : TypeSystem) (reg : Registry) (fuel : Nat) :
    (∀ type _ctx fatal w, rule_fuel type (_ctx.expr.length - _ctx.pos) ≤ fuel →
      ∃ r, parse ts reg fuel type _ctx fatal w = some r) ∧
    (∀ ctx fatal w, ctx.expr.length - ctx.pos + 3 ≤ fuel →
      ∃ r, named_parameters_loop ts reg fuel ctx fatal w = some r) := by
  induction fuel with
  | zero =>
    constructor
    · intro type _ctx fatal w h
      cases type <;> simp [rule_fuel] at h
    · intro ctx fatal w h
      omega
  | succ fuel ih =>
    obtain ⟨ihp, ihl⟩ := ih
    constructor
    · intro type _ctx fatal w hf
      cases type <;> simp only [parse, rule_fuel] at hf ⊢
      · -- FUNCTION
        split
        · exact ⟨_, rfl⟩
        · rename_i ctx1 name h1
          have f1 := parse_terminal_facts h1
          split
          · exact ⟨_, rfl⟩
          · rename_i ctx2 v h2
            have f2 := parse_terminal_facts h2
            split
            · exact ⟨_, rfl⟩
            · split
              · exact ⟨_, rfl⟩
              · rename_i made object w1 code hmade x3 h3
                have e1 := congrArg List.length f1.1
                have e2 := congrArg List.length f2.1
                obtain ⟨r, hr⟩ := ihp .NAMED_PARAMETERS { ctx2 with object := object } fatal
                  (if GST_IS_CONTROL_BINDING ts object = true then
                    w1.record (Effect.add_control_binding ctx2.object object)
                  else w1.record (Effect.object_set ctx2.object ctx2.prop_name object))
                  (by simp only [rule_fuel]; omega)
                rw [hr]
                obtain ⟨b, c, w2⟩ := r
                cases b <;> exact ⟨_, rfl⟩
      · -- NAMED_PARAMETERS
        obtain ⟨r, hr⟩ := ihl _ctx fatal w (by omega)
        rw [hr]
        obtain ⟨b, c, w2⟩ := r
        cases b <;> exact ⟨_, rfl⟩
      · -- NAMED_PARAMETER
        split
        · exact ⟨_, rfl⟩
        · rename_i ctx1 name h1
          have f1 := parse_terminal_facts h1
          split
          · exact ⟨_, rfl⟩
          · rename_i ctx2 v h2
            have f2 := parse_terminal_facts h2
            have e1 := congrArg List.length f1.1
            have e2 := congrArg List.length f2.1
            obtain ⟨r, hr⟩ := ihp .FUNCTION { ctx2 with prop_name := name } false w
              (by simp only [rule_fuel]; omega)
            rw [hr]
            obtain ⟨b, c, w2⟩ := r
            cases b
            · obtain ⟨r', hr'⟩ := ihp .VALUE c false w2 (by simp only [rule_fuel]; omega)
              simp only [hr']
              obtain ⟨b', c', w3⟩ := r'
              cases b' <;> exact ⟨_, rfl⟩
            · exact ⟨_, rfl⟩
      · -- VALUE
        split
        · exact ⟨_, rfl⟩
        · split <;> exact ⟨_, rfl⟩
    · intro ctx fatal w hf
      simp only [named_parameters_loop]
      obtain ⟨r, hr⟩ := ihp .NAMED_PARAMETER ctx fatal w (by simp only [rule_fuel]; omega)
      rw [hr]
      obtain ⟨b, c, w2⟩ := r
      cases b
      · exact ⟨_, rfl⟩
      · have f1 := ((parse_advanced ts reg fuel).1 _ _ _ _ _ _ _ hr).1
        simp only [Advanced, true_and, forall_const] at f1
        simp only
        split
        · rename_i ctx2 v h2
          have f2 := parse_terminal_facts h2
          have e1 := congrArg List.length f1.1
          have e2 := congrArg List.length f2.1
          exact ihl ctx2 fatal w2 (by omega)
        · split <;> exact ⟨_, rfl⟩

theorem parse_returns (ts : TypeSystem) (reg : Registry) (fuel : Nat) (type : Symbol)
    (_ctx : GstControlParserContext) (fatal : Bool) (w : World)
    (h : _ctx.expr.length + 4 ≤ fuel) : ∃ r, parse ts reg fuel type _ctx fatal w = some r := by
  apply (parse_total ts reg fuel).1
  cases type <;> simp only [rule_fuel] <;> omega

theorem gst_control_parser_parse_returns (ts : TypeSystem) (reg : Registry)
    (expr : Option (List Char)) (parent : Option GstObject) (prop_name : Option (List Char))
    (error : Bool) (w : World) :
    ∃ o, gst_control_parser_parse ts reg expr parent prop_name error w = some o := by
  unfold gst_control_parser_parse
  split
  · rename_i e p n
    split
    · obtain ⟨⟨b, c, w'⟩, hr⟩ := parse_returns ts reg (parse_fuel e) .FUNCTION ⟨e, 0, 0, p, n⟩
        true w (by simp only [parse_fuel]; omega)
      simp only [hr]
      cases b <;> exact ⟨_, rfl⟩
    · exact ⟨_, rfl⟩
  · exact ⟨_, rfl⟩

/-! ## Claims about failures at the start of the expression -/

/-- Claim C4: when the text at offset 0 does not match the NAME terminal, that
is, after optional leading white space it does not start with a lowercase
letter (the empty expression included), `gst_control_parser_parse` fails, the
error kind is ExpectFunctionName, the cursor of the final context (and of the
diagnostic) is 0, and the world is untouched: nothing is constructed and no
attribute is assigned. -/
theorem first_token_not_name_fails (ts : TypeSystem) (reg : Registry) (expr : List Char)
    (parent : GstObject) (prop_name : List Char) (error : Bool) (w : World)
    (hobj : GST_IS_OBJECT ts (some parent) = true)
    (hfirst : ∀ c, (expr.dropWhile is_space).head? = some c → is_lower c = false) :
    regex_match .NAME expr = none ∧
    gst_control_parser_parse ts reg (some expr) (some parent) (some prop_name) error w =
      some { ret := false
             error :=
               if error then
                 some (EXPECT_FUNCTION_NAME,
                   format_error ⟨expr, 0, EXPECT_FUNCTION_NAME, parent, prop_name⟩)
               else none
             ctx := some ⟨expr, 0, EXPECT_FUNCTION_NAME, parent, prop_name⟩
             world := w } := by
  have hname : regex_match .NAME expr = none := by
    simp only [regex_match, match_name]
    cases hd : expr.dropWhile is_space with
    | nil => rfl
    | cons c r =>
      have hc := hfirst c (by rw [hd]; rfl)
      simp [hc]
  have h : parse_terminal .NAME ⟨expr, 0, 0, parent, prop_name⟩ = none := by
    simp [parse_terminal, hname]
  refine ⟨hname, ?_⟩
  simp only [gst_control_parser_parse, hobj, if_true, parse_fuel_succ,
    function_no_name _ _ _ _ _ _ h, error_exit]

/-- Witness of C4: the empty expression in the example program. -/
theorem first_token_not_name_fails_witness :
    regex_match .NAME [] = none ∧
    gst_control_parser_parse example_types example_registry (some []) (some example_src)
        (some "freq".toList) true example_world =
      some { ret := false
             error :=
               some (1, "Syntax error: expect <name> for function at pos: 0\n  \n   ^".toList)
             ctx := some ⟨[], 0, 1, example_src, "freq".toList⟩
             world := example_world } :=
  first_token_not_name_fails example_types example_registry [] example_src "freq".toList true
    example_world (by decide) (by decide)

/-! ## Silent mode -/

/-- Claim C9: a rule (FUNCTION, NAMED_PARAMETERS, NAMED_PARAMETER or VALUE)
that is called in silent mode and returns failure leaves the caller's context
as it was: same cursor, same pending error kind, same target object, same
attribute name. -/
theorem silent_failure_keeps_context (ts : TypeSystem) (reg : Registry) (fuel : Nat)
    (type : Symbol) (_ctx ctx' : GstControlParserContext) (w w' : World)
    (h : parse ts reg fuel type _ctx false w = some (false, ctx', w')) : ctx' = _ctx := by
  cases fuel with
  | zero => simp [parse] at h
  | succ fuel =>
    cases type <;> simp only [parse] at h
    · split at h
      · simp [error_exit] at h; exact h.1.symm
      · split at h
        · simp [error_exit] at h; exact h.1.symm
        · split at h
          · simp [error_exit] at h; exact h.1.symm
          · split at h
            · simp at h
            · split at h <;> simp at h
              exact h.1.symm
    · split at h <;> simp [error_exit] at h
      exact h.1.symm
    · split at h
      · simp [error_exit] at h; exact h.1.symm
      · split at h
        · simp [error_exit] at h; exact h.1.symm
        · split at h
          · simp at h
          · simp at h
          · split at h <;> simp [error_exit] at h
            exact h.1.symm
    · split at h
      · simp at h
      · split at h <;> simp [error_exit] at h
        exact h.1.symm

/-- Witness of C9: the silent FUNCTION trial on `lfo(frequency=)` constructs the
source, fails in its parameter list and hands back the context unchanged. -/
theorem silent_failure_keeps_context_witness :
    parse example_types example_registry 9 .FUNCTION
        ⟨"lfo(frequency=)".toList, 0, 0, ⟨1, example_direct_type⟩, "control-source".toList⟩ false
        ⟨2, []⟩ =
      some (false,
        ⟨"lfo(frequency=)".toList, 0, 0, ⟨1, example_direct_type⟩, "control-source".toList⟩,
        ⟨3, [Effect.new_source ⟨2, example_lfo_type⟩,
             Effect.object_set ⟨1, example_direct_type⟩ "control-source".toList
               ⟨2, example_lfo_type⟩]⟩) ∧
    (⟨"lfo(frequency=)".toList, 0, 0, ⟨1, example_direct_type⟩, "control-source".toList⟩ :
        GstControlParserContext) =
      ⟨"lfo(frequency=)".toList, 0, 0, ⟨1, example_direct_type⟩, "control-source".toList⟩ :=
  ⟨by decide,
    silent_failure_keeps_context example_types example_registry 9 .FUNCTION _ _ ⟨2, []⟩
      ⟨3, [Effect.new_source ⟨2, example_lfo_type⟩,
           Effect.object_set ⟨1, example_direct_type⟩ "control-source".toList
             ⟨2, example_lfo_type⟩]⟩ (by decide)⟩

theorem function_constructed (ts : TypeSystem) (reg : Registry) (fuel : Nat)
    (_ctx : GstControlParserContext) (fatal : Bool) (w : World) (name v : List Char) (n1 n2 : Nat)
    (hname : regex_match .NAME (_ctx.expr.drop _ctx.pos) = some (name, n1))
    (hparen : regex_match .OPENING_PAREN (_ctx.expr.drop (_ctx.pos + n1)) = some (v, n2))
    (hreg : dispatch_type ts reg _ctx.object name ≠ G_TYPE_INVALID) :
    parse ts reg (fuel + 1) .FUNCTION _ctx fatal w =
      match parse_terminal .CLOSING_PAREN
          { _ctx with pos := _ctx.pos + n1 + n2,
                      object := ⟨w.next_id, dispatch_type ts reg _ctx.object name⟩ } with
      | some (ctx, _) =>
        some (true, { _ctx with object := ⟨w.next_id, dispatch_type ts reg _ctx.object name⟩,
                                pos := ctx.pos },
          ⟨w.next_id + 1, w.log ++
            [construct_effect ts _ctx.object _ctx.prop_name
                ⟨w.next_id, dispatch_type ts reg _ctx.object name⟩,
              attach_effect ts _ctx.object _ctx.prop_name
                ⟨w.next_id, dispatch_type ts reg _ctx.object name⟩]⟩)
      | none =>
        match parse ts reg fuel .NAMED_PARAMETERS
            { _ctx with pos := _ctx.pos + n1 + n2,
                        object := ⟨w.next_id, dispatch_type ts reg _ctx.object name⟩ } fatal
            ⟨w.next_id + 1, w.log ++
              [construct_effect ts _ctx.object _ctx.prop_name
                  ⟨w.next_id, dispatch_type ts reg _ctx.object name⟩,
                attach_effect ts _ctx.object _ctx.prop_name
                  ⟨w.next_id, dispatch_type ts reg _ctx.object name⟩]⟩ with
        | none => none
        | some (false, _, w') => some (false, _ctx, w')
        | some (true, ctx, w') =>
          some (true, { _ctx with object := ⟨w.next_id, dispatch_type ts reg _ctx.object name⟩,
                                  pos := ctx.pos }, w') := by
  have h1 := parse_terminal_of_match .NAME _ctx name n1 hname
  have h2 := parse_terminal_of_match .OPENING_PAREN { _ctx with pos := _ctx.pos + n1 } v n2 hparen
  simp only [parse, h1, h2, binding_make_eq, source_make_eq]
  unfold dispatch_type at hreg
  cases hb : GST_IS_CONTROL_BINDING ts _ctx.object
  · simp only [hb, Bool.false_eq_true, if_false] at hreg ⊢
    cases hb2 : GST_IS_CONTROL_BINDING ts ⟨w.next_id, reg.binding_type name⟩ <;>
      simp only [hreg, dispatch_type, construct_effect, attach_effect, hb, hb2, World.record,
          if_true, if_false, List.append_assoc, List.singleton_append, Bool.false_eq_true]
  · simp only [hb, if_true] at hreg ⊢
    cases hb2 : GST_IS_CONTROL_BINDING ts ⟨w.next_id, reg.source_type name⟩ <;>
      simp only [hreg, dispatch_type, construct_effect, attach_effect, hb, hb2, World.record,
          if_true, if_false, List.append_assoc, List.singleton_append, Bool.false_eq_true]

/-! ## Terminals that exclude each other -/

theorem name_excludes_punct (s : List Char) (r : List Char × Nat) (c : Char)
    (h : match_name s = some r) (hc : is_lower c = false) : match_punct c s = none := by
  unfold match_name at h
  unfold match_punct
  cases hs : s.dropWhile is_space with
  | nil => rfl
  | cons a t =>
    rw [hs] at h
    simp only at h ⊢
    split at h
    · rename_i hl
      rw [if_neg]
      intro hac
      rw [hac, hc] at hl
      simp at hl
    · simp at h

theorem digit_not_lower (c : Char) (h : is_digit c = true) : is_lower c = false := by
  unfold is_digit at h
  simp only [is_lower, Bool.and_eq_false_imp, decide_eq_true_eq, decide_eq_false_iff_not]
  split at h
  · simp only [Bool.or_eq_true, Bool.and_eq_true, decide_eq_true_eq] at h
    omega
  · omega

theorem numeric_excludes_name (s : List Char) (r : List Char × Nat)
    (h : match_numeric s = some r) : match_name s = none := by
  unfold match_numeric at h
  unfold match_name
  simp only at h
  cases hs : s.dropWhile is_space with
  | nil => rfl
  | cons a t =>
    rw [hs] at h
    simp only
    cases hd : is_digit a with
    | true => simp [digit_not_lower a hd]
    | false =>
      rw [List.dropWhile_cons_of_neg (by simp [hd])] at h
      simp only at h
      split at h
      · rename_i h46
        have : is_lower a = false := by
          simp only [is_lower, Bool.and_eq_false_imp, decide_eq_true_eq, decide_eq_false_iff_not]
          omega
        simp [this]
      · simp at h

theorem string_excludes_name (s : List Char) (r : List Char × Nat)
    (h : match_string s = some r) : match_name s = none := by
  unfold match_string at h
  unfold match_name
  cases hs : s.dropWhile is_space with
  | nil => rfl
  | cons a t =>
    rw [hs] at h
    simp only at h ⊢
    split at h
    · rename_i h39
      have : is_lower a = false := by
        simp only [is_lower, Bool.and_eq_false_imp, decide_eq_true_eq, decide_eq_false_iff_not]
        omega
      simp [this]
    · simp at h

theorem string_excludes_numeric (s : List Char) (r : List Char × Nat)
    (h : match_string s = some r) : match_numeric s = none := by
  unfold match_string at h
  unfold match_numeric
  cases hs : s.dropWhile is_space with
  | nil => rfl
  | cons a t =>
    rw [hs] at h
    simp only at h ⊢
    split at h
    · rename_i h39
      have hd : is_digit a = false := by
        unfold is_digit
        rw [if_pos (by omega)]
        simp only [Bool.or_eq_false_iff, Bool.and_eq_false_imp, decide_eq_true_eq,
          decide_eq_false_iff_not]
        omega
      rw [List.dropWhile_cons_of_neg (by simp [hd])]
      simp only
      rw [if_neg (by omega)]
    · simp at h

theorem punct_excludes_punct (s : List Char) (c d : Char) (n : Nat)
    (h : match_punct c s = some n) (hcd : d ≠ c) : match_punct d s = none := by
  unfold match_punct at h ⊢
  cases hs : s.dropWhile is_space with
  | nil => rfl
  | cons a t =>
    rw [hs] at h
    simp only at h ⊢
    split at h
    · rename_i hac
      rw [if_neg (by rw [hac]; exact fun h' => hcd h'.symm)]
    · simp at h

theorem string_capture (body rest : List Char) (hbody : ∀ c ∈ body, is_string_char c = true) :
    regex_match .STRING_VALUE ('\'' :: (body ++ '\'' :: rest)) =
      some (body, body.length + 2 + space_len rest) := by
  have h1 : List.dropWhile is_string_char (body ++ '\'' :: rest) = '\'' :: rest := by
    rw [List.dropWhile_append_of_pos hbody]
    rfl
  have h2 : List.takeWhile is_string_char (body ++ '\'' :: rest) = body := by
    induction body with
    | nil => rfl
    | cons a t ih =>
      have ha : is_string_char a = true := hbody a (List.mem_cons_self _ _)
      simp only [List.cons_append, List.takeWhile_cons, ha, if_true]
      rw [ih (fun c hc => hbody c (List.mem_cons_of_mem _ hc))
        (by rw [List.dropWhile_append_of_pos (fun c hc => hbody c (List.mem_cons_of_mem _ hc))]; rfl)]
  have h0 : List.dropWhile is_space ('\'' :: (body ++ '\'' :: rest)) =
      '\'' :: (body ++ '\'' :: rest) := rfl
  have h3 : space_len ('\'' :: (body ++ '\'' :: rest)) = 0 := rfl
  simp only [regex_match, match_string, h0, h1, h2, h3]
  simp
  omega

/-! ## The FUNCTION rule -/

/-- Claim C3: in the FUNCTION rule, once NAME and the opening parenthesis have
matched, the factory table is chosen by the capability of the current target
object alone.  If the target is a binding, the name is looked up in the source
table and the object is constructed without further arguments; otherwise it is
looked up in the binding table and constructed with the current target and the
current attribute name.  The constructed object is then added to the target's
binding list if it is a binding, and assigned to the current attribute of the
target otherwise.  With fuel for the whole expression the rule returns, and the
two effects are the first ones it adds to the log. -/
theorem function_dispatch (ts : TypeSystem) (reg : Registry) (fuel : Nat)
    (_ctx : GstControlParserContext) (fatal : Bool) (w : World) (name v : List Char) (n1 n2 : Nat)
    (hfuel : _ctx.expr.length + 4 ≤ fuel)
    (hname : regex_match .NAME (_ctx.expr.drop _ctx.pos) = some (name, n1))
    (hparen : regex_match .OPENING_PAREN (_ctx.expr.drop (_ctx.pos + n1)) = some (v, n2)) :
    (GST_IS_CONTROL_BINDING ts _ctx.object = true → reg.source_type name ≠ G_TYPE_INVALID →
      ∃ b ctx' w' rest, parse ts reg fuel .FUNCTION _ctx fatal w = some (b, ctx', w') ∧
        w'.log = w.log ++
          Effect.new_source ⟨w.next_id, reg.source_type name⟩ ::
          (if GST_IS_CONTROL_BINDING ts ⟨w.next_id, reg.source_type name⟩ then
            Effect.add_control_binding _ctx.object ⟨w.next_id, reg.source_type name⟩
          else Effect.object_set _ctx.object _ctx.prop_name ⟨w.next_id, reg.source_type name⟩)
          :: rest) ∧
    (GST_IS_CONTROL_BINDING ts _ctx.object = false → reg.binding_type name ≠ G_TYPE_INVALID →
      ∃ b ctx' w' rest, parse ts reg fuel .FUNCTION _ctx fatal w = some (b, ctx', w') ∧
        w'.log = w.log ++
          Effect.new_binding ⟨w.next_id, reg.binding_type name⟩ _ctx.object _ctx.prop_name ::
          (if GST_IS_CONTROL_BINDING ts ⟨w.next_id, reg.binding_type name⟩ then
            Effect.add_control_binding _ctx.object ⟨w.next_id, reg.binding_type name⟩
          else Effect.object_set _ctx.object _ctx.prop_name ⟨w.next_id, reg.binding_type name⟩)
          :: rest) := by
  obtain ⟨f, rfl⟩ : ∃ f, fuel = f + 1 := ⟨fuel - 1, by omega⟩
  have key : dispatch_type ts reg _ctx.object name ≠ G_TYPE_INVALID →
      ∃ b ctx' w' rest, parse ts reg (f + 1) .FUNCTION _ctx fatal w = some (b, ctx', w') ∧
        w'.log = w.log ++
          construct_effect ts _ctx.object _ctx.prop_name
            ⟨w.next_id, dispatch_type ts reg _ctx.object name⟩ ::
          attach_effect ts _ctx.object _ctx.prop_name
            ⟨w.next_id, dispatch_type ts reg _ctx.object name⟩ :: rest := by
    intro hreg
    obtain ⟨⟨b, ctx', w'⟩, hr⟩ := parse_returns ts reg (f + 1) .FUNCTION _ctx fatal w hfuel
    refine ⟨b, ctx', w', ?_⟩
    have heq := function_constructed ts reg f _ctx fatal w name v n1 n2 hname hparen hreg
    rw [hr] at heq
    split at heq
    · simp only [Option.some.injEq, Prod.mk.injEq] at heq
      refine ⟨[], hr, ?_⟩
      rw [heq.2.2]
    · split at heq
      · simp at heq
      · rename_i hp
        obtain ⟨rest, hrest⟩ := (log_extends ts reg f).1 _ _ _ _ _ _ _ hp
        simp only [Option.some.injEq, Prod.mk.injEq] at heq
        refine ⟨rest, hr, ?_⟩
        rw [heq.2.2, hrest]
        simp
      · rename_i hp
        obtain ⟨rest, hrest⟩ := (log_extends ts reg f).1 _ _ _ _ _ _ _ hp
        simp only [Option.some.injEq, Prod.mk.injEq] at heq
        refine ⟨rest, hr, ?_⟩
        rw [heq.2.2, hrest]
        simp
  constructor
  · intro hb hreg
    simpa [dispatch_type, construct_effect, attach_effect, hb] using key (by
      simpa [dispatch_type, hb] using hreg)
  · intro hb hreg
    simpa [dispatch_type, construct_effect, attach_effect, hb] using key (by
      simpa [dispatch_type, hb] using hreg)


/-- Witness of C3: in the example program `direct(` on the element `src` takes
the binding table, `lfo(` on the direct binding takes the source table. -/
theorem function_dispatch_witness :
    (∃ b ctx' w' rest, parse example_types example_registry 30 .FUNCTION
        ⟨"lfo(frequency=0.5)".toList, 0, 0, ⟨1, example_direct_type⟩, "control-source".toList⟩
        true ⟨2, []⟩ = some (b, ctx', w') ∧
      w'.log = [] ++
        Effect.new_source ⟨2, example_lfo_type⟩ ::
        (if GST_IS_CONTROL_BINDING example_types ⟨2, example_lfo_type⟩ then
          Effect.add_control_binding ⟨1, example_direct_type⟩ ⟨2, example_lfo_type⟩
        else Effect.object_set ⟨1, example_direct_type⟩ "control-source".toList
          ⟨2, example_lfo_type⟩) :: rest) ∧
    (∃ b ctx' w' rest, parse example_types example_registry 40 .FUNCTION
        ⟨"direct(control-source=lfo())".toList, 0, 0, example_src, "freq".toList⟩
        true example_world = some (b, ctx', w') ∧
      w'.log = [] ++
        Effect.new_binding ⟨1, example_direct_type⟩ example_src "freq".toList ::
        (if GST_IS_CONTROL_BINDING example_types ⟨1, example_direct_type⟩ then
          Effect.add_control_binding example_src ⟨1, example_direct_type⟩
        else Effect.object_set example_src "freq".toList ⟨1, example_direct_type⟩) :: rest) :=
  ⟨(function_dispatch example_types example_registry 30
      ⟨"lfo(frequency=0.5)".toList, 0, 0, ⟨1, example_direct_type⟩, "control-source".toList⟩
      true ⟨2, []⟩ "lfo".toList [] 3 1 (by decide) (by decide) (by decide)).1
      (by decide) (by decide),
   (function_dispatch example_types example_registry 40
      ⟨"direct(control-source=lfo())".toList, 0, 0, example_src, "freq".toList⟩
      true example_world "direct".toList [] 6 1 (by decide) (by decide) (by decide)).2
      (by decide) (by decide)⟩

/-! ## What the entry point reports -/

/-- Claim C7, evaluated at a failing input: `direct(x=)` fails inside the
parameter list of the top-level function; the FUNCTION rule leaves through
`return FALSE` without passing the error on, so the `GError` carries the
code 0, which is none of the nine kinds, and an empty description. -/
theorem parameter_list_failure_reports_kind_zero :
    gst_control_parser_parse example_types example_registry (some "direct(x=)".toList)
        (some example_src) (some "freq".toList) true example_world =
      some { ret := false
             error := some (0, "Syntax error:  at pos: 0\n  direct(x=)\n   ^".toList)
             ctx := some ⟨"direct(x=)".toList, 0, 0, example_src, "freq".toList⟩
             world := ⟨2, [Effect.new_binding ⟨1, example_direct_type⟩ example_src "freq".toList,
                           Effect.add_control_binding example_src ⟨1, example_direct_type⟩]⟩ } ∧
    (gst_control_parser_parse example_types example_registry (some "direct(x=)".toList)
        (some example_src) (some "freq".toList) true example_world).map
        (fun o => o.error.map fun e =>
          decide (EXPECT_FUNCTION_NAME ≤ e.1 ∧ e.1 ≤ UNSUPPORTED_CONTROL_BINDING)) =
      some (some false) := by
  decide

/-- Counterexample to C10: the empty expression is not stopped by the
precondition checks (the grammar runs and reports ExpectFunctionName with a
diagnostic), and with an empty attribute name `direct()` is parsed and a
binding is constructed and attached. -/
theorem empty_arguments_pass_precondition :
    gst_control_parser_parse example_types example_registry (some []) (some example_src)
        (some "freq".toList) true example_world =
      some { ret := false
             error :=
               some (EXPECT_FUNCTION_NAME,
                 "Syntax error: expect <name> for function at pos: 0\n  \n   ^".toList)
             ctx := some ⟨[], 0, EXPECT_FUNCTION_NAME, example_src, "freq".toList⟩
             world := example_world } ∧
    gst_control_parser_parse example_types example_registry (some "direct()".toList)
        (some example_src) (some []) true example_world =
      some { ret := true
             error := none
             ctx := some ⟨"direct()".toList, 8, 0, ⟨1, example_direct_type⟩, []⟩
             world := ⟨2, [Effect.new_binding ⟨1, example_direct_type⟩ example_src [],
                           Effect.add_control_binding example_src ⟨1, example_direct_type⟩]⟩ } ∧
    gst_control_parser_parse example_types example_registry (some []) (some example_src)
        (some "freq".toList) true example_world ≠ some (precondition_failure example_world) ∧
    gst_control_parser_parse example_types example_registry (some "direct()".toList)
        (some example_src) (some []) true example_world ≠
      some (precondition_failure example_world) := by
  decide

/-- Claim C10, amended: a null expression, a target that is not an object and
a null attribute name are rejected by the precondition checks: the result is
failure, the grammar is not run, nothing is constructed and no error is set.
Every other input, an empty expression or an empty attribute name included,
passes the checks: the result is that of the FUNCTION rule run in fatal mode
from cursor 0, and the empty expression fails as a syntax error with kind
ExpectFunctionName at cursor 0. -/
theorem precondition_checks (ts : TypeSystem) (reg : Registry) (expr : Option (List Char))
    (parent : Option GstObject) (prop_name : Option (List Char)) (error : Bool) (w : World) :
    ((expr = none ∨ GST_IS_OBJECT ts parent = false ∨ prop_name = none) →
      gst_control_parser_parse ts reg expr parent prop_name error w =
        some (precondition_failure w)) ∧
    (∀ e p n, expr = some e → parent = some p → prop_name = some n →
      GST_IS_OBJECT ts parent = true →
        (∃ ret ctx' w', parse ts reg (parse_fuel e) .FUNCTION ⟨e, 0, 0, p, n⟩ true w =
            some (ret, ctx', w') ∧
          gst_control_parser_parse ts reg expr parent prop_name error w =
            some ⟨ret, if ret = false ∧ error = true then
                some (ctx'.error_code, format_error ctx') else none, some ctx', w'⟩) ∧
        (e = [] →
          gst_control_parser_parse ts reg expr parent prop_name error w =
            some ⟨false, if error then
                some (EXPECT_FUNCTION_NAME, format_error ⟨[], 0, EXPECT_FUNCTION_NAME, p, n⟩)
              else none, some ⟨[], 0, EXPECT_FUNCTION_NAME, p, n⟩, w⟩)) := by
  constructor
  · rintro (h | h | h)
    · subst h; rfl
    · cases expr <;> cases parent <;> cases prop_name <;>
        simp_all [gst_control_parser_parse, precondition_failure]
    · subst h
      cases expr <;> cases parent <;> rfl
  · intro e p n he hp hn hobj
    subst he hp hn
    constructor
    · obtain ⟨⟨ret, ctx', w'⟩, hr⟩ := parse_returns ts reg (parse_fuel e) .FUNCTION
        ⟨e, 0, 0, p, n⟩ true w (by simp only [parse_fuel]; omega)
      refine ⟨ret, ctx', w', hr, ?_⟩
      simp only [gst_control_parser_parse, hobj, if_true, hr]
      cases ret <;> simp
    · intro hempty
      subst hempty
      have h : parse_terminal .NAME ⟨[], 0, 0, p, n⟩ = none := by
        simp [parse_terminal, regex_match, match_name]
      simp only [gst_control_parser_parse, hobj, if_true, parse_fuel_succ,
        function_no_name _ _ _ _ _ _ h, error_exit]

/-- Witness of C10 amended: a null expression, and the empty expression with
the empty attribute name. -/
theorem precondition_checks_witness :
    gst_control_parser_parse example_types example_registry none (some example_src)
        (some "freq".toList) true example_world = some (precondition_failure example_world) ∧
    gst_control_parser_parse example_types example_registry (some []) (some example_src)
        (some []) true example_world =
      some ⟨false, some (EXPECT_FUNCTION_NAME,
          format_error ⟨[], 0, EXPECT_FUNCTION_NAME, example_src, []⟩),
        some ⟨[], 0, EXPECT_FUNCTION_NAME, example_src, []⟩, example_world⟩ :=
  ⟨(precondition_checks example_types example_registry none (some example_src)
      (some "freq".toList) true example_world).1 (Or.inl rfl),
   ((precondition_checks example_types example_registry (some []) (some example_src)
      (some []) true example_world).2 [] example_src [] rfl rfl rfl (by decide)).2 rfl⟩

/-- Counterexample to C6: for `direct(control-source=lfo(waveform='sine',frequency=))`
in the example program the reported error has code 0 and cursor 0; it is
neither ExpectFunctionOrValue nor at offset 52, the offset after `frequency=`. -/
theorem missing_value_report :
    gst_control_parser_parse example_types example_registry (some missing_value_expr)
        (some example_src) (some "freq".toList) true example_world =
      some { ret := false
             error := some (0, "Syntax error:  at pos: 0\n  direct(control-source=lfo(waveform='sine',frequency=))\n   ^".toList)
             ctx := some ⟨missing_value_expr, 0, 0, example_src, "freq".toList⟩
             world := ⟨3, [Effect.new_binding ⟨1, example_direct_type⟩ example_src "freq".toList,
                           Effect.add_control_binding example_src ⟨1, example_direct_type⟩,
                           Effect.new_source ⟨2, example_lfo_type⟩,
                           Effect.object_set ⟨1, example_direct_type⟩ "control-source".toList
                             ⟨2, example_lfo_type⟩,
                           Effect.set_object_arg ⟨2, example_lfo_type⟩ "waveform".toList
                             "sine".toList]⟩ } ∧
    (gst_control_parser_parse example_types example_registry (some missing_value_expr)
        (some example_src) (some "freq".toList) true example_world).map
        (fun o => (o.error.map Prod.fst, o.ctx.map fun c => c.pos)) ≠
      some (some EXPECT_FUNCTION_OR_VALUE, some 52) := by
  decide

set_option maxRecDepth 4000 in
set_option maxHeartbeats 1000000 in
/-- Claim C6, amended: parsing `direct(control-source=lfo(waveform='sine',frequency=))`
with `direct` and `lfo` registered fails.  The NAMED_PARAMETER rule at
`frequency=` reports ExpectFunctionOrValue with the cursor immediately after
`frequency=` (52) when it is called in fatal mode; in this expression it runs
inside the silent FUNCTION trial of `lfo(`, which hands nothing back to its
caller.  The error that the parameter list of `direct` hands to its caller is
ExpectFunctionOrValue with the cursor immediately after `control-source=`
(22). -/
theorem missing_value_fails (ts : TypeSystem) (reg : Registry) (parent : GstObject)
    (error : Bool) (w : World) (fuel : Nat)
    (hobj : GST_IS_OBJECT ts (some parent) = true)
    (htarget : GST_IS_CONTROL_BINDING ts parent = false)
    (hdirect : registered_binding ts reg "direct".toList)
    (hlfo : registered_source ts reg "lfo".toList) :
    (∃ o, gst_control_parser_parse ts reg (some missing_value_expr) (some parent)
        (some "freq".toList) error w = some o ∧ o.ret = false) ∧
    (∀ object w1, parse ts reg (fuel + 3) .NAMED_PARAMETER
        ⟨missing_value_expr, 42, 0, object, "control-source".toList⟩ true w1 =
      some (false, ⟨missing_value_expr, 52, EXPECT_FUNCTION_OR_VALUE, object,
        "control-source".toList⟩, w1)) ∧
    (∀ w1, parse ts reg (fuel + 6) .FUNCTION
        ⟨missing_value_expr, 22, 0, ⟨w.next_id, reg.binding_type "direct".toList⟩,
          "control-source".toList⟩ false w1 =
      some (false, ⟨missing_value_expr, 22, 0, ⟨w.next_id, reg.binding_type "direct".toList⟩,
          "control-source".toList⟩,
        ⟨w1.next_id + 1, w1.log ++
          [Effect.new_source ⟨w1.next_id, reg.source_type "lfo".toList⟩,
           Effect.object_set ⟨w.next_id, reg.binding_type "direct".toList⟩
             "control-source".toList ⟨w1.next_id, reg.source_type "lfo".toList⟩,
           Effect.set_object_arg ⟨w1.next_id, reg.source_type "lfo".toList⟩ "waveform".toList
             "sine".toList]⟩)) ∧
    (∀ w1, parse ts reg (fuel + 9) .NAMED_PARAMETERS
        ⟨missing_value_expr, 7, 0, ⟨w.next_id, reg.binding_type "direct".toList⟩,
          "freq".toList⟩ true w1 =
      some (false, ⟨missing_value_expr, 22, EXPECT_FUNCTION_OR_VALUE,
          ⟨w.next_id, reg.binding_type "direct".toList⟩, "freq".toList⟩,
        ⟨w1.next_id + 1, w1.log ++
          [Effect.new_source ⟨w1.next_id, reg.source_type "lfo".toList⟩,
           Effect.object_set ⟨w.next_id, reg.binding_type "direct".toList⟩
             "control-source".toList ⟨w1.next_id, reg.source_type "lfo".toList⟩,
           Effect.set_object_arg ⟨w1.next_id, reg.source_type "lfo".toList⟩ "waveform".toList
             "sine".toList]⟩)) := by
  obtain ⟨hd1, hd2⟩ := hdirect
  obtain ⟨hl1, hl2⟩ := hlfo
  simp only [String.toList, GST_IS_CONTROL_BINDING, missing_value_expr] at *
  refine ⟨?_, ?_, ?_, ?_⟩
  · simp [gst_control_parser_parse, hobj, parse_fuel, parse, named_parameters_loop, parse_terminal,
      regex_match, match_name, match_punct, match_numeric, match_string, space_len, is_space,
      is_lower, is_name_char, is_digit, is_string_char, is_newline, binding_make_eq,
      source_make_eq, hd1, hd2, hl1, hl2, htarget, GST_IS_CONTROL_BINDING, error_exit,
      World.record]
  · intro object w1
    simp [parse, named_parameters_loop, parse_terminal,
      regex_match, match_name, match_punct, match_numeric, match_string, space_len, is_space,
      is_lower, is_name_char, is_digit, is_string_char, is_newline, binding_make_eq,
      source_make_eq, hd1, hd2, hl1, hl2, htarget, GST_IS_CONTROL_BINDING, error_exit,
      World.record, EXPECT_FUNCTION_OR_VALUE]
  · intro w1
    simp [parse, named_parameters_loop, parse_terminal,
      regex_match, match_name, match_punct, match_numeric, match_string, space_len, is_space,
      is_lower, is_name_char, is_digit, is_string_char, is_newline, binding_make_eq,
      source_make_eq, hd1, hd2, hl1, hl2, htarget, GST_IS_CONTROL_BINDING, error_exit,
      World.record, EXPECT_FUNCTION_OR_VALUE]
  · intro w1
    simp [parse, named_parameters_loop, parse_terminal,
      regex_match, match_name, match_punct, match_numeric, match_string, space_len, is_space,
      is_lower, is_name_char, is_digit, is_string_char, is_newline, binding_make_eq,
      source_make_eq, hd1, hd2, hl1, hl2, htarget, GST_IS_CONTROL_BINDING, error_exit,
      World.record, EXPECT_FUNCTION_OR_VALUE]


/-- Witness of C6 amended: the example program. -/
theorem missing_value_fails_witness :
    ∃ o, gst_control_parser_parse example_types example_registry (some missing_value_expr)
        (some example_src) (some "freq".toList) true example_world = some o ∧ o.ret = false :=
  (missing_value_fails example_types example_registry example_src true example_world 0
    (by decide) (by decide) ⟨by decide, by decide⟩ ⟨by decide, by decide⟩).1

/-! ## Factory lookups that fail -/

/-- Counterexample to C8: in the example program, where no source `add` is
registered, the silent FUNCTION trial at `add(` returns failure and leaves the
caller's context as it was (pending error kind 0, cursor 22): the caller does
not receive UnsupportedControlSource.  The error reported for the whole
expression has the code 0, not UnsupportedControlSource. -/
theorem silent_lookup_failure_is_dropped :
    parse example_types example_registry 20 .FUNCTION
        ⟨add_expr, 22, 0, ⟨1, example_direct_type⟩, "control-source".toList⟩ false ⟨2, []⟩ =
      some (false, ⟨add_expr, 22, 0, ⟨1, example_direct_type⟩, "control-source".toList⟩,
        ⟨2, []⟩) ∧
    gst_control_parser_parse example_types example_registry (some add_expr)
        (some example_src) (some "freq".toList) true example_world =
      some { ret := false
             error := some (0, "Syntax error:  at pos: 0\n  direct(control-source=add(v1=0.5,v2=direct(control-source=lfo(waveform='sine',frequency=0.5))))\n   ^".toList)
             ctx := some ⟨add_expr, 0, 0, example_src, "freq".toList⟩
             world := ⟨2, [Effect.new_binding ⟨1, example_direct_type⟩ example_src "freq".toList,
                           Effect.add_control_binding example_src ⟨1, example_direct_type⟩]⟩ } ∧
    (parse example_types example_registry 20 .FUNCTION
        ⟨add_expr, 22, 0, ⟨1, example_direct_type⟩, "control-source".toList⟩ false ⟨2, []⟩).map
        (fun r => r.2.1.error_code) ≠ some UNSUPPORTED_CONTROL_SOURCE ∧
    (gst_control_parser_parse example_types example_registry (some add_expr)
        (some example_src) (some "freq".toList) true example_world).map
        (fun o => o.error.map Prod.fst) ≠ some (some UNSUPPORTED_CONTROL_SOURCE) := by
  decide

set_option maxRecDepth 4000 in
set_option maxHeartbeats 1000000 in
/-- Claim C8, amended: a failed factory lookup in the FUNCTION rule follows the
caller's mode like every other failure.  When FUNCTION has matched NAME and the
opening parenthesis and the name is not found in the selected table, a call in
fatal mode hands UnsupportedControlSource (resp. UnsupportedControlBinding) and
the cursor just past the opening parenthesis to the caller's context; a call
in silent mode returns failure and leaves the caller's context unchanged.  In
particular `direct(control-source=add(...))` with no `add` source registered
makes `gst_control_parser_parse` fail, and the NAMED_PARAMETER rule that tried
`add(` silently hands ExpectFunctionOrValue with the cursor just after
`control-source=` (22) to its caller. -/
theorem lookup_failure_follows_mode (ts : TypeSystem) (reg : Registry) :
    (∀ (fuel : Nat) (_ctx : GstControlParserContext) (fatal : Bool) (w : World)
        (name v : List Char) (n1 n2 : Nat),
      regex_match .NAME (_ctx.expr.drop _ctx.pos) = some (name, n1) →
      regex_match .OPENING_PAREN (_ctx.expr.drop (_ctx.pos + n1)) = some (v, n2) →
      dispatch_type ts reg _ctx.object name = G_TYPE_INVALID →
      parse ts reg (fuel + 1) .FUNCTION _ctx fatal w =
        some (false,
          if fatal then
            { _ctx with pos := _ctx.pos + n1 + n2,
                        error_code :=
                          if GST_IS_CONTROL_BINDING ts _ctx.object then UNSUPPORTED_CONTROL_SOURCE
                          else UNSUPPORTED_CONTROL_BINDING }
          else _ctx, w)) ∧
    (∀ (parent : GstObject) (error : Bool) (w : World) (fuel : Nat),
      GST_IS_OBJECT ts (some parent) = true →
      GST_IS_CONTROL_BINDING ts parent = false →
      registered_binding ts reg "direct".toList →
      reg.has_source "add".toList = false →
      (∃ o, gst_control_parser_parse ts reg (some add_expr) (some parent) (some "freq".toList)
          error w = some o ∧ o.ret = false) ∧
      (∀ w1, parse ts reg (fuel + 2) .NAMED_PARAMETER
          ⟨add_expr, 7, 0, ⟨w.next_id, reg.binding_type "direct".toList⟩, "freq".toList⟩ true w1 =
        some (false, ⟨add_expr, 22, EXPECT_FUNCTION_OR_VALUE,
          ⟨w.next_id, reg.binding_type "direct".toList⟩, "freq".toList⟩, w1))) := by
  constructor
  · intro fuel _ctx fatal w name v n1 n2 hname hparen hreg
    have h1 := parse_terminal_of_match .NAME _ctx name n1 hname
    have h2 := parse_terminal_of_match .OPENING_PAREN { _ctx with pos := _ctx.pos + n1 } v n2 hparen
    rw [function_lookup_failed ts reg fuel _ _ _ name v fatal w h1 h2 hreg]
    cases fatal <;> simp [error_exit]
  · intro parent error w fuel hobj htarget hdirect hadd
    obtain ⟨hd1, hd2⟩ := hdirect
    have hs := source_type_absent reg _ hadd
    simp only [String.toList, GST_IS_CONTROL_BINDING, add_expr] at *
    constructor
    · simp [gst_control_parser_parse, hobj, parse_fuel, parse, named_parameters_loop, parse_terminal,
        regex_match, match_name, match_punct, match_numeric, match_string, space_len, is_space,
        is_lower, is_name_char, is_digit, is_string_char, is_newline, binding_make_eq,
        source_make_eq, hd1, hd2, hs, htarget, GST_IS_CONTROL_BINDING, error_exit,
        World.record]
    · intro w1
      simp [parse, named_parameters_loop, parse_terminal,
        regex_match, match_name, match_punct, match_numeric, match_string, space_len, is_space,
        is_lower, is_name_char, is_digit, is_string_char, is_newline, binding_make_eq,
        source_make_eq, hd1, hd2, hs, htarget, GST_IS_CONTROL_BINDING, error_exit,
        World.record, EXPECT_FUNCTION_OR_VALUE]

/-- Witness of C8 amended: the example program; in fatal mode the lookup of
`add` reports UnsupportedControlSource at cursor 26. -/
theorem lookup_failure_follows_mode_witness :
    parse example_types example_registry (19 + 1) .FUNCTION
        ⟨add_expr, 22, 0, ⟨1, example_direct_type⟩, "control-source".toList⟩ true ⟨2, []⟩ =
      some (false, ⟨add_expr, 26, UNSUPPORTED_CONTROL_SOURCE, ⟨1, example_direct_type⟩,
        "control-source".toList⟩, ⟨2, []⟩) ∧
    ∃ o, gst_control_parser_parse example_types example_registry (some add_expr)
        (some example_src) (some "freq".toList) true example_world = some o ∧ o.ret = false :=
  ⟨(lookup_failure_follows_mode example_types example_registry).1 19
      ⟨add_expr, 22, 0, ⟨1, example_direct_type⟩, "control-source".toList⟩ true ⟨2, []⟩
      "add".toList [] 3 1 (by decide) (by decide) (by decide),
   ((lookup_failure_follows_mode example_types example_registry).2 example_src true
      example_world 0 (by decide) (by decide) ⟨by decide, by decide⟩ (by decide)).1⟩

/-! ## The scenario of the example program -/

theorem value_literal (ts : TypeSystem) (reg : Registry) (fuel : Nat)
    (_ctx : GstControlParserContext) (fatal : Bool) (w : World) (type : TerminalSymbol)
    (value : List Char) (n : Nat)
    (htype : type = .NUMERIC_VALUE ∨ type = .STRING_VALUE)
    (hvalue : regex_match type (_ctx.expr.drop _ctx.pos) = some (value, n)) :
    parse ts reg (fuel + 1) .VALUE _ctx fatal w =
      some (true, { _ctx with pos := _ctx.pos + n },
        w.record (Effect.set_object_arg _ctx.object _ctx.prop_name value)) := by
  rcases htype with rfl | rfl
  · simp only [parse, parse_terminal_of_match _ _ _ _ hvalue]
  · have hnum : regex_match .NUMERIC_VALUE (_ctx.expr.drop _ctx.pos) = none :=
      string_excludes_numeric _ _ hvalue
    simp only [parse, parse_terminal_of_no_match _ _ hnum, parse_terminal_of_match _ _ _ _ hvalue]

theorem literal_excludes_name (type : TerminalSymbol) (s : List Char) (r : List Char × Nat)
    (htype : type = .NUMERIC_VALUE ∨ type = .STRING_VALUE)
    (hvalue : regex_match type s = some r) : regex_match .NAME s = none := by
  rcases htype with rfl | rfl
  · exact numeric_excludes_name s r hvalue
  · exact string_excludes_name s r hvalue

theorem named_parameter_literal (ts : TypeSystem) (reg : Registry) (fuel : Nat)
    (_ctx : GstControlParserContext) (fatal : Bool) (w : World) (type : TerminalSymbol)
    (name x value : List Char) (n1 n2 n3 : Nat)
    (hname : regex_match .NAME (_ctx.expr.drop _ctx.pos) = some (name, n1))
    (hassign : regex_match .ASSIGNMENT (_ctx.expr.drop (_ctx.pos + n1)) = some (x, n2))
    (htype : type = .NUMERIC_VALUE ∨ type = .STRING_VALUE)
    (hvalue : regex_match type (_ctx.expr.drop (_ctx.pos + n1 + n2)) = some (value, n3)) :
    parse ts reg (fuel + 2) .NAMED_PARAMETER _ctx fatal w =
      some (true, { _ctx with pos := _ctx.pos + n1 + n2 + n3 },
        w.record (Effect.set_object_arg _ctx.object name value)) := by
  have h1 := parse_terminal_of_match .NAME _ctx name n1 hname
  have h2 := parse_terminal_of_match .ASSIGNMENT { _ctx with pos := _ctx.pos + n1 } x n2 hassign
  have h3 : parse_terminal .NAME
      { _ctx with pos := _ctx.pos + n1 + n2, prop_name := name } = none :=
    parse_terminal_of_no_match _ _ (literal_excludes_name type _ _ htype hvalue)
  have h4 := function_no_name ts reg fuel _ false w h3
  have h5 := value_literal ts reg fuel
    { _ctx with pos := _ctx.pos + n1 + n2, prop_name := name } false w type value n3 htype hvalue
  rw [show fuel + 2 = (fuel + 1) + 1 from rfl, parse]
  simp only [h1, h2, h4, error_exit, Bool.false_eq_true, if_false, h5]

set_option maxRecDepth 4000 in
set_option maxHeartbeats 1000000 in
/-- Claim C2: parsing
`direct(control-source=lfo(waveform='sine',offset=0.5,amplitude=0.3,frequency=0.5))`
against a target that is not a binding, with attribute name `freq`, a registered
binding `direct` and a registered source `lfo`, succeeds and adds exactly these
effects to the log, in this order: the binding `direct` is constructed for
(target, `freq`) and added to the target's binding list, the source `lfo` is
constructed and assigned to the attribute `control-source` of the binding, and
the setter is called on the source with (`waveform`, `sine`), (`offset`, `0.5`),
(`amplitude`, `0.3`), (`frequency`, `0.5`).  In general the NAMED_PARAMETER rule
on `name=literal` succeeds in either mode and calls the setter exactly once,
with the current object, the parameter name and the captured text; the text
captured for a string literal is the text between its quotes. -/
theorem lfo_scenario (ts : TypeSystem) (reg : Registry) :
    (∀ (parent : GstObject) (error : Bool) (w : World),
      GST_IS_OBJECT ts (some parent) = true →
      GST_IS_CONTROL_BINDING ts parent = false →
      registered_binding ts reg "direct".toList →
      registered_source ts reg "lfo".toList →
      gst_control_parser_parse ts reg (some lfo_expr) (some parent) (some "freq".toList) error w =
        some { ret := true
               error := none
               ctx := some ⟨lfo_expr, 82, 0, ⟨w.next_id, reg.binding_type "direct".toList⟩,
                 "freq".toList⟩
               world := ⟨w.next_id + 2, w.log ++
                 [Effect.new_binding ⟨w.next_id, reg.binding_type "direct".toList⟩ parent
                    "freq".toList,
                  Effect.add_control_binding parent ⟨w.next_id, reg.binding_type "direct".toList⟩,
                  Effect.new_source ⟨w.next_id + 1, reg.source_type "lfo".toList⟩,
                  Effect.object_set ⟨w.next_id, reg.binding_type "direct".toList⟩
                    "control-source".toList ⟨w.next_id + 1, reg.source_type "lfo".toList⟩,
                  Effect.set_object_arg ⟨w.next_id + 1, reg.source_type "lfo".toList⟩
                    "waveform".toList "sine".toList,
                  Effect.set_object_arg ⟨w.next_id + 1, reg.source_type "lfo".toList⟩
                    "offset".toList "0.5".toList,
                  Effect.set_object_arg ⟨w.next_id + 1, reg.source_type "lfo".toList⟩
                    "amplitude".toList "0.3".toList,
                  Effect.set_object_arg ⟨w.next_id + 1, reg.source_type "lfo".toList⟩
                    "frequency".toList "0.5".toList]⟩ }) ∧
    (∀ (fuel : Nat) (_ctx : GstControlParserContext) (fatal : Bool) (w : World)
        (type : TerminalSymbol) (name x value : List Char) (n1 n2 n3 : Nat),
      regex_match .NAME (_ctx.expr.drop _ctx.pos) = some (name, n1) →
      regex_match .ASSIGNMENT (_ctx.expr.drop (_ctx.pos + n1)) = some (x, n2) →
      (type = .NUMERIC_VALUE ∨ type = .STRING_VALUE) →
      regex_match type (_ctx.expr.drop (_ctx.pos + n1 + n2)) = some (value, n3) →
      parse ts reg (fuel + 2) .NAMED_PARAMETER _ctx fatal w =
        some (true, { _ctx with pos := _ctx.pos + n1 + n2 + n3 },
          ⟨w.next_id, w.log ++ [Effect.set_object_arg _ctx.object name value]⟩)) ∧
    (∀ body rest : List Char, (∀ c ∈ body, is_string_char c = true) →
      regex_match .STRING_VALUE ('\'' :: (body ++ '\'' :: rest)) =
        some (body, body.length + 2 + space_len rest)) := by
  refine ⟨?_, ?_, ?_⟩
  · intro parent error w hobj htarget hdirect hlfo
    obtain ⟨hd1, hd2⟩ := hdirect
    obtain ⟨hl1, hl2⟩ := hlfo
    simp only [String.toList, GST_IS_CONTROL_BINDING, lfo_expr] at *
    simp [gst_control_parser_parse, hobj, parse_fuel, parse, named_parameters_loop, parse_terminal,
      regex_match, match_name, match_punct, match_numeric, match_string, space_len, is_space,
      is_lower, is_name_char, is_digit, is_string_char, is_newline, binding_make_eq,
      source_make_eq, hd1, hd2, hl1, hl2, htarget, GST_IS_CONTROL_BINDING, error_exit,
      World.record]
  · intro fuel _ctx fatal w type name x value n1 n2 n3 hname hassign htype hvalue
    exact named_parameter_literal ts reg fuel _ctx fatal w type name x value n1 n2 n3 hname
      hassign htype hvalue
  · intro body rest hbody
    exact string_capture body rest hbody

/-- Witness of C2: the example program, and the parameter `waveform='sine'`. -/
theorem lfo_scenario_witness :
    gst_control_parser_parse example_types example_registry (some lfo_expr) (some example_src)
        (some "freq".toList) true example_world =
      some { ret := true
             error := none
             ctx := some ⟨lfo_expr, 82, 0, ⟨1, example_direct_type⟩, "freq".toList⟩
             world := ⟨3,
               [Effect.new_binding ⟨1, example_direct_type⟩ example_src "freq".toList,
                Effect.add_control_binding example_src ⟨1, example_direct_type⟩,
                Effect.new_source ⟨2, example_lfo_type⟩,
                Effect.object_set ⟨1, example_direct_type⟩ "control-source".toList
                  ⟨2, example_lfo_type⟩,
                Effect.set_object_arg ⟨2, example_lfo_type⟩ "waveform".toList "sine".toList,
                Effect.set_object_arg ⟨2, example_lfo_type⟩ "offset".toList "0.5".toList,
                Effect.set_object_arg ⟨2, example_lfo_type⟩ "amplitude".toList "0.3".toList,
                Effect.set_object_arg ⟨2, example_lfo_type⟩ "frequency".toList "0.5".toList]⟩ } ∧
    parse example_types example_registry (0 + 2) .NAMED_PARAMETER
        ⟨lfo_expr, 26, 0, ⟨2, example_lfo_type⟩, "control-source".toList⟩ false ⟨3, []⟩ =
      some (true, ⟨lfo_expr, 26 + 8 + 1 + 6, 0, ⟨2, example_lfo_type⟩, "control-source".toList⟩,
        ⟨3, [] ++ [Effect.set_object_arg ⟨2, example_lfo_type⟩ "waveform".toList
          "sine".toList]⟩) :=
  ⟨(lfo_scenario example_types example_registry).1 example_src true example_world (by decide)
      (by decide) ⟨by decide, by decide⟩ ⟨by decide, by decide⟩,
   (lfo_scenario example_types example_registry).2.1 0
      ⟨lfo_expr, 26, 0, ⟨2, example_lfo_type⟩, "control-source".toList⟩ false ⟨3, []⟩
      .STRING_VALUE "waveform".toList [] "sine".toList 8 1 6 (by decide) (by decide)
      (Or.inr rfl) (by decide)⟩

/-! ## Expressions of the grammar are accepted -/

theorem derives_value_no_name {ts : TypeSystem} {reg : Registry} {b : Bool} {s : List Char}
    {n : Nat} (h : Derives ts reg .value b s n) : regex_match .NAME s = none := by
  cases h with
  | value_numeric hm => exact numeric_excludes_name s _ hm
  | value_string hm => exact string_excludes_name s _ hm

theorem derives_parameter_name {ts : TypeSystem} {reg : Registry} {b : Bool} {s : List Char}
    {n : Nat} (h : Derives ts reg .parameter b s n) : ∃ r, regex_match .NAME s = some r := by
  cases h with
  | parameter_value hm _ _ => exact ⟨_, hm⟩
  | parameter_function hm _ _ => exact ⟨_, hm⟩

theorem derives_parameters_name {ts : TypeSystem} {reg : Registry} {b : Bool} {s : List Char}
    {n : Nat} (h : Derives ts reg .parameters b s n) : ∃ r, regex_match .NAME s = some r := by
  cases h with
  | parameters_last hp => exact derives_parameter_name hp
  | parameters_more hp _ _ => exact derives_parameter_name hp

theorem name_excludes_closing (s : List Char) (r : List Char × Nat)
    (h : regex_match .NAME s = some r) : regex_match .CLOSING_PAREN s = none := by
  simp only [regex_match] at h ⊢
  rw [name_excludes_punct s r ')' h (by decide)]
  rfl

theorem closing_excludes_comma (s : List Char) (r : List Char × Nat)
    (h : regex_match .CLOSING_PAREN s = some r) : regex_match .COMMA s = none := by
  simp only [regex_match, Option.map_eq_some'] at h ⊢
  obtain ⟨n, hn, _⟩ := h
  rw [punct_excludes_punct s ')' ',' n hn (by decide)]
  rfl

theorem registered_for_type {ts : TypeSystem} {reg : Registry} {target : GstObject}
    {name : List Char}
    (h : registered_for ts reg (GST_IS_CONTROL_BINDING ts target) name) :
    dispatch_type ts reg target name ≠ G_TYPE_INVALID ∧
      ts.is_control_binding (dispatch_type ts reg target name) =
        !GST_IS_CONTROL_BINDING ts target := by
  unfold registered_for at h
  unfold dispatch_type
  cases hb : GST_IS_CONTROL_BINDING ts target
  · rw [hb] at h
    simp only [Bool.false_eq_true, if_false] at h ⊢
    exact ⟨h.1, by simpa using h.2⟩
  · rw [hb] at h
    simp only [if_true] at h ⊢
    exact ⟨h.1, by simpa using h.2⟩


theorem function_step_empty (ts : TypeSystem) (reg : Registry) (f : Nat)
    (_ctx : GstControlParserContext) (fatal : Bool) (w : World) (name x y : List Char)
    (n1 n2 n3 : Nat)
    (hname : regex_match .NAME (_ctx.expr.drop _ctx.pos) = some (name, n1))
    (hparen : regex_match .OPENING_PAREN (_ctx.expr.drop (_ctx.pos + n1)) = some (x, n2))
    (hreg : dispatch_type ts reg _ctx.object name ≠ G_TYPE_INVALID)
    (hclose : regex_match .CLOSING_PAREN (_ctx.expr.drop (_ctx.pos + n1 + n2)) = some (y, n3)) :
    parse ts reg (f + 1) .FUNCTION _ctx fatal w =
      some (true,
        { _ctx with pos := _ctx.pos + n1 + n2 + n3,
                    object := ⟨w.next_id, dispatch_type ts reg _ctx.object name⟩ },
        ⟨w.next_id + 1, w.log ++
          [construct_effect ts _ctx.object _ctx.prop_name
              ⟨w.next_id, dispatch_type ts reg _ctx.object name⟩,
            attach_effect ts _ctx.object _ctx.prop_name
              ⟨w.next_id, dispatch_type ts reg _ctx.object name⟩]⟩) := by
  rw [function_constructed ts reg f _ctx fatal w name x n1 n2 hname hparen hreg]
  have h3 := parse_terminal_of_match .CLOSING_PAREN
    { _ctx with pos := _ctx.pos + n1 + n2,
                object := ⟨w.next_id, dispatch_type ts reg _ctx.object name⟩ } y n3 hclose
  simp only [h3]

theorem function_step_parameters (ts : TypeSystem) (reg : Registry) (f : Nat)
    (_ctx c : GstControlParserContext) (fatal : Bool) (w w' : World) (name x : List Char)
    (n1 n2 : Nat)
    (hname : regex_match .NAME (_ctx.expr.drop _ctx.pos) = some (name, n1))
    (hparen : regex_match .OPENING_PAREN (_ctx.expr.drop (_ctx.pos + n1)) = some (x, n2))
    (hreg : dispatch_type ts reg _ctx.object name ≠ G_TYPE_INVALID)
    (hclose : regex_match .CLOSING_PAREN (_ctx.expr.drop (_ctx.pos + n1 + n2)) = none)
    (hp : parse ts reg f .NAMED_PARAMETERS
        { _ctx with pos := _ctx.pos + n1 + n2,
                    object := ⟨w.next_id, dispatch_type ts reg _ctx.object name⟩ } fatal
        ⟨w.next_id + 1, w.log ++
          [construct_effect ts _ctx.object _ctx.prop_name
              ⟨w.next_id, dispatch_type ts reg _ctx.object name⟩,
            attach_effect ts _ctx.object _ctx.prop_name
              ⟨w.next_id, dispatch_type ts reg _ctx.object name⟩]⟩ = some (true, c, w')) :
    parse ts reg (f + 1) .FUNCTION _ctx fatal w =
      some (true,
        { _ctx with object := ⟨w.next_id, dispatch_type ts reg _ctx.object name⟩, pos := c.pos },
        w') := by
  rw [function_constructed ts reg f _ctx fatal w name x n1 n2 hname hparen hreg]
  have h3 := parse_terminal_of_no_match .CLOSING_PAREN
    { _ctx with pos := _ctx.pos + n1 + n2,
                object := ⟨w.next_id, dispatch_type ts reg _ctx.object name⟩ } hclose
  simp only [h3, hp]

theorem parameters_step (ts : TypeSystem) (reg : Registry) (f : Nat)
    (_ctx c : GstControlParserContext) (fatal : Bool) (w w' : World)
    (hl : named_parameters_loop ts reg f _ctx fatal w = some (true, c, w')) :
    parse ts reg (f + 1) .NAMED_PARAMETERS _ctx fatal w =
      some (true, { _ctx with pos := c.pos }, w') := by
  simp only [parse, hl]

theorem loop_step_last (ts : TypeSystem) (reg : Registry) (f : Nat)
    (ctx c : GstControlParserContext) (fatal : Bool) (w w' : World) (y : List Char) (n : Nat)
    (hp : parse ts reg f .NAMED_PARAMETER ctx fatal w = some (true, c, w'))
    (hcomma : regex_match .COMMA (c.expr.drop c.pos) = none)
    (hclose : regex_match .CLOSING_PAREN (c.expr.drop c.pos) = some (y, n)) :
    named_parameters_loop ts reg (f + 1) ctx fatal w =
      some (true, { c with pos := c.pos + n }, w') := by
  simp only [named_parameters_loop, hp, parse_terminal_of_no_match _ _ hcomma,
    parse_terminal_of_match _ _ _ _ hclose]

theorem loop_step_more (ts : TypeSystem) (reg : Registry) (f : Nat)
    (ctx c : GstControlParserContext) (fatal : Bool) (w w' : World) (x : List Char) (n : Nat)
    (hp : parse ts reg f .NAMED_PARAMETER ctx fatal w = some (true, c, w'))
    (hcomma : regex_match .COMMA (c.expr.drop c.pos) = some (x, n)) :
    named_parameters_loop ts reg (f + 1) ctx fatal w =
      named_parameters_loop ts reg f { c with pos := c.pos + n } fatal w' := by
  rw [named_parameters_loop]
  simp only [hp, parse_terminal_of_match _ _ _ _ hcomma]

theorem parameter_step_function (ts : TypeSystem) (reg : Registry) (f : Nat)
    (_ctx c : GstControlParserContext) (fatal : Bool) (w w' : World) (name x : List Char)
    (n1 n2 : Nat)
    (hname : regex_match .NAME (_ctx.expr.drop _ctx.pos) = some (name, n1))
    (hassign : regex_match .ASSIGNMENT (_ctx.expr.drop (_ctx.pos + n1)) = some (x, n2))
    (hf : parse ts reg f .FUNCTION { _ctx with pos := _ctx.pos + n1 + n2, prop_name := name }
        false w = some (true, c, w')) :
    parse ts reg (f + 1) .NAMED_PARAMETER _ctx fatal w =
      some (true, { _ctx with pos := c.pos }, w') := by
  have h1 := parse_terminal_of_match .NAME _ctx name n1 hname
  have h2 := parse_terminal_of_match .ASSIGNMENT { _ctx with pos := _ctx.pos + n1 } x n2 hassign
  rw [parse]
  simp only [h1, h2, hf]

theorem parameter_step_value (ts : TypeSystem) (reg : Registry) (f : Nat)
    (_ctx c : GstControlParserContext) (fatal : Bool) (w w' : World) (name x : List Char)
    (n1 n2 : Nat)
    (hname : regex_match .NAME (_ctx.expr.drop _ctx.pos) = some (name, n1))
    (hassign : regex_match .ASSIGNMENT (_ctx.expr.drop (_ctx.pos + n1)) = some (x, n2))
    (hnoname : regex_match .NAME (_ctx.expr.drop (_ctx.pos + n1 + n2)) = none)
    (hv : parse ts reg (f + 1) .VALUE { _ctx with pos := _ctx.pos + n1 + n2, prop_name := name }
        false w = some (true, c, w')) :
    parse ts reg (f + 2) .NAMED_PARAMETER _ctx fatal w =
      some (true, { _ctx with pos := c.pos }, w') := by
  have h1 := parse_terminal_of_match .NAME _ctx name n1 hname
  have h2 := parse_terminal_of_match .ASSIGNMENT { _ctx with pos := _ctx.pos + n1 } x n2 hassign
  have h3 : parse_terminal .NAME
      { _ctx with pos := _ctx.pos + n1 + n2, prop_name := name } = none :=
    parse_terminal_of_no_match _ _ hnoname
  have h4 := function_no_name ts reg f _ false w h3
  rw [show f + 2 = (f + 1) + 1 from rfl, parse]
  simp only [h1, h2, h4, error_exit, Bool.false_eq_true, if_false, hv]


theorem drop_pos_add (l : List Char) (a k : Nat) : l.drop (a + k) = (l.drop a).drop k :=
  (List.drop_drop k a l).symm

theorem derives_accepted {ts : TypeSystem} {reg : Registry} {p : Production} {b : Bool}
    {s : List Char} {n : Nat} (h : Derives ts reg p b s n) :
    ∀ (fuel : Nat) (ctx : GstControlParserContext) (fatal : Bool) (w : World),
      ctx.expr.drop ctx.pos = s → GST_IS_CONTROL_BINDING ts ctx.object = b →
      (p = .value → 1 ≤ fuel →
        ∃ w', parse ts reg fuel .VALUE ctx fatal w =
          some (true, { ctx with pos := ctx.pos + n }, w')) ∧
      (p = .parameter → s.length + 2 ≤ fuel →
        ∃ w', parse ts reg fuel .NAMED_PARAMETER ctx fatal w =
          some (true, { ctx with pos := ctx.pos + n }, w')) ∧
      (p = .parameters → s.length + 3 ≤ fuel →
        ∀ y n', regex_match .CLOSING_PAREN (s.drop n) = some (y, n') →
          ∃ w', named_parameters_loop ts reg fuel ctx fatal w =
            some (true, { ctx with pos := ctx.pos + n + n' }, w')) ∧
      (p = .function → s.length + 3 ≤ fuel →
        ∃ name n1 w' rest, regex_match .NAME s = some (name, n1) ∧
          parse ts reg fuel .FUNCTION ctx fatal w =
            some (true,
              { ctx with pos := ctx.pos + n,
                         object := ⟨w.next_id, dispatch_type ts reg ctx.object name⟩ }, w') ∧
          w'.log = w.log ++
            construct_effect ts ctx.object ctx.prop_name
              ⟨w.next_id, dispatch_type ts reg ctx.object name⟩ :: rest ∧
          ts.is_control_binding (dispatch_type ts reg ctx.object name) = !b) := by
  induction h with
  | @value_numeric b s v n hm =>
    intro fuel ctx fatal w hs hb
    subst hs
    refine ⟨fun _ hf => ?_, nofun, nofun, nofun⟩
    obtain ⟨f, rfl⟩ : ∃ f, fuel = f + 1 := ⟨fuel - 1, by omega⟩
    exact ⟨_, value_literal ts reg f ctx fatal w .NUMERIC_VALUE v n (Or.inl rfl) hm⟩
  | @value_string b s v n hm =>
    intro fuel ctx fatal w hs hb
    subst hs
    refine ⟨fun _ hf => ?_, nofun, nofun, nofun⟩
    obtain ⟨f, rfl⟩ : ∃ f, fuel = f + 1 := ⟨fuel - 1, by omega⟩
    exact ⟨_, value_literal ts reg f ctx fatal w .STRING_VALUE v n (Or.inr rfl) hm⟩
  | @parameter_value b s name x n1 n2 n3 hname hassign hv ih =>
    intro fuel ctx fatal w hs hb
    subst hs
    refine ⟨nofun, fun _ hf => ?_, nofun, nofun⟩
    obtain ⟨f, rfl⟩ : ∃ f, fuel = f + 2 := ⟨fuel - 2, by omega⟩
    have hassign' : regex_match .ASSIGNMENT (ctx.expr.drop (ctx.pos + n1)) = some (x, n2) := by
      rw [drop_pos_add]; exact hassign
    have hd : List.drop (ctx.pos + n1 + n2) ctx.expr = List.drop (n1 + n2) (ctx.expr.drop ctx.pos) := by
      rw [Nat.add_assoc, drop_pos_add]
    obtain ⟨w', hw'⟩ := (ih (f + 1) { ctx with pos := ctx.pos + n1 + n2, prop_name := name }
      false w hd hb).1 rfl (by omega)
    refine ⟨w', ?_⟩
    rw [parameter_step_value ts reg f ctx _ fatal w w' name x n1 n2 hname hassign'
      (by rw [hd]; exact derives_value_no_name hv) hw']
    simp only [Nat.add_assoc]
  | @parameter_function b s name x n1 n2 n3 hname hassign hfun ih =>
    intro fuel ctx fatal w hs hb
    subst hs
    refine ⟨nofun, fun _ hf => ?_, nofun, nofun⟩
    obtain ⟨f, rfl⟩ : ∃ f, fuel = f + 1 := ⟨fuel - 1, by omega⟩
    have hassign' : regex_match .ASSIGNMENT (ctx.expr.drop (ctx.pos + n1)) = some (x, n2) := by
      rw [drop_pos_add]; exact hassign
    have hd : List.drop (ctx.pos + n1 + n2) ctx.expr = List.drop (n1 + n2) (ctx.expr.drop ctx.pos) := by
      rw [Nat.add_assoc, drop_pos_add]
    have b1 := regex_match_bounds _ _ _ _ hname
    have b2 := regex_match_bounds _ _ _ _ hassign
    simp only [List.length_drop] at b1 b2 hf
    obtain ⟨fname, k, w', rest, -, hw', -, -⟩ :=
      (ih f { ctx with pos := ctx.pos + n1 + n2, prop_name := name } false w hd hb).2.2.2 rfl
        (by simp only [List.length_drop]; omega)
    refine ⟨w', ?_⟩
    rw [parameter_step_function ts reg f ctx _ fatal w w' name x n1 n2 hname hassign' hw']
    simp only [Nat.add_assoc]
  | @parameters_last b s n hp ih =>
    intro fuel ctx fatal w hs hb
    subst hs
    refine ⟨nofun, nofun, fun _ hf y n' hclose => ?_, nofun⟩
    obtain ⟨f, rfl⟩ : ∃ f, fuel = f + 1 := ⟨fuel - 1, by omega⟩
    obtain ⟨w', hw'⟩ := (ih f ctx fatal w rfl hb).2.1 rfl (by omega)
    have hclose' : regex_match .CLOSING_PAREN (ctx.expr.drop (ctx.pos + n)) = some (y, n') := by
      rw [drop_pos_add]; exact hclose
    exact ⟨w', loop_step_last ts reg f ctx { ctx with pos := ctx.pos + n } fatal w w' y n' hw'
      (closing_excludes_comma _ _ hclose') hclose'⟩
  | @parameters_more b s x n1 n2 n3 hp hcomma hps ihp ihps =>
    intro fuel ctx fatal w hs hb
    subst hs
    refine ⟨nofun, nofun, fun _ hf y n' hclose => ?_, nofun⟩
    obtain ⟨f, rfl⟩ : ∃ f, fuel = f + 1 := ⟨fuel - 1, by omega⟩
    obtain ⟨w1, hw1⟩ := (ihp f ctx fatal w rfl hb).2.1 rfl (by omega)
    have hcomma' : regex_match .COMMA (ctx.expr.drop (ctx.pos + n1)) = some (x, n2) := by
      rw [drop_pos_add]; exact hcomma
    have hd : List.drop (ctx.pos + n1 + n2) ctx.expr = List.drop (n1 + n2) (ctx.expr.drop ctx.pos) := by
      rw [Nat.add_assoc, drop_pos_add]
    have b2 := regex_match_bounds _ _ _ _ hcomma
    simp only [List.length_drop] at b2 hf
    obtain ⟨w', hw'⟩ := (ihps f { ctx with pos := ctx.pos + n1 + n2 } fatal w1 hd hb).2.2.1 rfl
      (by simp only [List.length_drop]; omega) y n'
      (by rw [List.drop_drop]; exact hclose)
    refine ⟨w', ?_⟩
    rw [loop_step_more ts reg f ctx { ctx with pos := ctx.pos + n1 } fatal w w1 x n2 hw1 hcomma',
      hw']
    simp only [Nat.add_assoc]
  | @function_empty b s name x y n1 n2 n3 hname hparen hreg hclose =>
    intro fuel ctx fatal w hs hb
    subst hs
    subst hb
    refine ⟨nofun, nofun, nofun, fun _ hf => ?_⟩
    obtain ⟨f, rfl⟩ : ∃ f, fuel = f + 1 := ⟨fuel - 1, by omega⟩
    have hparen' : regex_match .OPENING_PAREN (ctx.expr.drop (ctx.pos + n1)) = some (x, n2) := by
      rw [drop_pos_add]; exact hparen
    have hclose' : regex_match .CLOSING_PAREN (ctx.expr.drop (ctx.pos + n1 + n2)) =
        some (y, n3) := by
      rw [Nat.add_assoc, drop_pos_add]; exact hclose
    obtain ⟨ht1, ht2⟩ := registered_for_type hreg
    refine ⟨name, n1,
      ⟨w.next_id + 1, w.log ++
        [construct_effect ts ctx.object ctx.prop_name
            ⟨w.next_id, dispatch_type ts reg ctx.object name⟩,
          attach_effect ts ctx.object ctx.prop_name
            ⟨w.next_id, dispatch_type ts reg ctx.object name⟩]⟩,
      [attach_effect ts ctx.object ctx.prop_name
        ⟨w.next_id, dispatch_type ts reg ctx.object name⟩], hname, ?_, ?_, ht2⟩
    · rw [function_step_empty ts reg f ctx fatal w name x y n1 n2 n3 hname hparen' ht1 hclose']
      simp only [Nat.add_assoc]
    · rfl
  | @function_parameters b s name x y n1 n2 n3 n4 hname hparen hreg hps hclose ih =>
    intro fuel ctx fatal w hs hb
    subst hs
    subst hb
    refine ⟨nofun, nofun, nofun, fun _ hf => ?_⟩
    obtain ⟨f, rfl⟩ : ∃ f, fuel = f + 2 := ⟨fuel - 2, by omega⟩
    have hparen' : regex_match .OPENING_PAREN (ctx.expr.drop (ctx.pos + n1)) = some (x, n2) := by
      rw [drop_pos_add]; exact hparen
    have hd : List.drop (ctx.pos + n1 + n2) ctx.expr = List.drop (n1 + n2) (ctx.expr.drop ctx.pos) := by
      rw [Nat.add_assoc, drop_pos_add]
    obtain ⟨ht1, ht2⟩ := registered_for_type hreg
    have b1 := regex_match_bounds _ _ _ _ hname
    have b2 := regex_match_bounds _ _ _ _ hparen
    simp only [List.length_drop] at b1 b2 hf
    obtain ⟨r, hr⟩ := derives_parameters_name hps
    have hnoclose : regex_match .CLOSING_PAREN (ctx.expr.drop (ctx.pos + n1 + n2)) = none := by
      rw [hd]; exact name_excludes_closing _ r hr
    obtain ⟨w', hw'⟩ := (ih f
      { ctx with pos := ctx.pos + n1 + n2,
                 object := ⟨w.next_id, dispatch_type ts reg ctx.object name⟩ } fatal
      ⟨w.next_id + 1, w.log ++
        [construct_effect ts ctx.object ctx.prop_name
            ⟨w.next_id, dispatch_type ts reg ctx.object name⟩,
          attach_effect ts ctx.object ctx.prop_name
            ⟨w.next_id, dispatch_type ts reg ctx.object name⟩]⟩ hd ht2).2.2.1 rfl
      (by simp only [List.length_drop]; omega) y n4
      (by rw [List.drop_drop]; exact hclose)
    obtain ⟨rest, hrest⟩ := (log_extends ts reg f).2 _ _ _ _ _ _ hw'
    have hps' := parameters_step ts reg f _ _ fatal _ w' hw'
    refine ⟨name, n1, w', attach_effect ts ctx.object ctx.prop_name
        ⟨w.next_id, dispatch_type ts reg ctx.object name⟩ :: rest, hname, ?_, ?_, ht2⟩
    · rw [show f + 2 = (f + 1) + 1 from rfl,
        function_step_parameters ts reg (f + 1) ctx _ fatal w w' name x n1 n2 hname hparen' ht1
          hnoclose hps']
      simp only [Nat.add_assoc]
    · rw [hrest]
      simp


/-- Claim C1: let the first `n` characters of the expression be derived from
the grammar `function := NAME '(' [parameter (',' parameter)*] ')'`,
`parameter := NAME '=' (function | value)`,
`value := NUMERIC_VALUE | STRING_VALUE`, with the terminals as the tokenizer
matches them and every function name registered in the table the dispatch rule
selects at its nesting position (`n = expr.length` when the whole expression is
derived).  Then `gst_control_parser_parse` on a target that is not a binding
returns success with the cursor at `n`; the object left in the top-level context
is the object constructed for the outermost function name, by the binding
factory with the target and the attribute name (the first effect of the run),
and it is a control binding. -/
theorem derivable_expression_accepted (ts : TypeSystem) (reg : Registry) (expr : List Char)
    (n : Nat) (parent : GstObject) (prop_name : List Char) (error : Bool) (w : World)
    (hobj : GST_IS_OBJECT ts (some parent) = true)
    (htarget : GST_IS_CONTROL_BINDING ts parent = false)
    (hderiv : Derives ts reg .function false expr n) :
    ∃ name n1 w' rest,
      regex_match .NAME expr = some (name, n1) ∧
      gst_control_parser_parse ts reg (some expr) (some parent) (some prop_name) error w =
        some { ret := true
               error := none
               ctx := some ⟨expr, n, 0, ⟨w.next_id, reg.binding_type name⟩, prop_name⟩
               world := w' } ∧
      w'.log = w.log ++
        Effect.new_binding ⟨w.next_id, reg.binding_type name⟩ parent prop_name :: rest ∧
      GST_IS_CONTROL_BINDING ts ⟨w.next_id, reg.binding_type name⟩ = true := by
  obtain ⟨name, n1, w', rest, hname, hparse, hlog, hcap⟩ :=
    (derives_accepted hderiv (parse_fuel expr) ⟨expr, 0, 0, parent, prop_name⟩ true w rfl
      htarget).2.2.2 rfl (by simp only [parse_fuel]; omega)
  have hd : dispatch_type ts reg parent name = reg.binding_type name := by
    simp [dispatch_type, htarget]
  simp only [hd, Nat.zero_add] at hparse hlog hcap
  refine ⟨name, n1, w', rest, hname, ?_, ?_, ?_⟩
  · simp only [gst_control_parser_parse, hobj, if_true, hparse]
  · simpa [construct_effect, htarget] using hlog
  · simpa [GST_IS_CONTROL_BINDING] using hcap

theorem short_expr_derives :
    Derives example_types example_registry .function false short_expr
      (6 + 1 + (14 + 1 + (3 + 1 + (9 + 1 + 3) + 1)) + 1) :=
  @Derives.function_parameters _ _ false short_expr "direct".toList [] [] 6 1
    (14 + 1 + (3 + 1 + (9 + 1 + 3) + 1)) 1 (by decide) (by decide)
    (show registered_binding _ _ _ from ⟨by decide, by decide⟩)
    (Derives.parameters_last
      (@Derives.parameter_function _ _ true _ "control-source".toList [] 14 1
        (3 + 1 + (9 + 1 + 3) + 1) (by decide) (by decide)
        (@Derives.function_parameters _ _ true _ "lfo".toList [] [] 3 1 (9 + 1 + 3) 1
          (by decide) (by decide)
          (show registered_source _ _ _ from ⟨by decide, by decide⟩)
          (Derives.parameters_last
            (@Derives.parameter_value _ _ false _ "frequency".toList [] 9 1 3
              (by decide) (by decide)
              (@Derives.value_numeric _ _ false _ "0.5".toList 3 (by decide))))
          (by decide))))
    (by decide)

/-- Witness of C1: `direct(control-source=lfo(frequency=0.5))` in the example
program. -/
theorem derivable_expression_accepted_witness :
    ∃ name n1 w' rest,
      regex_match .NAME short_expr = some (name, n1) ∧
      gst_control_parser_parse example_types example_registry (some short_expr)
          (some example_src) (some "freq".toList) true example_world =
        some { ret := true
               error := none
               ctx := some ⟨short_expr, 41, 0,
                 ⟨example_world.next_id, example_registry.binding_type name⟩, "freq".toList⟩
               world := w' } ∧
      w'.log = example_world.log ++
        Effect.new_binding ⟨example_world.next_id, example_registry.binding_type name⟩
          example_src "freq".toList :: rest ∧
      GST_IS_CONTROL_BINDING example_types
        ⟨example_world.next_id, example_registry.binding_type name⟩ = true :=
  derivable_expression_accepted example_types example_registry short_expr 41 example_src
    "freq".toList true example_world (by decide) (by decide) short_expr_derives

/-! ## The diagnostic text -/

theorem format_error_eq (ctx : GstControlParserContext) :
    format_error ctx =
      "Syntax error: ".toList ++ get_error_string ctx ++ " at pos: ".toList
        ++ (toString ctx.pos).toList ++ ['\n'] ++ [' ', ' ']
        ++ (ctx.expr.map fun c => if c = '\n' then ' ' else c) ++ ['\n'] ++ [' ', ' ', ' ']
        ++ List.replicate (ctx.pos - 1) ' ' ++ ['^'] := by
  simp [format_error, pad_left, format_decimal, toString, Nat.repr, String.toList,
    List.asString]

theorem last_line_append (a l : List Char) (h : ∀ c ∈ l, c ≠ '\n') :
    last_line (a ++ '\n' :: l) = l := by
  unfold last_line
  rw [List.reverse_append, List.reverse_cons, List.append_assoc,
    List.takeWhile_append_of_pos (by simpa using h)]
  simp

theorem before_last_line_append (a l : List Char) (h : ∀ c ∈ l, c ≠ '\n') :
    before_last_line (a ++ '\n' :: l) = a := by
  unfold before_last_line
  rw [List.reverse_append, List.reverse_cons, List.append_assoc,
    List.dropWhile_append_of_pos (by simpa using h)]
  simp

theorem one_line_no_newline (e : List Char) :
    ∀ c ∈ e.map (fun c => if c = '\n' then ' ' else c), c ≠ '\n' := by
  intro c hc
  simp only [List.mem_map] at hc
  obtain ⟨d, -, rfl⟩ := hc
  split
  · decide
  · assumption

theorem caret_line_index (k : Nat) :
    List.indexOf '^' (' ' :: ' ' :: ' ' :: (List.replicate k ' ' ++ ['^'])) = 3 + k := by
  have h : ∀ k, List.indexOf '^' (List.replicate k ' ' ++ ['^']) = k := by
    intro k
    induction k with
    | zero => rfl
    | succ k ih =>
      rw [List.replicate_succ, List.cons_append, List.indexOf_cons_ne _ (by decide), ih]
  rw [List.indexOf_cons_ne _ (by decide), List.indexOf_cons_ne _ (by decide),
    List.indexOf_cons_ne _ (by decide), h]
  omega

theorem format_error_lines (ctx : GstControlParserContext) :
    last_line (format_error ctx) =
      ' ' :: ' ' :: ' ' :: (List.replicate (ctx.pos - 1) ' ' ++ ['^']) ∧
    line_above (format_error ctx) =
      ' ' :: ' ' :: (ctx.expr.map fun c => if c = '\n' then ' ' else c) := by
  have hl : ∀ c ∈ ' ' :: ' ' :: ' ' :: (List.replicate (ctx.pos - 1) ' ' ++ ['^']), c ≠ '\n' := by
    intro c hc
    simp only [List.mem_cons, List.mem_append, List.mem_replicate, List.mem_singleton,
      List.not_mem_nil, or_false] at hc
    rcases hc with rfl | rfl | rfl | ⟨-, rfl⟩ | rfl <;> decide
  have hm : ∀ c ∈ ' ' :: ' ' :: (ctx.expr.map fun c => if c = '\n' then ' ' else c),
      c ≠ '\n' := by
    intro c hc
    simp only [List.mem_cons] at hc
    rcases hc with rfl | rfl | hc
    · decide
    · decide
    · exact one_line_no_newline _ c hc
  have heq : format_error ctx =
      ("Syntax error: ".toList ++ get_error_string ctx ++ " at pos: ".toList
        ++ (toString ctx.pos).toList ++
        '\n' :: ' ' :: ' ' :: (ctx.expr.map fun c => if c = '\n' then ' ' else c)) ++
      '\n' :: ' ' :: ' ' :: ' ' :: (List.replicate (ctx.pos - 1) ' ' ++ ['^']) := by
    rw [format_error_eq]
    simp
  constructor
  · rw [heq, last_line_append _ _ hl]
  · unfold line_above
    rw [heq, before_last_line_append _ _ hl, last_line_append _ _ hm]


/-- Counterexample to C11 as stated: for the final context of an expression
"x(" with cursor 2 and error kind unsupported control-binding, format_error
puts four spaces before the caret (three fixed ones and the caret
right-justified in a field of two), while the text of the claim, three spaces
and then as many spaces as the cursor says, has five; the two messages
differ. -/
theorem diagnostic_differs_from_spec :
    format_error ⟨"x(".toList, 2, UNSUPPORTED_CONTROL_BINDING, example_src, "freq".toList⟩ =
      "Syntax error: unsupported control-binding at pos: 2\n  x(\n    ^".toList ∧
    spec_diagnostic ⟨"x(".toList, 2, UNSUPPORTED_CONTROL_BINDING, example_src, "freq".toList⟩ =
      "Syntax error: unsupported control-binding at pos: 2\n  x(\n     ^".toList ∧
    format_error ⟨"x(".toList, 2, UNSUPPORTED_CONTROL_BINDING, example_src, "freq".toList⟩ ≠
      spec_diagnostic ⟨"x(".toList, 2, UNSUPPORTED_CONTROL_BINDING, example_src,
        "freq".toList⟩ := by
  decide

/-- Claim C11, amended: for every final context (expression e, cursor p, error
kind k) format_error returns exactly "Syntax error: " ++ description(k) ++
" at pos: " ++ decimal(p) ++ newline ++ two spaces ++ (e with every newline
replaced by a space) ++ newline ++ three spaces ++ the caret right-justified in
a field of p characters, that is p - 1 spaces and the caret for p >= 1 and the
caret alone for p = 0 (where the text agrees with the wording of the
specification); description is the fixed phrase of each of the nine kinds and
the empty string for kind 0 and for every unknown kind. -/
theorem format_error_text (ctx : GstControlParserContext) :
    format_error ctx =
      "Syntax error: ".toList ++ get_error_string ctx ++ " at pos: ".toList
        ++ (toString ctx.pos).toList ++ ['\n'] ++ [' ', ' ']
        ++ (ctx.expr.map fun c => if c = '\n' then ' ' else c) ++ ['\n'] ++ [' ', ' ', ' ']
        ++ List.replicate (ctx.pos - 1) ' ' ++ ['^'] ∧
    (ctx.pos = 0 → format_error ctx = spec_diagnostic ctx) ∧
    (ctx.error_code = 1 → get_error_string ctx = "expect <name> for function".toList) ∧
    (ctx.error_code = 2 → get_error_string ctx = "expect <(>".toList) ∧
    (ctx.error_code = 3 → get_error_string ctx = "expect <,> or <)>".toList) ∧
    (ctx.error_code = 4 → get_error_string ctx = "expect <name> for parameter".toList) ∧
    (ctx.error_code = 5 → get_error_string ctx = "expect <=>".toList) ∧
    (ctx.error_code = 6 → get_error_string ctx = "expect <value>".toList) ∧
    (ctx.error_code = 7 →
      get_error_string ctx = "expect <function> or <value> for parameter".toList) ∧
    (ctx.error_code = 8 → get_error_string ctx = "unsupported control-source".toList) ∧
    (ctx.error_code = 9 → get_error_string ctx = "unsupported control-binding".toList) ∧
    (ctx.error_code = 0 ∨ 9 < ctx.error_code → get_error_string ctx = []) := by
  refine ⟨format_error_eq ctx, ?_, ?_, ?_, ?_, ?_, ?_, ?_, ?_, ?_, ?_, ?_⟩
  · intro h
    rw [format_error_eq, spec_diagnostic, h]
  all_goals
    intro h
    unfold get_error_string
    first
    | rw [h]
    | (rcases h with h | h
       · rw [h]
       · split <;> first | rfl | omega)

/-- Witness of C11: the amended statement applied to an empty expression at
cursor 0, to kind 7 and to the unknown kind 10. -/
theorem format_error_text_witness :
    format_error ⟨[], 0, 0, example_src, []⟩ = spec_diagnostic ⟨[], 0, 0, example_src, []⟩ ∧
    get_error_string ⟨[], 0, 7, example_src, []⟩ =
      "expect <function> or <value> for parameter".toList ∧
    get_error_string ⟨[], 0, 10, example_src, []⟩ = [] :=
  ⟨(format_error_text ⟨[], 0, 0, example_src, []⟩).2.1 rfl,
   (format_error_text ⟨[], 0, 7, example_src, []⟩).2.2.2.2.2.2.2.2.1 rfl,
   (format_error_text ⟨[], 0, 10, example_src, []⟩).2.2.2.2.2.2.2.2.2.2.2 (Or.inr (by decide))⟩

/-- Claim C12, refuted at cursor 0: in every diagnostic of format_error the line
above the last one is two spaces and the expression, so the byte at offset p
stands in column 2 + p, while the caret of the last line stands in column
3 + (p - 1); the two agree for p >= 1 and differ for p = 0. The expression
"3.0" fails at cursor 0 with ExpectFunctionName: its caret stands in column 3,
under the dot (offset 1), and not in column 2 under the offending digit. -/
theorem caret_at_cursor_zero :
    (∀ ctx : GstControlParserContext,
      caret_column (format_error ctx) = 3 + (ctx.pos - 1) ∧
      line_above (format_error ctx) =
        ' ' :: ' ' :: (ctx.expr.map fun c => if c = '\n' then ' ' else c)) ∧
    (gst_control_parser_parse example_types example_registry (some "3.0".toList)
        (some example_src) (some "freq".toList) true example_world).map
        (fun o => o.error.map fun e => (e.1, e.2, line_above e.2, caret_column e.2)) =
      some (some (EXPECT_FUNCTION_NAME,
        "Syntax error: expect <name> for function at pos: 0\n  3.0\n   ^".toList,
        "  3.0".toList, 3)) ∧
    (gst_control_parser_parse example_types example_registry (some "3.0".toList)
        (some example_src) (some "freq".toList) true example_world).map
        (fun o => o.error.map fun e => (line_above e.2).get? (caret_column e.2)) =
      some (some (some '.')) := by
  refine ⟨fun ctx => ⟨?_, (format_error_lines ctx).2⟩, by decide, by decide⟩
  unfold caret_column
  rw [(format_error_lines ctx).1, caret_line_index]

/-! ## The registry tables -/

theorem lookup_insert (t : GHashTable) (k k' : List Char) (v : Nat) :
    g_hash_table_lookup (g_hash_table_insert t k v) k' =
      if k' = k then v else g_hash_table_lookup t k' := by
  unfold g_hash_table_lookup g_hash_table_insert
  by_cases h : k' = k
  · subst h
    simp
  · have h' : ¬ k = k' := fun e => h e.symm
    rw [List.find?_cons_of_neg _ (by simpa using h'), List.find?_filter, if_neg h]
    congr 1
    congr 1
    funext a
    by_cases ha : a.1 = k'
    · simp [ha, h]
    · simp [ha]

theorem binding_type_register_binding (reg : Registry) (name name' : List Char) (t : GType) :
    (gst_control_binding_register reg name t).binding_type name' =
      if name' = name then GPOINTER_TO_INT (GINT_TO_POINTER t) else reg.binding_type name' := by
  unfold gst_control_binding_register Registry.binding_type
  simp only [lookup_insert]
  by_cases h : name' = name
  · simp [h]
  · simp only [h, if_false]
    cases reg.bindings with
    | none => rfl
    | some b => rfl

theorem source_type_register_source (reg : Registry) (name name' : List Char) (t : GType) :
    (gst_control_source_register reg name t).source_type name' =
      if name' = name then GPOINTER_TO_INT (GINT_TO_POINTER t) else reg.source_type name' := by
  unfold gst_control_source_register Registry.source_type
  simp only [lookup_insert]
  by_cases h : name' = name
  · simp [h]
  · simp only [h, if_false]
    cases reg.sources with
    | none => rfl
    | some b => rfl

theorem source_type_register_binding (reg : Registry) (name name' : List Char) (t : GType) :
    (gst_control_binding_register reg name t).source_type name' = reg.source_type name' := rfl

theorem binding_type_register_source (reg : Registry) (name name' : List Char) (t : GType) :
    (gst_control_source_register reg name t).binding_type name' = reg.binding_type name' := rfl

theorem int_pointer_roundtrip (t : Nat) (h : t < 2 ^ 31) :
    GPOINTER_TO_INT (GINT_TO_POINTER t) = t := by
  unfold GPOINTER_TO_INT GINT_TO_POINTER
  have h31 : t < 2147483648 := h
  have h1 : t % 2 ^ 64 = t := Nat.mod_eq_of_lt (by norm_num; omega)
  have h2 : t % 2 ^ 32 = t := Nat.mod_eq_of_lt (by norm_num; omega)
  rw [h1, h2, if_pos h]


/-- Claim C13, refuted for wide types: the tables store a type through
GINT_TO_POINTER and read it back through GPOINTER_TO_INT, which keeps 32 bits.
After registering the source "lfo" with type 2^32 the source factory yields
nothing, and after registering the binding "direct" with type 2^32 + 82 the
binding factory constructs an object of type 82, not of the registered type.
What does hold for every registry: a lookup of the name just registered yields
the registered type cut to a signed 32 bit integer, a lookup of another name is
what it was before (so the last registration of a name wins), a registration in
one table leaves every lookup in the other table as it was, and a table never
created yields the invalid type for every name. -/
theorem wide_type_registration_is_lost :
    gst_control_source_facory_make
        (gst_control_source_register Registry.empty "lfo".toList (2 ^ 32)) "lfo".toList
        example_world = none ∧
    gst_control_binding_facory_make
        (gst_control_binding_register Registry.empty "direct".toList (2 ^ 32 + 82))
        "direct".toList example_src "freq".toList example_world =
      some (⟨1, 82⟩, ⟨2, [Effect.new_binding ⟨1, 82⟩ example_src "freq".toList]⟩) ∧
    (∀ (reg : Registry) (name name' : List Char) (t : GType),
      (gst_control_binding_register reg name t).binding_type name' =
        (if name' = name then GPOINTER_TO_INT (GINT_TO_POINTER t) else reg.binding_type name') ∧
      (gst_control_source_register reg name t).source_type name' =
        (if name' = name then GPOINTER_TO_INT (GINT_TO_POINTER t) else reg.source_type name') ∧
      (gst_control_binding_register reg name t).source_type name' = reg.source_type name' ∧
      (gst_control_source_register reg name t).binding_type name' = reg.binding_type name' ∧
      Registry.empty.binding_type name = G_TYPE_INVALID ∧
      Registry.empty.source_type name = G_TYPE_INVALID) := by
  refine ⟨by decide, by decide, fun reg name name' t => ⟨?_, ?_, rfl, rfl, rfl, rfl⟩⟩
  · exact binding_type_register_binding reg name name' t
  · exact source_type_register_source reg name name' t

set_option maxRecDepth 4000 in
/-- Claim C14: NAMED_PARAMETER evaluated on the text key=3.0 followed by ',' or
')' succeeds in either mode. No NAME matches at the digit 3, so the silent
FUNCTION trial returns false with its context and the world as they were; VALUE
then matches 3.0 as NUMERIC_VALUE and calls the setter with the current object,
key and 3.0; the caller's context afterwards is the one before the call with
the cursor past 3.0, so the target object, the attribute name and the pending
error kind are what they were before. -/
theorem key_value_parameter (ts : TypeSystem) (reg : Registry) (fuel : Nat)
    (ctx : GstControlParserContext) (fatal : Bool) (w : World) (c : Char) (rest : List Char)
    (hc : c = ',' ∨ c = ')')
    (htext : ctx.expr.drop ctx.pos = "key=3.0".toList ++ c :: rest) :
    regex_match .NAME (ctx.expr.drop (ctx.pos + 4)) = none ∧
    parse ts reg (fuel + 1) .FUNCTION { ctx with pos := ctx.pos + 4, prop_name := "key".toList }
        false w =
      some (false, { ctx with pos := ctx.pos + 4, prop_name := "key".toList }, w) ∧
    regex_match .NUMERIC_VALUE (ctx.expr.drop (ctx.pos + 4)) = some ("3.0".toList, 3) ∧
    parse ts reg (fuel + 1) .VALUE { ctx with pos := ctx.pos + 4, prop_name := "key".toList }
        false w =
      some (true, { ctx with pos := ctx.pos + 7, prop_name := "key".toList },
        ⟨w.next_id, w.log ++ [Effect.set_object_arg ctx.object "key".toList "3.0".toList]⟩) ∧
    parse ts reg (fuel + 2) .NAMED_PARAMETER ctx fatal w =
      some (true, { ctx with pos := ctx.pos + 7 },
        ⟨w.next_id, w.log ++ [Effect.set_object_arg ctx.object "key".toList "3.0".toList]⟩) := by
  have hname : regex_match .NAME (ctx.expr.drop ctx.pos) = some ("key".toList, 3) := by
    rw [htext]
    simp [regex_match, match_name, space_len, is_space, is_lower, is_name_char, is_digit]
  have hassign : regex_match .ASSIGNMENT (ctx.expr.drop (ctx.pos + 3)) = some ([], 1) := by
    rw [drop_pos_add, htext]
    simp [regex_match, match_punct, space_len, is_space]
  have hd : ctx.expr.drop (ctx.pos + 4) = "3.0".toList ++ c :: rest := by
    rw [drop_pos_add, htext]
    rfl
  have hvalue : regex_match .NUMERIC_VALUE (ctx.expr.drop (ctx.pos + 3 + 1)) =
      some ("3.0".toList, 3) := by
    rw [show ctx.pos + 3 + 1 = ctx.pos + 4 from rfl, hd]
    rcases hc with rfl | rfl <;>
      simp [regex_match, match_numeric, space_len, is_space, is_digit]
  have hnoname : regex_match .NAME (ctx.expr.drop (ctx.pos + 4)) = none :=
    numeric_excludes_name _ _ hvalue
  refine ⟨hnoname, ?_, hvalue, ?_, ?_⟩
  · have h3 : parse_terminal .NAME { ctx with pos := ctx.pos + 4, prop_name := "key".toList } =
        none := parse_terminal_of_no_match _ _ hnoname
    rw [function_no_name ts reg fuel _ false w h3]
    simp [error_exit]
  · exact value_literal ts reg fuel { ctx with pos := ctx.pos + 4, prop_name := "key".toList }
      false w .NUMERIC_VALUE _ 3 (Or.inl rfl) hvalue
  · exact named_parameter_literal ts reg fuel ctx fatal w .NUMERIC_VALUE _ [] _ 3 1 3 hname
      hassign (Or.inl rfl) hvalue

/-- Witness of C14: the parameter key=3.0 of lfo(key=3.0), evaluated in silent
mode with a pending error kind 5, which is still pending afterwards. -/
theorem key_value_parameter_witness :
    parse example_types example_registry (0 + 2) .NAMED_PARAMETER
        ⟨"lfo(key=3.0)".toList, 4, 5, ⟨2, example_lfo_type⟩, "control-source".toList⟩ false
        ⟨3, []⟩ =
      some (true, ⟨"lfo(key=3.0)".toList, 4 + 7, 5, ⟨2, example_lfo_type⟩,
          "control-source".toList⟩,
        ⟨3, [] ++ [Effect.set_object_arg ⟨2, example_lfo_type⟩ "key".toList "3.0".toList]⟩) :=
  (key_value_parameter example_types example_registry 0
    ⟨"lfo(key=3.0)".toList, 4, 5, ⟨2, example_lfo_type⟩, "control-source".toList⟩ false
    ⟨3, []⟩ ')' [] (Or.inr rfl) (by decide)).2.2.2.2

/-! ## The contract of the tokenizer -/

theorem char_of_toNat {c : Char} {n : Nat} (h : c.toNat = n) : c = Char.ofNat n := by
  rw [← h, Char.ofNat_toNat]

theorem all_space_takeWhile (s : List Char) : all_space (s.takeWhile is_space) :=
  fun _ hc => List.mem_takeWhile_imp hc

theorem head_dropWhile_not (p : Char → Bool) (s : List Char) :
    ∀ c, (s.dropWhile p).head? = some c → p c = false := by
  intro c hc
  have h := List.head?_dropWhile_not p s
  rw [hc] at h
  simpa using h

theorem head_dropWhile_space (s : List Char) :
    ∀ c, (s.dropWhile is_space).head? = some c → is_space c = false :=
  head_dropWhile_not is_space s

/-- A run of a class followed by a unit outside the class, or by nothing, is
what the greedy star of the class takes. -/
theorem run_exact (p : Char → Bool) (ws rest : List Char) (h1 : ∀ x ∈ ws, p x = true)
    (h2 : ∀ c, rest.head? = some c → p c = false) :
    (ws ++ rest).takeWhile p = ws ∧ (ws ++ rest).dropWhile p = rest := by
  induction ws with
  | nil =>
    cases rest with
    | nil => simp
    | cons c t => simp [h2 c rfl]
  | cons a ws ih =>
    have ha : p a = true := h1 a (List.mem_cons_self _ _)
    have ih := ih fun x hx => h1 x (List.mem_cons_of_mem _ hx)
    simp [ha, ih.1, ih.2]

theorem span_intro (type : TerminalSymbol) (s value ws1 text ws2 rest : List Char) (n : Nat)
    (h1 : all_space ws1) (h2 : all_space ws2)
    (hh : ∀ c, text.head? = some c → is_space c = false)
    (ht : Token type value text (ws2 ++ rest))
    (hn : n = (ws1 ++ text ++ ws2).length) (hs : s = ws1 ++ text ++ ws2 ++ rest)
    (hr : ∀ c, rest.head? = some c → is_space c = false) : Span type s value n :=
  ⟨ws1, text, ws2, rest, hs, hn, h1, h2, hr, hh, ht⟩

theorem match_punct_span (c : Char) (s : List Char) (n : Nat) (h : match_punct c s = some n) :
    is_space c = false ∧
    ∃ r : List Char, n = (s.takeWhile is_space ++ [c] ++ r.takeWhile is_space).length ∧
      s = s.takeWhile is_space ++ [c] ++ r.takeWhile is_space ++ r.dropWhile is_space := by
  unfold match_punct at h
  cases hs : s.dropWhile is_space with
  | nil => rw [hs] at h; simp at h
  | cons d r =>
    rw [hs] at h
    simp only at h
    split at h
    · rename_i hdc
      subst hdc
      simp only [Option.some.injEq] at h
      refine ⟨head_dropWhile_space s d (by rw [hs]; rfl), r, ?_, ?_⟩
      · rw [← h]
        simp [space_len]
        omega
      · conv_lhs => rw [← List.takeWhile_append_dropWhile is_space s, hs]
        simp
    · simp at h

theorem punct_span (type : TerminalSymbol) (c : Char) (s v : List Char) (n : Nat)
    (ht : ∀ after, Token type [] [c] after)
    (h : (match_punct c s).map (fun n => (([] : List Char), n)) = some (v, n)) :
    Span type s v n := by
  simp only [Option.map_eq_some', Prod.mk.injEq] at h
  obtain ⟨m, hm, rfl, rfl⟩ := h
  obtain ⟨hc, r, hn, hs⟩ := match_punct_span c s m hm
  exact span_intro type s [] _ [c] _ _ m (all_space_takeWhile s) (all_space_takeWhile r)
    (by intro x hx; simp only [List.head?_cons, Option.some.injEq] at hx; exact hx ▸ hc)
    (ht _) hn hs (head_dropWhile_space r)

theorem match_name_span (s v : List Char) (n : Nat) (h : match_name s = some (v, n)) :
    Span .NAME s v n := by
  unfold match_name at h
  cases hs : s.dropWhile is_space with
  | nil => rw [hs] at h; simp at h
  | cons c r =>
    rw [hs] at h
    simp only at h
    split at h
    · rename_i hl
      simp only [Option.some.injEq, Prod.mk.injEq] at h
      obtain ⟨rfl, rfl⟩ := h
      refine span_intro .NAME s _ (s.takeWhile is_space) (c :: r.takeWhile is_name_char)
        ((r.dropWhile is_name_char).takeWhile is_space)
        ((r.dropWhile is_name_char).dropWhile is_space) _ (all_space_takeWhile s)
        (all_space_takeWhile _) ?_
        ⟨rfl, ⟨c, _, rfl, hl, fun x hx => List.mem_takeWhile_imp hx⟩, ?_⟩ ?_ ?_
        (head_dropWhile_space _)
      · intro x hx
        simp only [List.head?_cons, Option.some.injEq] at hx
        exact hx ▸ head_dropWhile_space s c (by rw [hs]; rfl)
      · rw [List.takeWhile_append_dropWhile]
        exact head_dropWhile_not is_name_char r
      · simp [space_len]
        omega
      · conv_lhs => rw [← List.takeWhile_append_dropWhile is_space s, hs]
        simp
    · simp at h

theorem match_numeric_span (s v : List Char) (n : Nat) (h : match_numeric s = some (v, n)) :
    Span .NUMERIC_VALUE s v n := by
  unfold match_numeric at h
  simp only at h
  cases hd : (s.dropWhile is_space).dropWhile is_digit with
  | nil => rw [hd] at h; simp at h
  | cons c r1 =>
    rw [hd] at h
    simp only at h
    split at h
    · rename_i h46
      have hc : c = '.' := char_of_toNat h46
      subst hc
      simp only [Option.some.injEq, Prod.mk.injEq] at h
      obtain ⟨rfl, rfl⟩ := h
      have hsplit : s.dropWhile is_space =
          (s.dropWhile is_space).takeWhile is_digit ++ '.' :: r1 := by
        conv_lhs => rw [← List.takeWhile_append_dropWhile is_digit (s.dropWhile is_space), hd]
      refine span_intro .NUMERIC_VALUE s _ (s.takeWhile is_space)
        ((s.dropWhile is_space).takeWhile is_digit ++ '.' :: r1.takeWhile is_digit)
        ((r1.dropWhile is_digit).takeWhile is_space)
        ((r1.dropWhile is_digit).dropWhile is_space) _ (all_space_takeWhile s)
        (all_space_takeWhile _) ?_
        ⟨rfl, ⟨_, _, rfl, fun x hx => List.mem_takeWhile_imp hx,
          fun x hx => List.mem_takeWhile_imp hx⟩, ?_⟩ ?_ ?_ (head_dropWhile_space _)
      · intro x hx
        apply head_dropWhile_space s x
        rw [hsplit]
        cases hq : (s.dropWhile is_space).takeWhile is_digit with
        | nil => rw [hq] at hx; simpa using hx
        | cons a t => rw [hq] at hx; simpa using hx
      · rw [List.takeWhile_append_dropWhile]
        exact head_dropWhile_not is_digit r1
      · simp [space_len]
        omega
      · conv_lhs =>
          rw [← List.takeWhile_append_dropWhile is_space s,
            ← List.takeWhile_append_dropWhile is_digit (s.dropWhile is_space), hd]
        simp
    · simp at h

theorem match_string_span (s v : List Char) (n : Nat) (h : match_string s = some (v, n)) :
    Span .STRING_VALUE s v n := by
  unfold match_string at h
  cases hs : s.dropWhile is_space with
  | nil => rw [hs] at h; simp at h
  | cons q r =>
    rw [hs] at h
    simp only at h
    split at h
    · rename_i h39
      have hq : q = '\'' := char_of_toNat h39
      subst hq
      cases hr : r.dropWhile is_string_char with
      | nil => rw [hr] at h; simp at h
      | cons q2 r1 =>
        rw [hr] at h
        simp only at h
        split at h
        · rename_i h39'
          have hq2 : q2 = '\'' := char_of_toNat h39'
          subst hq2
          simp only [Option.some.injEq, Prod.mk.injEq] at h
          obtain ⟨rfl, rfl⟩ := h
          refine span_intro .STRING_VALUE s _ (s.takeWhile is_space)
            ('\'' :: (r.takeWhile is_string_char ++ ['\'']))
            (r1.takeWhile is_space) (r1.dropWhile is_space) _ (all_space_takeWhile s)
            (all_space_takeWhile _) (by intro x hx; simp at hx; subst hx; decide)
            ⟨rfl, fun x hx => List.mem_takeWhile_imp hx⟩ ?_ ?_
            (head_dropWhile_space _)
          · simp [space_len]
            omega
          · conv_lhs =>
              rw [← List.takeWhile_append_dropWhile is_space s, hs,
                ← List.takeWhile_append_dropWhile is_string_char r, hr]
            simp
        · simp at h
    · simp at h

theorem regex_match_span (type : TerminalSymbol) (s v : List Char) (n : Nat)
    (h : regex_match type s = some (v, n)) : Span type s v n := by
  cases type <;> simp only [regex_match] at h
  · exact match_name_span s v n h
  · exact match_numeric_span s v n h
  · exact match_string_span s v n h
  · exact punct_span _ '(' s v n (fun _ => ⟨rfl, rfl⟩) h
  · exact punct_span _ ')' s v n (fun _ => ⟨rfl, rfl⟩) h
  · exact punct_span _ ',' s v n (fun _ => ⟨rfl, rfl⟩) h
  · exact punct_span _ '=' s v n (fun _ => ⟨rfl, rfl⟩) h

theorem dropWhile_space_token (ws1 rest : List Char) (c : Char) (h1 : all_space ws1)
    (hc : is_space c = false) : (ws1 ++ c :: rest).dropWhile is_space = c :: rest := by
  rw [List.dropWhile_append_of_pos h1, List.dropWhile_cons_of_neg (by simp [hc])]

theorem space_len_exact (ws rest : List Char) (h1 : all_space ws)
    (h2 : ∀ c, rest.head? = some c → is_space c = false) :
    space_len (ws ++ rest) = ws.length ∧ (ws ++ rest).dropWhile is_space = rest := by
  unfold space_len
  rw [(run_exact is_space ws rest h1 h2).1]
  exact ⟨rfl, (run_exact is_space ws rest h1 h2).2⟩

theorem span_start (ws1 text more : List Char) (h1 : all_space ws1) (hne : text ≠ [])
    (hh : ∀ c, text.head? = some c → is_space c = false) :
    space_len (ws1 ++ text ++ more) = ws1.length ∧
      (ws1 ++ text ++ more).dropWhile is_space = text ++ more := by
  rw [List.append_assoc]
  apply space_len_exact ws1 (text ++ more) h1
  intro c hc
  cases text with
  | nil => exact absurd rfl hne
  | cons a t =>
    simp only [List.cons_append, List.head?_cons, Option.some.injEq] at hc
    exact hc ▸ hh a rfl

theorem span_is_matched (type : TerminalSymbol) (s v : List Char) (n : Nat)
    (h : Span type s v n) : regex_match type s = some (v, n) := by
  obtain ⟨ws1, text, ws2, rest, rfl, rfl, h1, h2, hr, hh, ht⟩ := h
  have hws2 := space_len_exact ws2 rest h2 hr
  cases type <;> simp only [Token] at ht
  · obtain ⟨rfl, ⟨c, t, rfl, hl, ht⟩, hafter⟩ := ht
    have hst := span_start ws1 (c :: t) (ws2 ++ rest) h1 (by simp) hh
    have hrun := run_exact is_name_char t (ws2 ++ rest) ht hafter
    rw [List.append_assoc (ws1 ++ c :: t)]
    simp only [regex_match, match_name]
    rw [hst.2]
    simp only [List.cons_append, hl, if_true, hst.1, hrun.1, hrun.2, hws2.1, List.length_append,
      List.length_cons, Option.some.injEq, Prod.mk.injEq, true_and]
    omega
  · obtain ⟨rfl, ⟨d1, d2, rfl, hd1, hd2⟩, hafter⟩ := ht
    have hst := span_start ws1 (d1 ++ '.' :: d2) (ws2 ++ rest) h1 (by simp) hh
    have hrun1 := run_exact is_digit d1 ('.' :: (d2 ++ (ws2 ++ rest))) hd1
      (by intro c hc; simp only [List.head?_cons, Option.some.injEq] at hc; subst hc; decide)
    have hrun2 := run_exact is_digit d2 (ws2 ++ rest) hd2 hafter
    rw [List.append_assoc (ws1 ++ (d1 ++ '.' :: d2))]
    simp only [regex_match, match_numeric]
    rw [hst.2]
    simp only [List.append_assoc, List.cons_append] at hrun1 hrun2 hst ⊢
    rw [hrun1.2]
    simp only [hrun1.1, hrun2.1, hrun2.2, hws2.1, hst.1]
    simp only [show ('.' : Char).toNat = 46 from rfl, if_true, List.length_append,
      List.length_cons, Option.some.injEq, Prod.mk.injEq, true_and]
    omega
  · obtain ⟨rfl, hv⟩ := ht
    have hst := span_start ws1 ('\'' :: (v ++ ['\''])) (ws2 ++ rest) h1 (by simp) hh
    have hrun := run_exact is_string_char v ('\'' :: (ws2 ++ rest)) hv
      (by intro c hc; simp only [List.head?_cons, Option.some.injEq] at hc; subst hc; decide)
    rw [List.append_assoc (ws1 ++ '\'' :: (v ++ ['\'']))]
    simp only [regex_match, match_string]
    rw [hst.2]
    simp only [List.append_assoc, List.cons_append, List.nil_append] at hrun hst ⊢
    simp only [show ('\'' : Char).toNat = 39 from rfl, if_true, hrun.2, hrun.1, hws2.1, hst.1,
      List.length_append, List.length_cons, List.length_nil, Option.some.injEq, Prod.mk.injEq,
      true_and]
    omega
  all_goals
    obtain ⟨rfl, rfl⟩ := ht
    have hst := span_start ws1 _ (ws2 ++ rest) h1 (List.cons_ne_nil _ _) hh
    rw [List.append_assoc (ws1 ++ _)]
    simp only [regex_match, match_punct]
    rw [hst.2]
    simp only [List.cons_append, List.nil_append, if_true, hws2.1, hst.1, Option.map_some',
      List.length_append, List.length_cons, List.length_nil]

theorem regex_match_iff_span (type : TerminalSymbol) (s v : List Char) (n : Nat) :
    regex_match type s = some (v, n) ↔ Span type s v n :=
  ⟨regex_match_span type s v n, span_is_matched type s v n⟩

/-- Claim C15: for every terminal symbol and context, parse_terminal returns no
result (and so leaves the context untouched) exactly when the text at the cursor
does not start with a span of the symbol: all the white space there is, a token
of the symbol, all the white space after it. Otherwise it returns the old context
with the cursor advanced by the length n of that span, no other field changed,
and the first capture group of the token: the name, the numeric text, the text
between the quotes, nothing for punctuation. The span and the value are unique,
the span is at least one unit long and lies inside the text at the cursor. -/
theorem parse_terminal_contract (type : TerminalSymbol) (ctx : GstControlParserContext) :
    (parse_terminal type ctx = none ↔
      ¬ ∃ value n, Span type (ctx.expr.drop ctx.pos) value n) ∧
    (∀ ctx1 value, parse_terminal type ctx = some (ctx1, value) ↔
      ∃ n, Span type (ctx.expr.drop ctx.pos) value n ∧
        ctx1 = { ctx with pos := ctx.pos + n }) ∧
    (∀ value n, Span type (ctx.expr.drop ctx.pos) value n →
      1 ≤ n ∧ n ≤ (ctx.expr.drop ctx.pos).length) ∧
    (∀ v1 n1 v2 n2, Span type (ctx.expr.drop ctx.pos) v1 n1 →
      Span type (ctx.expr.drop ctx.pos) v2 n2 → v1 = v2 ∧ n1 = n2) := by
  refine ⟨⟨?_, ?_⟩, ?_, ?_, ?_⟩
  · rintro h ⟨value, n, hs⟩
    rw [parse_terminal_of_match type ctx value n (span_is_matched _ _ _ _ hs)] at h
    exact Option.noConfusion h
  · intro h
    cases hm : regex_match type (ctx.expr.drop ctx.pos) with
    | none => exact parse_terminal_of_no_match type ctx hm
    | some r => exact absurd ⟨r.1, r.2, regex_match_span _ _ _ _ hm⟩ h
  · intro ctx1 value
    constructor
    · intro h
      obtain ⟨n, hm, hc, -, -⟩ := parse_terminal_some h
      exact ⟨n, regex_match_span _ _ _ _ hm, hc⟩
    · rintro ⟨n, hs, rfl⟩
      exact parse_terminal_of_match type ctx value n (span_is_matched _ _ _ _ hs)
  · intro value n hs
    exact regex_match_bounds type _ value n (span_is_matched _ _ _ _ hs)
  · intro v1 n1 v2 n2 h1 h2
    have e1 := span_is_matched _ _ _ _ h1
    rw [span_is_matched _ _ _ _ h2] at e1
    simp only [Option.some.injEq, Prod.mk.injEq] at e1
    exact ⟨e1.1.symm, e1.2.symm⟩

/-- Witness of C15: the string value of the text = 'é' , read at cursor 1: the
span of 6 bytes includes the white space on both sides and the two bytes of the
letter, and the value is the text between the quotes. -/
theorem parse_terminal_contract_witness :
    parse_terminal .STRING_VALUE ⟨utf8_units "= 'é' ,".toList, 1, 0, example_src, []⟩ =
      some (⟨utf8_units "= 'é' ,".toList, 7, 0, example_src, []⟩, utf8_units "é".toList) ∧
    ∃ n, Span .STRING_VALUE ((utf8_units "= 'é' ,".toList).drop 1) (utf8_units "é".toList) n ∧
      (⟨utf8_units "= 'é' ,".toList, 7, 0, example_src, []⟩ : GstControlParserContext) =
        ⟨utf8_units "= 'é' ,".toList, 1 + n, 0, example_src, []⟩ :=
  ⟨by decide,
    ((parse_terminal_contract .STRING_VALUE
      ⟨utf8_units "= 'é' ,".toList, 1, 0, example_src, []⟩).2.1
      ⟨utf8_units "= 'é' ,".toList, 7, 0, example_src, []⟩ (utf8_units "é".toList)).mp
      (by decide)⟩

/-! ## Text outside ASCII, and the cursor after the opening parenthesis -/

theorem paren_cursor (expr name v : List Char) (n1 n2 : Nat)
    (hname : regex_match .NAME expr = some (name, n1))
    (hparen : regex_match .OPENING_PAREN (expr.drop n1) = some (v, n2)) :
    n1 + n2 = offset_past_opening_paren expr +
      space_len (expr.drop (offset_past_opening_paren expr)) := by
  obtain ⟨ws1, text, ws2, rest, hs, hn, h1, h2, hr, -, ht⟩ := regex_match_span _ _ _ _ hname
  simp only [Token] at ht
  obtain ⟨rfl, ⟨c, t, rfl, hl, hnc⟩, -⟩ := ht
  have hdrop : expr.drop n1 = rest := by
    rw [hs]
    exact List.drop_left' hn.symm
  rw [hdrop] at hparen
  obtain ⟨ws3, text2, ws4, rest2, hs2, hn2, h3, h4, hr2, -, ht2⟩ :=
    regex_match_span _ _ _ _ hparen
  simp only [Token] at ht2
  obtain ⟨rfl, rfl⟩ := ht2
  have hws3 : ws3 = [] := by
    cases ws3 with
    | nil => rfl
    | cons a l =>
      have ha := h3 a (List.mem_cons_self _ _)
      rw [hs2] at hr
      have := hr a rfl
      rw [ha] at this
      exact absurd this (by decide)
  subst hws3
  simp only [List.nil_append] at hs2 hn2
  have hnot : '(' ∉ ws1 ++ c :: t ++ ws2 := by
    intro hmem
    simp only [List.mem_append, List.mem_cons] at hmem
    rcases hmem with (hm | hm | hm) | hm
    · exact absurd (h1 _ hm) (by decide)
    · rw [← hm] at hl
      exact absurd hl (by decide)
    · exact absurd (hnc _ hm) (by decide)
    · exact absurd (h2 _ hm) (by decide)
  have hidx : expr.indexOf '(' = n1 := by
    have he : expr = (ws1 ++ c :: t ++ ws2) ++ '(' :: (ws4 ++ rest2) := by
      rw [hs, hs2]
      simp
    rw [he, hn, List.indexOf_append_of_not_mem hnot]
    simp
  have hd2 : expr.drop (n1 + 1) = ws4 ++ rest2 := by
    rw [drop_pos_add, hdrop, hs2]
    simp
  unfold offset_past_opening_paren
  rw [hidx, hd2, (space_len_exact ws4 rest2 h4 hr2).1, hn2]
  simp
  omega

/-- Examples of the tokenizer on text outside ASCII, in bytes: a no-break space
is white space before a name and after a parenthesis, an Arabic-Indic digit is
a digit of a numeric value, and a letter of two bytes inside a string value
counts two. -/
theorem tokenizer_unicode_examples :
    regex_match .NAME (utf8_units "\u00A0direct(".toList) = some ("direct".toList, 8) ∧
    regex_match .OPENING_PAREN (utf8_units "(\u00A0".toList) = some ([], 3) ∧
    regex_match .NUMERIC_VALUE (utf8_units "1.\u0663)".toList) =
      some (utf8_units "1.\u0663".toList, 4) ∧
    regex_match .STRING_VALUE (utf8_units "'é' ,".toList) = some (utf8_units "é".toList, 5) ∧
    regex_match .NAME (utf8_units "é".toList) = none := by
  decide

/-- Examples of the parser on text outside ASCII: a no-break space before
direct(x=) is white space, so the binding is constructed and the failure lies in
the parameter list (kind 0 at cursor 0); in direct, a no-break space, x the
opening parenthesis is missed at byte offset 8; a no-break space alone is no
function name. -/
theorem parser_unicode_examples :
    gst_control_parser_parse example_types example_registry
        (some (utf8_units "\u00A0direct(x=)".toList)) (some example_src) (some "freq".toList)
        false example_world =
      some { ret := false
             error := none
             ctx := some ⟨utf8_units "\u00A0direct(x=)".toList, 0, 0, example_src, "freq".toList⟩
             world := ⟨2, [Effect.new_binding ⟨1, example_direct_type⟩ example_src "freq".toList,
               Effect.add_control_binding example_src ⟨1, example_direct_type⟩]⟩ } ∧
    gst_control_parser_parse example_types example_registry
        (some (utf8_units "direct\u00A0x".toList)) (some example_src) (some "freq".toList)
        false example_world =
      some { ret := false
             error := none
             ctx := some ⟨utf8_units "direct\u00A0x".toList, 8, EXPECT_OPENING_PAREN, example_src,
               "freq".toList⟩
             world := example_world } ∧
    gst_control_parser_parse example_types example_registry
        (some (utf8_units "\u00A0".toList)) (some example_src) (some "freq".toList)
        false example_world =
      some { ret := false
             error := none
             ctx := some ⟨utf8_units "\u00A0".toList, 0, EXPECT_FUNCTION_NAME, example_src,
               "freq".toList⟩
             world := example_world } := by
  decide

/-- Claim C5, refuted as worded: the cursor reported for an unregistered binding
is not always the offset just past the opening parenthesis. With white space
after the parenthesis, as in argb( x) or in argb( followed by a no-break space,
the cursor is 6 or 7 while the offset just past the parenthesis is 5. -/
theorem cursor_counts_white_space_after_paren :
    gst_control_parser_parse example_types registry_without_argb (some "argb( x)".toList)
        (some example_src) (some "foreground-color".toList) false example_world =
      some { ret := false
             error := none
             ctx := some ⟨"argb( x)".toList, 6, UNSUPPORTED_CONTROL_BINDING, example_src,
               "foreground-color".toList⟩
             world := example_world } ∧
    offset_past_opening_paren "argb( x)".toList = 5 ∧
    gst_control_parser_parse example_types registry_without_argb
        (some (utf8_units "argb(\u00A0x)".toList))
        (some example_src) (some "foreground-color".toList) false example_world =
      some { ret := false
             error := none
             ctx := some ⟨utf8_units "argb(\u00A0x)".toList, 7, UNSUPPORTED_CONTROL_BINDING,
               example_src, "foreground-color".toList⟩
             world := example_world } ∧
    offset_past_opening_paren (utf8_units "argb(\u00A0x)".toList) = 5 := by
  decide

/-- Claim C5, amended: for an expression that starts with NAME and the opening
parenthesis, parsed at top level against a target that is not a binding, where
the name has no entry in the binding table, gst_control_parser_parse fails with
UnsupportedControlBinding and nothing is constructed. The cursor is the end of
the match of the opening-parenthesis terminal: the offset just past the
parenthesis plus the length of the white space that follows it (5 for argb( when
no white space follows). -/
theorem unregistered_binding_fails (ts : TypeSystem) (reg : Registry) (expr : List Char)
    (parent : GstObject) (prop_name : List Char) (error : Bool) (w : World)
    (name v : List Char) (n1 n2 : Nat)
    (hobj : GST_IS_OBJECT ts (some parent) = true)
    (htarget : GST_IS_CONTROL_BINDING ts parent = false)
    (hname : regex_match .NAME expr = some (name, n1))
    (hparen : regex_match .OPENING_PAREN (expr.drop n1) = some (v, n2))
    (hreg : reg.has_binding name = false) :
    gst_control_parser_parse ts reg (some expr) (some parent) (some prop_name) error w =
      some { ret := false
             error :=
               if error then
                 some (UNSUPPORTED_CONTROL_BINDING,
                   format_error ⟨expr, n1 + n2, UNSUPPORTED_CONTROL_BINDING, parent, prop_name⟩)
               else none
             ctx := some ⟨expr, n1 + n2, UNSUPPORTED_CONTROL_BINDING, parent, prop_name⟩
             world := w } ∧
    n1 + n2 = offset_past_opening_paren expr +
      space_len (expr.drop (offset_past_opening_paren expr)) := by
  have h1 := parse_terminal_of_match .NAME ⟨expr, 0, 0, parent, prop_name⟩ name n1
    (by simpa using hname)
  have h2 := parse_terminal_of_match .OPENING_PAREN ⟨expr, 0 + n1, 0, parent, prop_name⟩ v n2
    (by simpa using hparen)
  have h3 := function_lookup_failed ts reg (2 * expr.length + 7) _ _ _ name v true w h1 h2
    (by simp [htarget, binding_type_absent reg name hreg])
  refine ⟨?_, paren_cursor expr name v n1 n2 hname hparen⟩
  simp only [gst_control_parser_parse, hobj, if_true, parse_fuel_succ, h3]
  simp [error_exit, htarget]

/-- Witness of C5: the argb expression of the example program against a
registry without an argb binding; the cursor is 5, just past the parenthesis,
which no white space follows. -/
theorem unregistered_binding_fails_witness :
    gst_control_parser_parse example_types registry_without_argb
        (some "argb(control-source-b=lfo(waveform='sine',offset=0.5,amplitude=0.5,frequency=1.0),control-source-g=lfo(waveform='sine',offset=0.5,amplitude=0.5,frequency=0.2))".toList)
        (some example_src) (some "foreground-color".toList) false example_world =
      some { ret := false
             error := none
             ctx := some ⟨"argb(control-source-b=lfo(waveform='sine',offset=0.5,amplitude=0.5,frequency=1.0),control-source-g=lfo(waveform='sine',offset=0.5,amplitude=0.5,frequency=0.2))".toList,
               5, UNSUPPORTED_CONTROL_BINDING, example_src, "foreground-color".toList⟩
             world := example_world } :=
  (unregistered_binding_fails example_types registry_without_argb _ example_src _ false
    example_world "argb".toList [] 4 1 (by decide) (by decide) (by decide) (by decide)
    (by decide)).1

/-! ## Cursor and termination -/

theorem parse_fuel_step (ts : TypeSystem) (reg : Registry) (fuel : Nat) :
    (∀ type _ctx fatal w r, parse ts reg fuel type _ctx fatal w = some r →
      parse ts reg (fuel + 1) type _ctx fatal w = some r) ∧
    (∀ ctx fatal w r, named_parameters_loop ts reg fuel ctx fatal w = some r →
      named_parameters_loop ts reg (fuel + 1) ctx fatal w = some r) := by
  induction fuel with
  | zero => constructor <;> intros <;> simp_all [parse, named_parameters_loop]
  | succ fuel ih =>
    obtain ⟨ihp, ihl⟩ := ih
    constructor
    · intro type _ctx fatal w r h
      cases type
      · -- FUNCTION
        rw [parse] at h ⊢
        split at h
        · exact h
        · split at h
          · exact h
          · rename_i ctx1 name _ ctx2 v _
            by_cases hb : GST_IS_CONTROL_BINDING ts ctx2.object = true
            all_goals
              simp only [hb, if_true, if_false] at h ⊢
              split at h
              · exact h
              · split at h
                · exact h
                · split at h
                  · simp at h
                  · rename_i hp
                    rw [ihp _ _ _ _ _ hp]
                    exact h
                  · rename_i hp
                    rw [ihp _ _ _ _ _ hp]
                    exact h
      · -- NAMED_PARAMETERS
        rw [parse] at h ⊢
        split at h
        · simp at h
        · rename_i hl
          rw [ihl _ _ _ _ hl]
          exact h
        · rename_i hl
          rw [ihl _ _ _ _ hl]
          exact h
      · -- NAMED_PARAMETER
        rw [parse] at h ⊢
        split at h
        · exact h
        · split at h
          · exact h
          · simp only [] at h ⊢
            split at h
            · simp at h
            · rename_i hp
              rw [ihp _ _ _ _ _ hp]
              exact h
            · rename_i hp
              rw [ihp _ _ _ _ _ hp]
              split at h
              · simp at h
              · rename_i hv
                rw [ihp _ _ _ _ _ hv]
                exact h
              · rename_i hv
                rw [ihp _ _ _ _ _ hv]
                exact h
      · -- VALUE
        rw [parse] at h ⊢
        exact h
    · intro ctx fatal w r h
      rw [named_parameters_loop] at h ⊢
      split at h
      · simp at h
      · rename_i hp
        rw [ihp _ _ _ _ _ hp]
        exact h
      · rename_i hp
        rw [ihp _ _ _ _ _ hp]
        simp only []
        split at h
        · exact ihl _ _ _ _ h
        · exact h

theorem parse_fuel_mono (ts : TypeSystem) (reg : Registry) (fuel k : Nat) (type : Symbol)
    (_ctx : GstControlParserContext) (fatal : Bool) (w : World)
    (r : Bool × GstControlParserContext × World)
    (h : parse ts reg fuel type _ctx fatal w = some r) :
    parse ts reg (fuel + k) type _ctx fatal w = some r := by
  induction k with
  | zero => exact h
  | succ k ih => exact (parse_fuel_step ts reg (fuel + k)).1 _ _ _ _ _ ih

/-- Claim C16: for every rule invocation, in either mode and with either
outcome, the cursor of the caller's context after the call is greater than or
equal to the cursor before the call; the same holds for the local context of
the parameter loop and for a terminal that matched. With fuel for the
expression the call does return, so the statement is not vacuous. Every context
of a top-level parse is passed along these calls, so no cursor moves back. -/
theorem cursor_never_moves_back (ts : TypeSystem) (reg : Registry) (fuel : Nat) (type : Symbol)
    (_ctx : GstControlParserContext) (fatal : Bool) (w : World) :
    (∀ b ctx' w', parse ts reg fuel type _ctx fatal w = some (b, ctx', w') →
      _ctx.pos ≤ ctx'.pos) ∧
    (∀ b ctx' w', named_parameters_loop ts reg fuel _ctx fatal w = some (b, ctx', w') →
      _ctx.pos ≤ ctx'.pos) ∧
    (∀ t ctx1 value, parse_terminal t _ctx = some (ctx1, value) → _ctx.pos ≤ ctx1.pos) ∧
    (_ctx.expr.length + 4 ≤ fuel →
      ∃ b ctx' w', parse ts reg fuel type _ctx fatal w = some (b, ctx', w') ∧
        _ctx.pos ≤ ctx'.pos) := by
  refine ⟨?_, ?_, ?_, ?_⟩
  · intro b ctx' w' h
    exact ((parse_advanced ts reg fuel).1 _ _ _ _ _ _ _ h).1.2.2.1
  · intro b ctx' w' h
    exact ((parse_advanced ts reg fuel).2 _ _ _ _ _ _ h).1.2.2.1
  · intro t ctx1 value h
    exact Nat.le_of_lt (parse_terminal_facts h).2.2.2.2.1
  · intro hfuel
    obtain ⟨⟨b, ctx', w'⟩, hr⟩ := parse_returns ts reg fuel type _ctx fatal w hfuel
    exact ⟨b, ctx', w', hr, ((parse_advanced ts reg fuel).1 _ _ _ _ _ _ _ hr).1.2.2.1⟩

/-- Witness of C16: the parameter list a=1.0,b= evaluated in fatal mode from
cursor 7 fails at the missing value, and the caller's cursor is not before 7. -/
theorem cursor_never_moves_back_witness :
    ∃ b ctx' w', parse example_types example_registry 40 .NAMED_PARAMETERS
        ⟨"direct(a=1.0,b=)".toList, 7, 0, ⟨1, example_direct_type⟩, "freq".toList⟩ true
        ⟨2, []⟩ = some (b, ctx', w') ∧ 7 ≤ ctx'.pos :=
  (cursor_never_moves_back example_types example_registry 40 .NAMED_PARAMETERS
    ⟨"direct(a=1.0,b=)".toList, 7, 0, ⟨1, example_direct_type⟩, "freq".toList⟩ true
    ⟨2, []⟩).2.2.2 (by decide)

/-- Claim C17: the grammar engine terminates on every expression, registry and
type system. A rule started with r characters after the cursor returns with
fuel r + 3 (FUNCTION), r + 4 (NAMED_PARAMETERS), r + 2 (NAMED_PARAMETER) or 1
(VALUE), and the result is the same with any larger fuel: the depth of the
recursion and the number of loop iterations are bounded by the remaining input,
because a matched terminal has non-zero length and strictly decreases the
remaining input and a successful rule has moved the cursor forward. The
parameter loop returns with fuel r + 3, and gst_control_parser_parse returns an
outcome for all arguments. -/
theorem grammar_engine_terminates (ts : TypeSystem) (reg : Registry) (fuel : Nat)
    (type : Symbol) (_ctx : GstControlParserContext) (fatal : Bool) (w : World)
    (hfuel : rule_fuel type (_ctx.expr.length - _ctx.pos) ≤ fuel) :
    (∃ b ctx' w', parse ts reg fuel type _ctx fatal w = some (b, ctx', w') ∧
      (∀ k, parse ts reg (fuel + k) type _ctx fatal w = some (b, ctx', w')) ∧
      (b = true → _ctx.pos < ctx'.pos)) ∧
    (∀ t ctx1 value, parse_terminal t _ctx = some (ctx1, value) →
      _ctx.pos < ctx1.pos ∧ ctx1.expr.length - ctx1.pos < _ctx.expr.length - _ctx.pos) ∧
    (_ctx.expr.length - _ctx.pos + 3 ≤ fuel →
      ∃ r, named_parameters_loop ts reg fuel _ctx fatal w = some r) ∧
    (∀ expr parent prop_name error,
      ∃ o, gst_control_parser_parse ts reg expr parent prop_name error w = some o) := by
  refine ⟨?_, ?_, (parse_total ts reg fuel).2 _ctx fatal w, ?_⟩
  · obtain ⟨⟨b, ctx', w'⟩, hr⟩ := (parse_total ts reg fuel).1 type _ctx fatal w hfuel
    refine ⟨b, ctx', w', hr, fun k => parse_fuel_mono ts reg fuel k type _ctx fatal w _ hr, ?_⟩
    intro hb
    exact (((parse_advanced ts reg fuel).1 _ _ _ _ _ _ _ hr).1.2.2.2.1 hb).1
  · intro t ctx1 value h
    have f := parse_terminal_facts h
    rw [f.1]
    omega
  · intro expr parent prop_name error
    exact gst_control_parser_parse_returns ts reg expr parent prop_name error w

/-- Witness of C17: FUNCTION on direct(x=), 10 characters, returns with fuel
13, and with every larger fuel it returns the same result. -/
theorem grammar_engine_terminates_witness :
    ∃ b ctx' w', parse example_types example_registry 13 .FUNCTION
        ⟨"direct(x=)".toList, 0, 0, example_src, "freq".toList⟩ true example_world =
          some (b, ctx', w') ∧
      (∀ k, parse example_types example_registry (13 + k) .FUNCTION
        ⟨"direct(x=)".toList, 0, 0, example_src, "freq".toList⟩ true example_world =
          some (b, ctx', w')) ∧
      (b = true → 0 < ctx'.pos) :=
  (grammar_engine_terminates example_types example_registry 13 .FUNCTION
    ⟨"direct(x=)".toList, 0, 0, example_src, "freq".toList⟩ true example_world
    (by decide)).1

/-! ## Numeric literals -/

/-- Claim C18, refuted: the NUMERIC_VALUE token of the code is digits, a dot,
digits, with the dot required and the digits optional, while the documented
grammar is one or more digits, an optional dot, one or more digits. The
literal 50 is numeric in the documented grammar and is not matched by the
token; 0.5 is accepted by both; a lone dot, 5. and .5 are not numeric in the
documented grammar and are matched by the token. So direct(x=50) is rejected
and direct(x=.) is accepted, with the setter called with the value ".". -/
theorem numeric_token_differs_from_documented_grammar :
    (documented_numeric "50".toList = true ∧ regex_match .NUMERIC_VALUE "50".toList = none) ∧
    (documented_numeric "0.5".toList = true ∧
      regex_match .NUMERIC_VALUE "0.5".toList = some ("0.5".toList, 3)) ∧
    (documented_numeric ".".toList = false ∧
      regex_match .NUMERIC_VALUE ".".toList = some (".".toList, 1)) ∧
    (documented_numeric "5.".toList = false ∧
      regex_match .NUMERIC_VALUE "5.".toList = some ("5.".toList, 2)) ∧
    (documented_numeric ".5".toList = false ∧
      regex_match .NUMERIC_VALUE ".5".toList = some (".5".toList, 2)) ∧
    (gst_control_parser_parse example_types example_registry (some "direct(x=50)".toList)
        (some example_src) (some "freq".toList) false example_world).map (fun o => o.ret) =
      some false ∧
    (gst_control_parser_parse example_types example_registry (some "direct(x=.)".toList)
        (some example_src) (some "freq".toList) false example_world).map
        (fun o => (o.ret, o.world.log.getLast?)) =
      some (true, some (Effect.set_object_arg ⟨1, example_direct_type⟩ "x".toList ".".toList)) := by
  decide

/-! ## Effects of a failed function -/

theorem error_exit_object (_ctx ctx : GstControlParserContext) (fatal : Bool) :
    (error_exit _ctx ctx fatal).object = _ctx.object := by
  cases fatal <;> rfl

theorem function_failure_object (ts : TypeSystem) (reg : Registry) (fuel : Nat)
    (_ctx ctx' : GstControlParserContext) (fatal : Bool) (w w' : World)
    (h : parse ts reg fuel .FUNCTION _ctx fatal w = some (false, ctx', w')) :
    ctx'.object = _ctx.object := by
  cases fuel with
  | zero => simp [parse] at h
  | succ fuel =>
    simp only [parse] at h
    split at h
    · simp only [Option.some.injEq, Prod.mk.injEq, true_and] at h
      rw [← h.1, error_exit_object]
    · split at h
      · simp only [Option.some.injEq, Prod.mk.injEq, true_and] at h
        rw [← h.1, error_exit_object]
      · split at h
        · simp only [Option.some.injEq, Prod.mk.injEq, true_and] at h
          rw [← h.1, error_exit_object]
        · split at h
          · simp at h
          · split at h
            · simp at h
            · simp only [Option.some.injEq, Prod.mk.injEq, true_and] at h
              rw [← h.1]
            · simp at h

theorem function_effects (ts : TypeSystem) (reg : Registry) (fuel : Nat)
    (_ctx ctx' : GstControlParserContext) (fatal : Bool) (w w' : World) (name v : List Char)
    (n1 n2 : Nat)
    (hname : regex_match .NAME (_ctx.expr.drop _ctx.pos) = some (name, n1))
    (hparen : regex_match .OPENING_PAREN (_ctx.expr.drop (_ctx.pos + n1)) = some (v, n2))
    (hreg : dispatch_type ts reg _ctx.object name ≠ G_TYPE_INVALID)
    (hfail : parse ts reg (fuel + 1) .FUNCTION _ctx fatal w = some (false, ctx', w')) :
    ctx' = _ctx ∧
    ∃ c1, parse ts reg fuel .NAMED_PARAMETERS
        { _ctx with pos := _ctx.pos + n1 + n2,
                    object := ⟨w.next_id, dispatch_type ts reg _ctx.object name⟩ } fatal
        ⟨w.next_id + 1, w.log ++
          [construct_effect ts _ctx.object _ctx.prop_name
              ⟨w.next_id, dispatch_type ts reg _ctx.object name⟩,
            attach_effect ts _ctx.object _ctx.prop_name
              ⟨w.next_id, dispatch_type ts reg _ctx.object name⟩]⟩ = some (false, c1, w') := by
  have heq := function_constructed ts reg fuel _ctx fatal w name v n1 n2 hname hparen hreg
  rw [hfail] at heq
  split at heq
  · simp at heq
  · split at heq
    · simp at heq
    · rename_i c1 w1 hp
      simp only [Option.some.injEq, Prod.mk.injEq, true_and] at heq
      obtain ⟨rfl, rfl⟩ := heq
      exact ⟨rfl, c1, hp⟩
    · simp at heq

/-- Claim C19: parse failure is not atomic. When a FUNCTION evaluation, in fatal
or in silent mode, has read its name and the parenthesis, has found a type for
the name and returns failure, then the failure is the one of its parameter
list, the world it returns is exactly the world the failed parameter list left
behind, and the log of that world is the log before the call followed by the
construction of the object, its attachment to (or assignment on) the target and
every effect of the parameter list made before the failure; no effect is taken
back. For direct(x=) with direct registered, gst_control_parser_parse returns
failure and the target has gained the new binding. -/
theorem failed_function_keeps_effects (ts : TypeSystem) (reg : Registry) (fuel : Nat)
    (_ctx ctx' : GstControlParserContext) (fatal : Bool) (w w' : World) (name v : List Char)
    (n1 n2 : Nat)
    (hname : regex_match .NAME (_ctx.expr.drop _ctx.pos) = some (name, n1))
    (hparen : regex_match .OPENING_PAREN (_ctx.expr.drop (_ctx.pos + n1)) = some (v, n2))
    (hreg : dispatch_type ts reg _ctx.object name ≠ G_TYPE_INVALID)
    (hfail : parse ts reg (fuel + 1) .FUNCTION _ctx fatal w = some (false, ctx', w')) :
    (∃ c1, parse ts reg fuel .NAMED_PARAMETERS
        { _ctx with pos := _ctx.pos + n1 + n2,
                    object := ⟨w.next_id, dispatch_type ts reg _ctx.object name⟩ } fatal
        ⟨w.next_id + 1, w.log ++
          [construct_effect ts _ctx.object _ctx.prop_name
              ⟨w.next_id, dispatch_type ts reg _ctx.object name⟩,
            attach_effect ts _ctx.object _ctx.prop_name
              ⟨w.next_id, dispatch_type ts reg _ctx.object name⟩]⟩ = some (false, c1, w')) ∧
    (∃ rest, w'.log = w.log ++
      construct_effect ts _ctx.object _ctx.prop_name
        ⟨w.next_id, dispatch_type ts reg _ctx.object name⟩ ::
      attach_effect ts _ctx.object _ctx.prop_name
        ⟨w.next_id, dispatch_type ts reg _ctx.object name⟩ :: rest) ∧
    gst_control_parser_parse example_types example_registry (some "direct(x=)".toList)
        (some example_src) (some "freq".toList) false example_world =
      some { ret := false
             error := none
             ctx := some ⟨"direct(x=)".toList, 0, 0, example_src, "freq".toList⟩
             world := ⟨2, [Effect.new_binding ⟨1, example_direct_type⟩ example_src "freq".toList,
               Effect.add_control_binding example_src ⟨1, example_direct_type⟩]⟩ } := by
  obtain ⟨-, c1, hp⟩ := function_effects ts reg fuel _ctx ctx' fatal w w' name v n1 n2 hname
    hparen hreg hfail
  refine ⟨⟨c1, hp⟩, ?_, by decide⟩
  obtain ⟨rest, hrest⟩ := (log_extends ts reg fuel).1 _ _ _ _ _ _ _ hp
  exact ⟨rest, by rw [hrest]; simp⟩

/-- Witness of C19: the silent trial of lfo(waveform='sine',frequency=) on a
direct binding fails at the missing value; the source stays constructed and
assigned and the waveform stays set. -/
theorem failed_function_keeps_effects_witness :
    ∃ rest, ([Effect.new_source ⟨2, example_lfo_type⟩,
        Effect.object_set ⟨1, example_direct_type⟩ "control-source".toList ⟨2, example_lfo_type⟩,
        Effect.set_object_arg ⟨2, example_lfo_type⟩ "waveform".toList "sine".toList] :
          List Effect) =
      [] ++ construct_effect example_types ⟨1, example_direct_type⟩ "control-source".toList
          ⟨2, dispatch_type example_types example_registry ⟨1, example_direct_type⟩
            "lfo".toList⟩ ::
        attach_effect example_types ⟨1, example_direct_type⟩ "control-source".toList
          ⟨2, dispatch_type example_types example_registry ⟨1, example_direct_type⟩
            "lfo".toList⟩ :: rest :=
  (failed_function_keeps_effects example_types example_registry 30
    ⟨"lfo(waveform='sine',frequency=)".toList, 0, 0, ⟨1, example_direct_type⟩,
      "control-source".toList⟩
    ⟨"lfo(waveform='sine',frequency=)".toList, 0, 0, ⟨1, example_direct_type⟩,
      "control-source".toList⟩ false ⟨2, []⟩
    ⟨3, [Effect.new_source ⟨2, example_lfo_type⟩,
        Effect.object_set ⟨1, example_direct_type⟩ "control-source".toList ⟨2, example_lfo_type⟩,
        Effect.set_object_arg ⟨2, example_lfo_type⟩ "waveform".toList "sine".toList]⟩
    "lfo".toList [] 3 1 (by decide) (by decide) (by decide) (by decide)).2.1

/-! ## The target object of the parameters -/

theorem function_success_cases (ts : TypeSystem) (reg : Registry) (fuel : Nat)
    (c c' : GstControlParserContext) (fatal : Bool) (w w' : World)
    (h : parse ts reg fuel .FUNCTION c fatal w = some (true, c', w')) :
    ∃ w2 : World,
      w2.log = w.log ++ [construct_effect ts c.object c.prop_name c'.object,
        attach_effect ts c.object c.prop_name c'.object] ∧
      (w' = w2 ∨ ∃ f c2 cp, c2.object = c'.object ∧
        parse ts reg f .NAMED_PARAMETERS c2 fatal w2 = some (true, cp, w')) := by
  cases fuel with
  | zero => simp [parse] at h
  | succ fuel =>
    simp only [parse, binding_make_eq, source_make_eq] at h
    split at h
    · simp at h
    · rename_i ctx1 name h1
      split at h
      · simp at h
      · rename_i ctx2 v h2
        have f1 := parse_terminal_facts h1
        have f2 := parse_terminal_facts h2
        have hobj : ctx2.object = c.object := by rw [f2.2.2.1, f1.2.2.1]
        have hprop : ctx2.prop_name = c.prop_name := by rw [f2.2.1, f1.2.1]
        rw [hobj, hprop] at h
        split at h
        · simp at h
        · rename_i object w1 code hmade
          have hw1 : w1.log = w.log ++ [construct_effect ts c.object c.prop_name object] := by
            unfold construct_effect
            split at hmade
            · rename_i hb
              simp only [Prod.mk.injEq] at hmade
              split at hmade
              · simp at hmade
              · simp only [Option.some.injEq, Prod.mk.injEq] at hmade
                rw [← hmade.1.2, ← hmade.1.1, if_pos hb]
            · rename_i hb
              simp only [Prod.mk.injEq] at hmade
              split at hmade
              · simp at hmade
              · simp only [Option.some.injEq, Prod.mk.injEq] at hmade
                rw [← hmade.1.2, ← hmade.1.1, if_neg hb]
          have hw2 : (if GST_IS_CONTROL_BINDING ts object = true then
                w1.record (Effect.add_control_binding c.object object)
              else w1.record (Effect.object_set c.object c.prop_name object)).log =
              w.log ++ [construct_effect ts c.object c.prop_name object,
                attach_effect ts c.object c.prop_name object] := by
            unfold attach_effect
            split <;> simp [World.record, hw1]
          split at h
          · simp only [Option.some.injEq, Prod.mk.injEq, true_and] at h
            obtain ⟨rfl, rfl⟩ := h
            exact ⟨_, hw2, Or.inl rfl⟩
          · split at h
            · simp at h
            · simp at h
            · rename_i hp
              simp only [Option.some.injEq, Prod.mk.injEq, true_and] at h
              obtain ⟨rfl, rfl⟩ := h
              refine ⟨_, hw2, Or.inr ⟨fuel, _, _, ?_, hp⟩⟩
              rfl

theorem function_success_effects (ts : TypeSystem) (reg : Registry) (fuel : Nat)
    (c c' : GstControlParserContext) (fatal : Bool) (w w' : World)
    (h : parse ts reg fuel .FUNCTION c fatal w = some (true, c', w')) :
    ∃ rest, w'.log = w.log ++ construct_effect ts c.object c.prop_name c'.object ::
      attach_effect ts c.object c.prop_name c'.object :: rest := by
  obtain ⟨w2, hw2, rfl | ⟨f, c2, cp, -, hp⟩⟩ := function_success_cases ts reg fuel c c' fatal w w' h
  · exact ⟨[], by rw [hw2]⟩
  · obtain ⟨rest, hrest⟩ := (log_extends ts reg f).1 _ _ _ _ _ _ _ hp
    exact ⟨rest, by rw [hrest, hw2]; simp⟩

theorem function_silent_failure (ts : TypeSystem) (reg : Registry) (fuel : Nat)
    (c c' : GstControlParserContext) (w w' : World)
    (h : parse ts reg fuel .FUNCTION c false w = some (false, c', w')) : c' = c := by
  cases fuel with
  | zero => simp [parse] at h
  | succ fuel =>
    simp only [parse, error_exit, Bool.false_eq_true, if_false] at h
    split at h
    · simp only [Option.some.injEq, Prod.mk.injEq, true_and] at h
      exact h.1.symm
    · split at h
      · simp only [Option.some.injEq, Prod.mk.injEq, true_and] at h
        exact h.1.symm
      · split at h
        · simp only [Option.some.injEq, Prod.mk.injEq, true_and] at h
          exact h.1.symm
        · split at h
          · simp at h
          · split at h
            · simp at h
            · simp only [Option.some.injEq, Prod.mk.injEq, true_and] at h
              exact h.1.symm
            · simp at h

theorem value_success (ts : TypeSystem) (reg : Registry) (fuel : Nat)
    (c c' : GstControlParserContext) (fatal : Bool) (w w' : World)
    (h : parse ts reg fuel .VALUE c fatal w = some (true, c', w')) :
    ∃ type value n, (type = TerminalSymbol.NUMERIC_VALUE ∨ type = TerminalSymbol.STRING_VALUE) ∧
      regex_match type (c.expr.drop c.pos) = some (value, n) ∧
      w' = w.record (Effect.set_object_arg c.object c.prop_name value) := by
  cases fuel with
  | zero => simp [parse] at h
  | succ fuel =>
    simp only [parse] at h
    split at h
    · rename_i c1 value h1
      obtain ⟨n, hm, hc, -⟩ := parse_terminal_some h1
      simp only [Option.some.injEq, Prod.mk.injEq, true_and] at h
      refine ⟨.NUMERIC_VALUE, value, n, Or.inl rfl, hm, ?_⟩
      rw [← h.2, hc]
    · split at h
      · rename_i c1 value h1
        obtain ⟨n, hm, hc, -⟩ := parse_terminal_some h1
        simp only [Option.some.injEq, Prod.mk.injEq, true_and] at h
        refine ⟨.STRING_VALUE, value, n, Or.inr rfl, hm, ?_⟩
        rw [← h.2, hc]
      · simp at h

theorem parse_terminal_none_iff {type : TerminalSymbol} {ctx : GstControlParserContext}
    (h : parse_terminal type ctx = none) : regex_match type (ctx.expr.drop ctx.pos) = none := by
  unfold parse_terminal at h
  cases hm : regex_match type (ctx.expr.drop ctx.pos) with
  | none => rfl
  | some r => rw [hm] at h; simp at h

theorem function_success_inv (ts : TypeSystem) (reg : Registry) (fuel : Nat)
    (c c' : GstControlParserContext) (fatal : Bool) (w w' : World)
    (h : parse ts reg (fuel + 1) .FUNCTION c fatal w = some (true, c', w')) :
    ∃ name n1 x n2,
      regex_match .NAME (c.expr.drop c.pos) = some (name, n1) ∧
      regex_match .OPENING_PAREN (c.expr.drop (c.pos + n1)) = some (x, n2) ∧
      dispatch_type ts reg c.object name ≠ G_TYPE_INVALID ∧
      c'.object = ⟨w.next_id, dispatch_type ts reg c.object name⟩ ∧
      ((∃ y n3, regex_match .CLOSING_PAREN (c.expr.drop (c.pos + n1 + n2)) = some (y, n3) ∧
          c'.pos = c.pos + n1 + n2 + n3 ∧
          w' = w.constructed ts c.object c.prop_name
            ⟨w.next_id, dispatch_type ts reg c.object name⟩) ∨
        (regex_match .CLOSING_PAREN (c.expr.drop (c.pos + n1 + n2)) = none ∧
          ∃ cp, parse ts reg fuel .NAMED_PARAMETERS
              { c with pos := c.pos + n1 + n2,
                       object := ⟨w.next_id, dispatch_type ts reg c.object name⟩ } fatal
              (w.constructed ts c.object c.prop_name
                ⟨w.next_id, dispatch_type ts reg c.object name⟩) = some (true, cp, w') ∧
            c'.pos = cp.pos)) := by
  simp only [parse, binding_make_eq, source_make_eq] at h
  split at h
  · simp at h
  · rename_i ctx1 name h1
    split at h
    · simp at h
    · rename_i ctx2 v h2
      obtain ⟨n1, hm1, rfl, -, -⟩ := parse_terminal_some h1
      obtain ⟨n2, hm2, rfl, -, -⟩ := parse_terminal_some h2
      simp only at hm2 h
      refine ⟨name, n1, v, n2, hm1, hm2, ?_⟩
      split at h
      · simp at h
      · rename_i object w1 code hmade
        have hm : dispatch_type ts reg c.object name ≠ G_TYPE_INVALID ∧
            object = ⟨w.next_id, dispatch_type ts reg c.object name⟩ ∧
            w1 = ⟨w.next_id + 1, w.log ++ [construct_effect ts c.object c.prop_name object]⟩ := by
          unfold construct_effect dispatch_type
          split at hmade
          · rename_i hb
            simp only [Prod.mk.injEq] at hmade
            split at hmade
            · simp at hmade
            · rename_i hne
              simp only [Option.some.injEq, Prod.mk.injEq] at hmade
              rw [if_pos hb, if_pos hb]
              exact ⟨hne, hmade.1.1.symm, by rw [← hmade.1.2, ← hmade.1.1]⟩
          · rename_i hb
            simp only [Prod.mk.injEq] at hmade
            split at hmade
            · simp at hmade
            · rename_i hne
              simp only [Option.some.injEq, Prod.mk.injEq] at hmade
              rw [if_neg hb, if_neg hb]
              exact ⟨hne, hmade.1.1.symm, by rw [← hmade.1.2, ← hmade.1.1]⟩
        obtain ⟨hne, hobj, hw1⟩ := hm
        have hw2 : (if GST_IS_CONTROL_BINDING ts object = true then
              w1.record (Effect.add_control_binding c.object object)
            else w1.record (Effect.object_set c.object c.prop_name object)) =
            w.constructed ts c.object c.prop_name object := by
          unfold World.constructed attach_effect
          rw [hw1]
          split <;> simp [World.record]
        rw [hw2] at h
        subst hobj
        refine ⟨hne, ?_⟩
        split at h
        · rename_i ctx3 y h3
          obtain ⟨n3, hm3, rfl, -, -⟩ := parse_terminal_some h3
          simp only [Option.some.injEq, Prod.mk.injEq, true_and] at h
          obtain ⟨rfl, rfl⟩ := h
          exact ⟨rfl, Or.inl ⟨y, n3, hm3, rfl, rfl⟩⟩
        · rename_i h3
          have hm3 := parse_terminal_none_iff h3
          split at h
          · simp at h
          · simp at h
          · rename_i cp wp hp
            simp only [Option.some.injEq, Prod.mk.injEq, true_and] at h
            obtain ⟨rfl, rfl⟩ := h
            exact ⟨rfl, Or.inr ⟨hm3, cp, hp, rfl⟩⟩

theorem applied_of_success (ts : TypeSystem) (reg : Registry) (fuel : Nat) :
    (∀ type c fatal w c' w', parse ts reg fuel type c fatal w = some (true, c', w') →
      ∃ n, c'.pos = c.pos + n ∧
        Applied ts reg (rule_production type) c.object c.prop_name (c.expr.drop c.pos) n w w') ∧
    (∀ c fatal w c' w', named_parameters_loop ts reg fuel c fatal w = some (true, c', w') →
      ∃ n, c'.pos = c.pos + n ∧
        Applied ts reg .parameters c.object c.prop_name (c.expr.drop c.pos) n w w') := by
  induction fuel with
  | zero => exact ⟨fun _ _ _ _ _ _ h => by simp [parse] at h,
      fun _ _ _ _ _ h => by simp [named_parameters_loop] at h⟩
  | succ fuel ih =>
    refine ⟨?_, ?_⟩
    · intro type c fatal w c' w' h
      cases type with
      | FUNCTION =>
        obtain ⟨name, n1, x, n2, hm1, hm2, hne, -, hcase⟩ :=
          function_success_inv ts reg fuel c c' fatal w w' h
        rw [drop_pos_add] at hm2
        rcases hcase with ⟨y, n3, hm3, hpos, rfl⟩ | ⟨hm3, cp, hp, hpos⟩
        · rw [Nat.add_assoc, drop_pos_add] at hm3
          exact ⟨n1 + n2 + n3, by omega, Applied.function_empty hm1 hm2 hne hm3⟩
        · rw [Nat.add_assoc, drop_pos_add] at hm3
          obtain ⟨n3, hn3, ha⟩ := ih.1 _ _ _ _ _ _ hp
          simp only [rule_production] at ha
          rw [Nat.add_assoc, drop_pos_add] at ha
          refine ⟨n1 + n2 + n3, ?_, Applied.function_parameters hm1 hm2 hne hm3 ha⟩
          rw [hpos, hn3]
          simp only
          omega
      | NAMED_PARAMETERS =>
        simp only [parse] at h
        split at h
        · simp at h
        · rename_i cl wl hl
          simp only [Option.some.injEq, Prod.mk.injEq, true_and] at h
          obtain ⟨rfl, rfl⟩ := h
          exact ih.2 c fatal w cl wl hl
        · simp at h
      | NAMED_PARAMETER =>
        simp only [parse] at h
        split at h
        · simp at h
        · rename_i ctx1 name h1
          split at h
          · simp at h
          · rename_i ctx2 v h2
            obtain ⟨n1, hm1, rfl, -, -⟩ := parse_terminal_some h1
            obtain ⟨n2, hm2, rfl, -, -⟩ := parse_terminal_some h2
            simp only at hm2 h
            rw [drop_pos_add] at hm2
            split at h
            · simp at h
            · rename_i cf wf hf
              simp only [Option.some.injEq, Prod.mk.injEq, true_and] at h
              obtain ⟨rfl, rfl⟩ := h
              obtain ⟨n3, hn3, ha⟩ := ih.1 _ _ _ _ _ _ hf
              simp only [rule_production] at ha
              rw [Nat.add_assoc, drop_pos_add] at ha
              refine ⟨n1 + n2 + n3, ?_, Applied.parameter_function hm1 hm2 ha⟩
              simp only at hn3 ⊢
              omega
            · rename_i cf wf hf
              split at h
              · simp at h
              · rename_i cv wv hv
                simp only [Option.some.injEq, Prod.mk.injEq, true_and] at h
                obtain ⟨rfl, rfl⟩ := h
                have hc1 := function_silent_failure ts reg fuel _ _ _ _ hf
                subst hc1
                obtain ⟨type, value, n, htype, hm, -⟩ := value_success ts reg fuel _ _ _ _ _ hv
                have hnoname := parse_terminal_of_no_match .NAME _
                  (literal_excludes_name type _ _ htype hm)
                cases fuel with
                | zero => simp [parse] at hf
                | succ fuel =>
                  rw [function_no_name ts reg fuel _ false w hnoname] at hf
                  simp only [Option.some.injEq, Prod.mk.injEq, true_and] at hf
                  obtain ⟨-, rfl⟩ := hf
                  obtain ⟨n3, hn3, ha⟩ := ih.1 _ _ _ _ _ _ hv
                  simp only [rule_production] at ha
                  rw [Nat.add_assoc, drop_pos_add] at ha
                  refine ⟨n1 + n2 + n3, ?_, Applied.parameter_value hm1 hm2 ha⟩
                  simp only at hn3 ⊢
                  omega
              · simp at h
      | VALUE =>
        simp only [parse] at h
        split at h
        · rename_i c1 value h1
          obtain ⟨n, hm, rfl, -, -⟩ := parse_terminal_some h1
          simp only [Option.some.injEq, Prod.mk.injEq, true_and] at h
          obtain ⟨rfl, rfl⟩ := h
          exact ⟨n, rfl, Applied.value_numeric hm⟩
        · rename_i h0
          have hm0 := parse_terminal_none_iff h0
          split at h
          · rename_i c1 value h1
            obtain ⟨n, hm, rfl, -, -⟩ := parse_terminal_some h1
            simp only [Option.some.injEq, Prod.mk.injEq, true_and] at h
            obtain ⟨rfl, rfl⟩ := h
            exact ⟨n, rfl, Applied.value_string hm0 hm⟩
          · simp at h
    · intro c fatal w c' w' h
      simp only [named_parameters_loop] at h
      split at h
      · simp at h
      · simp at h
      · rename_i c1 w1 hp
        obtain ⟨n1, hn1, ha⟩ := ih.1 _ _ _ _ _ _ hp
        simp only [rule_production] at ha
        have hadv := (parse_advanced ts reg fuel).1 _ _ _ _ _ _ _ hp
        have hobj : c1.object = c.object := hadv.2 (by simp)
        have hexpr : c1.expr = c.expr := hadv.1.1
        have hprop : c1.prop_name = c.prop_name := hadv.1.2.1
        split at h
        · rename_i c2 x h2
          obtain ⟨n2, hm2, rfl, -, -⟩ := parse_terminal_some h2
          obtain ⟨n3, hn3, hl⟩ := ih.2 _ _ _ _ _ h
          simp only [hobj, hexpr, hprop, hn1] at hl hm2 hn3
          rw [drop_pos_add] at hm2
          rw [Nat.add_assoc, drop_pos_add] at hl
          exact ⟨n1 + n2 + n3, by omega, Applied.parameters_more ha hm2 hl⟩
        · rename_i h2
          have hm2 := parse_terminal_none_iff h2
          split at h
          · rename_i c3 y h3
            obtain ⟨n3, hm3, rfl, -, -⟩ := parse_terminal_some h3
            simp only [Option.some.injEq, Prod.mk.injEq, true_and] at h
            obtain ⟨rfl, rfl⟩ := h
            simp only [hexpr, hn1] at hm2 hm3
            rw [drop_pos_add] at hm2 hm3
            exact ⟨n1 + n3, by simp only; omega, Applied.parameters_last ha hm2 hm3⟩
          · simp at h

theorem applied_value_no_name {ts : TypeSystem} {reg : Registry} {target : GstObject}
    {prop s : List Char} {n : Nat} {w w1 : World}
    (h : Applied ts reg .value target prop s n w w1) : regex_match .NAME s = none := by
  cases h with
  | value_numeric hm => exact literal_excludes_name _ _ _ (Or.inl rfl) hm
  | value_string _ hm => exact literal_excludes_name _ _ _ (Or.inr rfl) hm

theorem applied_function_name {ts : TypeSystem} {reg : Registry} {target : GstObject}
    {prop s : List Char} {n : Nat} {w w1 : World}
    (h : Applied ts reg .function target prop s n w w1) : ∃ r, regex_match .NAME s = some r := by
  cases h with
  | function_empty hm _ _ _ => exact ⟨_, hm⟩
  | function_parameters hm _ _ _ _ => exact ⟨_, hm⟩

theorem applied_unique {ts : TypeSystem} {reg : Registry} {p : Production} {target : GstObject}
    {prop s : List Char} {n1 : Nat} {w w1 : World}
    (h1 : Applied ts reg p target prop s n1 w w1) :
    ∀ n2 w2, Applied ts reg p target prop s n2 w w2 → n1 = n2 ∧ w1 = w2 := by
  induction h1 with
  | value_numeric hm =>
    intro n2 w2 h2
    cases h2 with
    | value_numeric hm2 =>
      rw [hm] at hm2
      simp only [Option.some.injEq, Prod.mk.injEq] at hm2
      obtain ⟨rfl, rfl⟩ := hm2
      exact ⟨rfl, rfl⟩
    | value_string hno _ => rw [hm] at hno; simp at hno
  | value_string hno hm =>
    intro n2 w2 h2
    cases h2 with
    | value_numeric hm2 => rw [hno] at hm2; simp at hm2
    | value_string _ hm2 =>
      rw [hm] at hm2
      simp only [Option.some.injEq, Prod.mk.injEq] at hm2
      obtain ⟨rfl, rfl⟩ := hm2
      exact ⟨rfl, rfl⟩
  | parameter_value hname hassign hv ih =>
    intro n2 w2 h2
    cases h2 with
    | parameter_value hname2 hassign2 hv2 =>
      rw [hname] at hname2
      simp only [Option.some.injEq, Prod.mk.injEq] at hname2
      obtain ⟨rfl, rfl⟩ := hname2
      rw [hassign] at hassign2
      simp only [Option.some.injEq, Prod.mk.injEq] at hassign2
      obtain ⟨rfl, rfl⟩ := hassign2
      obtain ⟨rfl, rfl⟩ := ih _ _ hv2
      exact ⟨rfl, rfl⟩
    | parameter_function hname2 hassign2 hf2 =>
      rw [hname] at hname2
      simp only [Option.some.injEq, Prod.mk.injEq] at hname2
      obtain ⟨rfl, rfl⟩ := hname2
      rw [hassign] at hassign2
      simp only [Option.some.injEq, Prod.mk.injEq] at hassign2
      obtain ⟨rfl, rfl⟩ := hassign2
      obtain ⟨r, hr⟩ := applied_function_name hf2
      rw [applied_value_no_name hv] at hr
      simp at hr
  | parameter_function hname hassign hf ih =>
    intro n2 w2 h2
    cases h2 with
    | parameter_value hname2 hassign2 hv2 =>
      rw [hname] at hname2
      simp only [Option.some.injEq, Prod.mk.injEq] at hname2
      obtain ⟨rfl, rfl⟩ := hname2
      rw [hassign] at hassign2
      simp only [Option.some.injEq, Prod.mk.injEq] at hassign2
      obtain ⟨rfl, rfl⟩ := hassign2
      obtain ⟨r, hr⟩ := applied_function_name hf
      rw [applied_value_no_name hv2] at hr
      simp at hr
    | parameter_function hname2 hassign2 hf2 =>
      rw [hname] at hname2
      simp only [Option.some.injEq, Prod.mk.injEq] at hname2
      obtain ⟨rfl, rfl⟩ := hname2
      rw [hassign] at hassign2
      simp only [Option.some.injEq, Prod.mk.injEq] at hassign2
      obtain ⟨rfl, rfl⟩ := hassign2
      obtain ⟨rfl, rfl⟩ := ih _ _ hf2
      exact ⟨rfl, rfl⟩
  | parameters_last hp hno hclose ih =>
    intro n2 w2 h2
    cases h2 with
    | parameters_last hp2 hno2 hclose2 =>
      obtain ⟨rfl, rfl⟩ := ih _ _ hp2
      rw [hclose] at hclose2
      simp only [Option.some.injEq, Prod.mk.injEq] at hclose2
      obtain ⟨rfl, rfl⟩ := hclose2
      exact ⟨rfl, rfl⟩
    | parameters_more hp2 hcomma2 hl2 =>
      obtain ⟨rfl, rfl⟩ := ih _ _ hp2
      rw [hno] at hcomma2
      simp at hcomma2
  | parameters_more hp hcomma hl ih1 ih2 =>
    intro n2 w2 h2
    cases h2 with
    | parameters_last hp2 hno2 hclose2 =>
      obtain ⟨rfl, rfl⟩ := ih1 _ _ hp2
      rw [hno2] at hcomma
      simp at hcomma
    | parameters_more hp2 hcomma2 hl2 =>
      obtain ⟨rfl, rfl⟩ := ih1 _ _ hp2
      rw [hcomma] at hcomma2
      simp only [Option.some.injEq, Prod.mk.injEq] at hcomma2
      obtain ⟨rfl, rfl⟩ := hcomma2
      obtain ⟨rfl, rfl⟩ := ih2 _ _ hl2
      exact ⟨rfl, rfl⟩
  | function_empty hname hparen hne hclose =>
    intro n2 w2 h2
    cases h2 with
    | function_empty hname2 hparen2 hne2 hclose2 =>
      rw [hname] at hname2
      simp only [Option.some.injEq, Prod.mk.injEq] at hname2
      obtain ⟨rfl, rfl⟩ := hname2
      rw [hparen] at hparen2
      simp only [Option.some.injEq, Prod.mk.injEq] at hparen2
      obtain ⟨rfl, rfl⟩ := hparen2
      rw [hclose] at hclose2
      simp only [Option.some.injEq, Prod.mk.injEq] at hclose2
      obtain ⟨rfl, rfl⟩ := hclose2
      exact ⟨rfl, rfl⟩
    | function_parameters hname2 hparen2 hne2 hclose2 hl2 =>
      rw [hname] at hname2
      simp only [Option.some.injEq, Prod.mk.injEq] at hname2
      obtain ⟨rfl, rfl⟩ := hname2
      rw [hparen] at hparen2
      simp only [Option.some.injEq, Prod.mk.injEq] at hparen2
      obtain ⟨rfl, rfl⟩ := hparen2
      rw [hclose] at hclose2
      simp at hclose2
  | function_parameters hname hparen hne hclose hl ih =>
    intro n2 w2 h2
    cases h2 with
    | function_empty hname2 hparen2 hne2 hclose2 =>
      rw [hname] at hname2
      simp only [Option.some.injEq, Prod.mk.injEq] at hname2
      obtain ⟨rfl, rfl⟩ := hname2
      rw [hparen] at hparen2
      simp only [Option.some.injEq, Prod.mk.injEq] at hparen2
      obtain ⟨rfl, rfl⟩ := hparen2
      rw [hclose] at hclose2
      simp at hclose2
    | function_parameters hname2 hparen2 hne2 hclose2 hl2 =>
      rw [hname] at hname2
      simp only [Option.some.injEq, Prod.mk.injEq] at hname2
      obtain ⟨rfl, rfl⟩ := hname2
      rw [hparen] at hparen2
      simp only [Option.some.injEq, Prod.mk.injEq] at hparen2
      obtain ⟨rfl, rfl⟩ := hparen2
      obtain ⟨rfl, rfl⟩ := ih _ _ hl2
      exact ⟨rfl, rfl⟩

set_option maxRecDepth 20000 in
/-- Claim C20: no rule changes the caller's expression or attribute name;
NAMED_PARAMETERS, NAMED_PARAMETER and VALUE leave the caller's target object
unchanged on every outcome, and FUNCTION leaves it unchanged when it fails, so
only a successful FUNCTION changes it, to the object it constructed. Consequently
a successful rule does to the world what the specification says its text means
for the caller's target object: the run is an application of the text in the
sense of the relation Applied, in which every parameter of a list, also one that
follows a nested function, is applied to the object constructed for the function
of the list; and the text has no other application, so cursor and effects are
the ones of that meaning. In the argb example both sources are assigned on the
argb binding, which is the target of the caller afterwards. -/
theorem parameters_apply_to_function_object (ts : TypeSystem) (reg : Registry) (fuel : Nat)
    (type : Symbol) (_ctx ctx' : GstControlParserContext) (fatal b : Bool) (w w' : World)
    (h : parse ts reg fuel type _ctx fatal w = some (b, ctx', w')) :
    ctx'.expr = _ctx.expr ∧ ctx'.prop_name = _ctx.prop_name ∧
    (type ≠ .FUNCTION → ctx'.object = _ctx.object) ∧
    (b = false → ctx'.object = _ctx.object) ∧
    (b = true →
      ∃ n, ctx'.pos = _ctx.pos + n ∧
        Applied ts reg (rule_production type) _ctx.object _ctx.prop_name
          (_ctx.expr.drop _ctx.pos) n w w' ∧
        ∀ n2 w2, Applied ts reg (rule_production type) _ctx.object _ctx.prop_name
          (_ctx.expr.drop _ctx.pos) n2 w w2 → n2 = n ∧ w2 = w') ∧
    (type = .FUNCTION → b = true →
      ∃ name n1, regex_match .NAME (_ctx.expr.drop _ctx.pos) = some (name, n1) ∧
        ctx'.object = ⟨w.next_id, dispatch_type ts reg _ctx.object name⟩) ∧
    (gst_control_parser_parse example_types example_registry
        (some "argb(control-source-b=lfo(waveform='sine',offset=0.5,amplitude=0.5,frequency=1.0),control-source-g=lfo(waveform='sine',offset=0.5,amplitude=0.5,frequency=0.2))".toList)
        (some example_src) (some "foreground-color".toList) true example_world).map
        (fun o => (o.ret, o.ctx.map fun c => c.object,
          o.world.log.filter fun e =>
            match e with
            | .object_set _ _ _ => true
            | _ => false)) =
      some (true, some ⟨1, example_argb_type⟩,
        [Effect.object_set ⟨1, example_argb_type⟩ "control-source-b".toList
            ⟨2, example_lfo_type⟩,
          Effect.object_set ⟨1, example_argb_type⟩ "control-source-g".toList
            ⟨3, example_lfo_type⟩]) := by
  have hadv := (parse_advanced ts reg fuel).1 _ _ _ _ _ _ _ h
  refine ⟨hadv.1.1, hadv.1.2.1, hadv.2, ?_, ?_, ?_, by decide⟩
  · intro hb
    subst hb
    cases type
    · exact function_failure_object ts reg fuel _ctx ctx' fatal w w' h
    all_goals exact hadv.2 (by simp)
  · intro hb
    subst hb
    obtain ⟨n, hn, ha⟩ := (applied_of_success ts reg fuel).1 _ _ _ _ _ _ h
    refine ⟨n, hn, ha, fun n2 w2 h2 => ?_⟩
    obtain ⟨h3, h4⟩ := applied_unique ha n2 w2 h2
    exact ⟨h3.symm, h4.symm⟩
  · intro ht hb
    subst ht
    subst hb
    cases fuel with
    | zero => simp [parse] at h
    | succ fuel =>
      obtain ⟨name, n1, -, -, hm1, -, -, hobj, -⟩ :=
        function_success_inv ts reg fuel _ctx ctx' fatal w w' h
      exact ⟨name, n1, hm1, hobj⟩

/-- Witness of C20: in argb(b=lfo(f=1.0),g=2.0) the parameter g, which follows a
nested function, is set on the argb binding: the run is the application of the
text to the element, and the world in which g is set on the lfo source is not an
application of the text. -/
theorem parameters_apply_to_function_object_witness :
    Applied example_types example_registry .function example_src "color".toList
      "argb(b=lfo(f=1.0),g=2.0)".toList 24 example_world
      ⟨3, [Effect.new_binding ⟨1, example_argb_type⟩ example_src "color".toList,
        Effect.add_control_binding example_src ⟨1, example_argb_type⟩,
        Effect.new_source ⟨2, example_lfo_type⟩,
        Effect.object_set ⟨1, example_argb_type⟩ "b".toList ⟨2, example_lfo_type⟩,
        Effect.set_object_arg ⟨2, example_lfo_type⟩ "f".toList "1.0".toList,
        Effect.set_object_arg ⟨1, example_argb_type⟩ "g".toList "2.0".toList]⟩ ∧
    ¬ Applied example_types example_registry .function example_src "color".toList
      "argb(b=lfo(f=1.0),g=2.0)".toList 24 example_world
      ⟨3, [Effect.new_binding ⟨1, example_argb_type⟩ example_src "color".toList,
        Effect.add_control_binding example_src ⟨1, example_argb_type⟩,
        Effect.new_source ⟨2, example_lfo_type⟩,
        Effect.object_set ⟨1, example_argb_type⟩ "b".toList ⟨2, example_lfo_type⟩,
        Effect.set_object_arg ⟨2, example_lfo_type⟩ "f".toList "1.0".toList,
        Effect.set_object_arg ⟨2, example_lfo_type⟩ "g".toList "2.0".toList]⟩ := by
  obtain ⟨n, hn, ha, hu⟩ := (parameters_apply_to_function_object example_types example_registry
    40 .FUNCTION
    ⟨"argb(b=lfo(f=1.0),g=2.0)".toList, 0, 0, example_src, "color".toList⟩
    ⟨"argb(b=lfo(f=1.0),g=2.0)".toList, 24, 0, ⟨1, example_argb_type⟩, "color".toList⟩
    true true example_world
    ⟨3, [Effect.new_binding ⟨1, example_argb_type⟩ example_src "color".toList,
        Effect.add_control_binding example_src ⟨1, example_argb_type⟩,
        Effect.new_source ⟨2, example_lfo_type⟩,
        Effect.object_set ⟨1, example_argb_type⟩ "b".toList ⟨2, example_lfo_type⟩,
        Effect.set_object_arg ⟨2, example_lfo_type⟩ "f".toList "1.0".toList,
        Effect.set_object_arg ⟨1, example_argb_type⟩ "g".toList "2.0".toList]⟩
    (by decide)).2.2.2.2.1 rfl
  have hn2 : n = 24 := by
    simp only [Nat.zero_add] at hn
    exact hn.symm
  subst hn2
  refine ⟨ha, fun hbad => ?_⟩
  have heq := (hu _ _ hbad).2
  simp at heq

/-! ## The literal fallback of a parameter -/

theorem name_excludes_literal (type : TerminalSymbol) (s : List Char) (r : List Char × Nat)
    (htype : type = .NUMERIC_VALUE ∨ type = .STRING_VALUE)
    (hname : regex_match .NAME s = some r) : regex_match type s = none := by
  cases hv : regex_match type s with
  | none => rfl
  | some r' =>
    rw [literal_excludes_name type s r' htype hv] at hname
    simp at hname

theorem value_fails_at_name (ts : TypeSystem) (reg : Registry) (fuel : Nat)
    (ctx : GstControlParserContext) (fatal : Bool) (w : World) (r : List Char × Nat)
    (hname : regex_match .NAME (ctx.expr.drop ctx.pos) = some r) :
    parse ts reg (fuel + 1) .VALUE ctx fatal w =
      some (false, error_exit ctx { ctx with error_code := EXPECT_VALUE } fatal, w) := by
  have h1 := parse_terminal_of_no_match .NUMERIC_VALUE ctx
    (name_excludes_literal _ _ r (Or.inl rfl) hname)
  have h2 := parse_terminal_of_no_match .STRING_VALUE ctx
    (name_excludes_literal _ _ r (Or.inr rfl) hname)
  simp only [parse, h1, h2]

/-- Claim C21: in NAMED_PARAMETER the literal fallback is taken only when the
FUNCTION trial does not begin to match. For every context: if NAME matches at
the cursor, neither NUMERIC_VALUE nor STRING_VALUE matches there and VALUE
fails without an effect; if VALUE succeeds at the cursor, NAME does not match
there and the silent FUNCTION trial fails at its first terminal, with context
and world untouched; and when NAME matches just after the '=' of a parameter
and the silent FUNCTION trial returns failure, NAMED_PARAMETER returns failure
through its error exit with kind ExpectFunctionOrValue and the cursor just
after the '=' terminal (written to the caller in fatal mode), keeping whatever
the trial did to the world. -/
theorem literal_fallback_only_without_name (ts : TypeSystem) (reg : Registry) (fuel : Nat)
    (ctx : GstControlParserContext) (fatal : Bool) (w : World) :
    (∀ r, regex_match .NAME (ctx.expr.drop ctx.pos) = some r →
      regex_match .NUMERIC_VALUE (ctx.expr.drop ctx.pos) = none ∧
      regex_match .STRING_VALUE (ctx.expr.drop ctx.pos) = none ∧
      parse ts reg (fuel + 1) .VALUE ctx fatal w =
        some (false, error_exit ctx { ctx with error_code := EXPECT_VALUE } fatal, w)) ∧
    (∀ c' w', parse ts reg (fuel + 1) .VALUE ctx fatal w = some (true, c', w') →
      regex_match .NAME (ctx.expr.drop ctx.pos) = none ∧
      parse ts reg (fuel + 1) .FUNCTION ctx false w = some (false, ctx, w)) ∧
    (∀ name x n1 n2 r c1 w1,
      regex_match .NAME (ctx.expr.drop ctx.pos) = some (name, n1) →
      regex_match .ASSIGNMENT (ctx.expr.drop (ctx.pos + n1)) = some (x, n2) →
      regex_match .NAME (ctx.expr.drop (ctx.pos + n1 + n2)) = some r →
      parse ts reg fuel .FUNCTION { ctx with pos := ctx.pos + n1 + n2, prop_name := name }
        false w = some (false, c1, w1) →
      parse ts reg (fuel + 1) .NAMED_PARAMETER ctx fatal w =
        some (false,
          error_exit ctx
            { ctx with pos := ctx.pos + n1 + n2, prop_name := name,
                       error_code := EXPECT_FUNCTION_OR_VALUE } fatal, w1)) := by
  refine ⟨?_, ?_, ?_⟩
  · intro r hname
    exact ⟨name_excludes_literal _ _ r (Or.inl rfl) hname,
      name_excludes_literal _ _ r (Or.inr rfl) hname,
      value_fails_at_name ts reg fuel ctx fatal w r hname⟩
  · intro c' w' hv
    obtain ⟨type, value, n, htype, hm, -⟩ := value_success ts reg (fuel + 1) _ _ _ _ _ hv
    have hnoname := literal_excludes_name type _ _ htype hm
    refine ⟨hnoname, ?_⟩
    rw [function_no_name ts reg fuel ctx false w (parse_terminal_of_no_match _ _ hnoname)]
    simp [error_exit]
  · intro name x n1 n2 r c1 w1 hname hassign hname2 hf
    have h1 := parse_terminal_of_match .NAME ctx name n1 hname
    have h2 := parse_terminal_of_match .ASSIGNMENT { ctx with pos := ctx.pos + n1 } x n2 hassign
    have hc1 := function_silent_failure ts reg fuel _ _ _ _ hf
    subst hc1
    cases fuel with
    | zero => simp [parse] at hf
    | succ fuel =>
      have hv := value_fails_at_name ts reg fuel
        { ctx with pos := ctx.pos + n1 + n2, prop_name := name } false w1 r hname2
      rw [parse]
      simp only [h1, h2, hf, hv, error_exit, Bool.false_eq_true, if_false]

/-- Witness of C21: in direct(control-source=lfo(frequency=)) the trial of
lfo(frequency=) matches its name and fails at the missing value; the parameter
fails with ExpectFunctionOrValue at cursor 22, just after the '=', and the
source stays constructed and assigned. -/
theorem literal_fallback_only_without_name_witness :
    parse example_types example_registry (30 + 1) .NAMED_PARAMETER
        ⟨"direct(control-source=lfo(frequency=))".toList, 7, 0, ⟨1, example_direct_type⟩,
          "freq".toList⟩ true ⟨2, []⟩ =
      some (false,
        ⟨"direct(control-source=lfo(frequency=))".toList, 22, EXPECT_FUNCTION_OR_VALUE,
          ⟨1, example_direct_type⟩, "freq".toList⟩,
        ⟨3, [Effect.new_source ⟨2, example_lfo_type⟩,
          Effect.object_set ⟨1, example_direct_type⟩ "control-source".toList
            ⟨2, example_lfo_type⟩]⟩) :=
  (literal_fallback_only_without_name example_types example_registry 30
    ⟨"direct(control-source=lfo(frequency=))".toList, 7, 0, ⟨1, example_direct_type⟩,
      "freq".toList⟩ true ⟨2, []⟩).2.2
    "control-source".toList [] 14 1 ("lfo".toList, 3)
    ⟨"direct(control-source=lfo(frequency=))".toList, 22, 0, ⟨1, example_direct_type⟩,
      "control-source".toList⟩
    ⟨3, [Effect.new_source ⟨2, example_lfo_type⟩,
      Effect.object_set ⟨1, example_direct_type⟩ "control-source".toList
        ⟨2, example_lfo_type⟩]⟩
    (by decide) (by decide) (by decide) (by decide)

/-! ## The error that the entry point reports -/

theorem function_no_paren (ts : TypeSystem) (reg : Registry) (fuel : Nat)
    (_ctx ctx1 : GstControlParserContext) (name : List Char) (fatal : Bool) (w : World)
    (hname : parse_terminal .NAME _ctx = some (ctx1, name))
    (hparen : parse_terminal .OPENING_PAREN ctx1 = none) :
    parse ts reg (fuel + 1) .FUNCTION _ctx fatal w =
      some (false, error_exit _ctx { ctx1 with error_code := EXPECT_OPENING_PAREN } fatal, w) := by
  simp only [parse, hname, hparen]

theorem function_failure_place (ts : TypeSystem) (reg : Registry) (fuel : Nat)
    (expr : List Char) (parent : GstObject) (prop_name : List Char) (w w' : World)
    (ctx' : GstControlParserContext)
    (h : parse ts reg (fuel + 1) .FUNCTION ⟨expr, 0, 0, parent, prop_name⟩ true w =
      some (false, ctx', w')) :
    FailurePlace ts reg expr parent ctx' := by
  cases hname : regex_match .NAME expr with
  | none =>
    have h1 := parse_terminal_of_no_match .NAME ⟨expr, 0, 0, parent, prop_name⟩
      (by simpa using hname)
    rw [function_no_name ts reg fuel _ true w h1] at h
    simp only [error_exit, if_true, Option.some.injEq, Prod.mk.injEq, true_and] at h
    left
    rw [← h.1]
    exact ⟨hname, rfl, rfl⟩
  | some r =>
    obtain ⟨name, n1⟩ := r
    have h1 := parse_terminal_of_match .NAME ⟨expr, 0, 0, parent, prop_name⟩ name n1
      (by simpa using hname)
    right
    cases hparen : regex_match .OPENING_PAREN (expr.drop n1) with
    | none =>
      have h2 := parse_terminal_of_no_match .OPENING_PAREN ⟨expr, 0 + n1, 0, parent, prop_name⟩
        (by simpa using hparen)
      rw [function_no_paren ts reg fuel _ _ name true w h1 h2] at h
      simp only [error_exit, if_true, Option.some.injEq, Prod.mk.injEq, true_and] at h
      left
      rw [← h.1]
      exact ⟨name, n1, hname, hparen, rfl, by simp⟩
    | some r2 =>
      obtain ⟨x, n2⟩ := r2
      have h2 := parse_terminal_of_match .OPENING_PAREN ⟨expr, 0 + n1, 0, parent, prop_name⟩
        x n2 (by simpa using hparen)
      right
      by_cases hreg : dispatch_type ts reg parent name = G_TYPE_INVALID
      · have h3 := function_lookup_failed ts reg fuel _ _ _ name x true w h1 h2
          (by simpa [dispatch_type] using hreg)
        rw [h3] at h
        simp only [error_exit, if_true, Option.some.injEq, Prod.mk.injEq, true_and] at h
        left
        rw [← h.1]
        exact ⟨name, n1, x, n2, hname, hparen, hreg, rfl, by simp⟩
      · right
        obtain ⟨hctx, -⟩ := function_effects ts reg fuel ⟨expr, 0, 0, parent, prop_name⟩ ctx' true
          w w' name x n1 n2 (by simpa using hname) (by simpa using hparen) hreg h
        rw [hctx]
        exact ⟨name, n1, x, n2, hname, hparen, hreg, rfl, rfl⟩

/-- Claim C22: the error reported by gst_control_parser_parse is determined by
the place at which the top-level FUNCTION fails. For every expression, target
and registry the call returns; on failure the GError holds the error kind and
the diagnostic of the final context, and that context is one of four:
ExpectFunctionName with cursor 0 when no name matches; ExpectOpeningParen with
the cursor after the name when no parenthesis follows; UnsupportedControlSource
(target is a binding) or UnsupportedControlBinding (otherwise) with the cursor
after the parenthesis when the factory finds no type; and kind 0 with cursor 0
when the factory step passed, that is, for every failure inside the parameter
list. So the reported kind is 0, 1, 2, 8 or 9, never ExpectCommaOrClosingParen,
ExpectParameterName, ExpectAssignment, ExpectValue or ExpectFunctionOrValue. -/
theorem reported_error_is_place_of_failure (ts : TypeSystem) (reg : Registry)
    (expr : List Char) (parent : GstObject) (prop_name : List Char) (w : World)
    (hobj : GST_IS_OBJECT ts (some parent) = true) :
    ∃ o, gst_control_parser_parse ts reg (some expr) (some parent) (some prop_name) true w =
        some o ∧
      ((o.ret = true ∧ o.error = none) ∨
       (o.ret = false ∧ ∃ ctx, o.ctx = some ctx ∧
          o.error = some (ctx.error_code, format_error ctx) ∧ ctx.expr = expr ∧
          FailurePlace ts reg expr parent ctx ∧
          (ctx.error_code = 0 ∨ ctx.error_code = EXPECT_FUNCTION_NAME ∨
            ctx.error_code = EXPECT_OPENING_PAREN ∨
            ctx.error_code = UNSUPPORTED_CONTROL_SOURCE ∨
            ctx.error_code = UNSUPPORTED_CONTROL_BINDING))) := by
  obtain ⟨⟨b, ctx', w'⟩, hr⟩ := parse_returns ts reg (parse_fuel expr) .FUNCTION
    ⟨expr, 0, 0, parent, prop_name⟩ true w (by simp only [parse_fuel]; omega)
  cases b with
  | true =>
    exact ⟨⟨true, none, some ctx', w'⟩, by simp [gst_control_parser_parse, hobj, hr],
      Or.inl ⟨rfl, rfl⟩⟩
  | false =>
    refine ⟨⟨false, some (ctx'.error_code, format_error ctx'), some ctx', w'⟩,
      by simp [gst_control_parser_parse, hobj, hr], Or.inr ⟨rfl, ctx', rfl, rfl, ?_, ?_, ?_⟩⟩
    · exact ((parse_advanced ts reg _).1 _ _ _ _ _ _ _ hr).1.1
    · rw [parse_fuel_succ] at hr
      exact function_failure_place ts reg _ expr parent prop_name w w' ctx' hr
    · rw [parse_fuel_succ] at hr
      rcases function_failure_place ts reg _ expr parent prop_name w w' ctx' hr with
        ⟨-, h, -⟩ | ⟨_, _, -, -, h, -⟩ | ⟨_, _, _, _, -, -, -, h, -⟩ | ⟨_, _, _, _, -, -, -, h, -⟩
      · exact Or.inr (Or.inl h)
      · exact Or.inr (Or.inr (Or.inl h))
      · by_cases hb : GST_IS_CONTROL_BINDING ts parent = true
        · rw [if_pos hb] at h
          exact Or.inr (Or.inr (Or.inr (Or.inl h)))
        · rw [if_neg hb] at h
          exact Or.inr (Or.inr (Or.inr (Or.inr h)))
      · exact Or.inl h

/-- Witness of C22: direct(x=) on the element of the example; the failure lies
in the parameter list. -/
theorem reported_error_is_place_of_failure_witness :
    ∃ o, gst_control_parser_parse example_types example_registry (some "direct(x=)".toList)
        (some example_src) (some "freq".toList) true example_world = some o ∧
      ((o.ret = true ∧ o.error = none) ∨
       (o.ret = false ∧ ∃ ctx, o.ctx = some ctx ∧
          o.error = some (ctx.error_code, format_error ctx) ∧
          ctx.expr = "direct(x=)".toList ∧
          FailurePlace example_types example_registry "direct(x=)".toList example_src ctx ∧
          (ctx.error_code = 0 ∨ ctx.error_code = EXPECT_FUNCTION_NAME ∨
            ctx.error_code = EXPECT_OPENING_PAREN ∨
            ctx.error_code = UNSUPPORTED_CONTROL_SOURCE ∨
            ctx.error_code = UNSUPPORTED_CONTROL_BINDING))) :=
  reported_error_is_place_of_failure example_types example_registry "direct(x=)".toList
    example_src "freq".toList example_world (by decide)

/-! ## Text after the closing parenthesis -/

theorem dropWhile_append_cons (p : Char → Bool) (t s : List Char) (a : Char) (r : List Char)
    (h : t.dropWhile p = a :: r) : (t ++ s).dropWhile p = a :: (r ++ s) := by
  induction t with
  | nil => simp at h
  | cons x t ih =>
    by_cases hx : p x = true
    · rw [List.dropWhile_cons_of_pos hx] at h
      rw [List.cons_append, List.dropWhile_cons_of_pos hx]
      exact ih h
    · rw [List.dropWhile_cons_of_neg hx] at h
      rw [List.cons_append, List.dropWhile_cons_of_neg hx]
      simp only [List.cons.injEq] at h
      rw [h.1, h.2]

theorem takeWhile_append_cons (p : Char → Bool) (t s : List Char) (a : Char) (r : List Char)
    (h : t.dropWhile p = a :: r) : (t ++ s).takeWhile p = t.takeWhile p := by
  induction t with
  | nil => simp at h
  | cons x t ih =>
    by_cases hx : p x = true
    · rw [List.dropWhile_cons_of_pos hx] at h
      rw [List.cons_append, List.takeWhile_cons_of_pos hx, List.takeWhile_cons_of_pos hx, ih h]
    · rw [List.cons_append, List.takeWhile_cons_of_neg hx, List.takeWhile_cons_of_neg hx]

theorem dropWhile_cons_of_short (p : Char → Bool) (a b : List Char)
    (h : ((a ++ b).takeWhile p).length < a.length) : ∃ x r, a.dropWhile p = x :: r := by
  induction a with
  | nil => simp at h
  | cons y a ih =>
    by_cases hy : p y = true
    · rw [List.cons_append, List.takeWhile_cons_of_pos hy] at h
      simp only [List.length_cons] at h
      rw [List.dropWhile_cons_of_pos hy]
      exact ih (by omega)
    · exact ⟨y, a, List.dropWhile_cons_of_neg hy⟩

/-- A run that stops inside `a` is the same whatever follows `a`. -/
theorem run_agree (p : Char → Bool) (a b b' : List Char)
    (h : ((a ++ b).takeWhile p).length < a.length) :
    ∃ x r, (a ++ b).dropWhile p = x :: (r ++ b) ∧ (a ++ b').dropWhile p = x :: (r ++ b') ∧
      (a ++ b').takeWhile p = (a ++ b).takeWhile p ∧
      a.length = ((a ++ b).takeWhile p).length + 1 + r.length := by
  obtain ⟨x, r, hd⟩ := dropWhile_cons_of_short p a b h
  refine ⟨x, r, dropWhile_append_cons p a b x r hd, dropWhile_append_cons p a b' x r hd, ?_, ?_⟩
  · rw [takeWhile_append_cons p a b' x r hd, takeWhile_append_cons p a b x r hd]
  · rw [takeWhile_append_cons p a b x r hd]
    have := length_split p a
    rw [hd, List.length_cons] at this
    omega

theorem space_len_agree (a b b' : List Char) (h : space_len (a ++ b) < a.length) :
    space_len (a ++ b') = space_len (a ++ b) := by
  obtain ⟨_, _, -, -, ht, -⟩ := run_agree is_space a b b' h
  unfold space_len
  rw [ht]

theorem match_punct_agree (c : Char) (a b b' : List Char) (n : Nat)
    (h : match_punct c (a ++ b) = some n) (hle : n ≤ a.length) :
    ∃ n', match_punct c (a ++ b') = some n' ∧ (n < a.length → n' = n) := by
  unfold match_punct at h
  split at h
  · rename_i d r hd
    split at h
    · rename_i hdc
      simp only [Option.some.injEq] at h
      obtain ⟨x, r', hd1, hd1', ht1, hl1⟩ := run_agree is_space a b b' (by
        show space_len (a ++ b) < a.length
        omega)
      rw [hd1] at hd
      simp only [List.cons.injEq] at hd
      obtain ⟨rfl, rfl⟩ := hd
      have hsp : space_len (a ++ b') = space_len (a ++ b) := by
        unfold space_len
        rw [ht1]
      refine ⟨space_len (a ++ b') + 1 + space_len (r' ++ b'), by
        simp only [match_punct, hd1', hdc, if_true], ?_⟩
      intro hn
      have hr : space_len (r' ++ b') = space_len (r' ++ b) :=
        space_len_agree r' b b' (by
          have : space_len (a ++ b) = ((a ++ b).takeWhile is_space).length := rfl
          omega)
      rw [hsp, hr, h]
    · simp at h
  · simp at h

theorem match_name_agree (a b b' v : List Char) (n : Nat)
    (h : match_name (a ++ b) = some (v, n)) (hn : n < a.length) :
    match_name (a ++ b') = some (v, n) := by
  unfold match_name at h
  split at h
  · rename_i c r hd
    split at h
    · rename_i hl
      simp only [Option.some.injEq, Prod.mk.injEq] at h
      have e0 : space_len (a ++ b) = ((a ++ b).takeWhile is_space).length := rfl
      obtain ⟨x, r', hd1, hd1', ht1, hl1⟩ := run_agree is_space a b b' (by omega)
      rw [hd1] at hd
      simp only [List.cons.injEq] at hd
      obtain ⟨rfl, rfl⟩ := hd
      have hsp : space_len (a ++ b') = space_len (a ++ b) := by
        unfold space_len
        rw [ht1]
      obtain ⟨y, r2, hd2, hd2', ht2, hl2⟩ := run_agree is_name_char r' b b' (by omega)
      have e2 : space_len (y :: (r2 ++ b)) = ((y :: r2 ++ b).takeWhile is_space).length := rfl
      have hr : space_len ((y :: r2) ++ b') = space_len ((y :: r2) ++ b) :=
        space_len_agree (y :: r2) b b' (by
          rw [hd2] at h
          simp only [List.length_cons, List.cons_append] at *
          omega)
      simp only [match_name, hd1', hl, if_true, hsp, ht2, hd2']
      rw [hd2] at h
      simp only [List.cons_append] at hr
      rw [hr, ← h.1, ← h.2]
    · simp at h
  · simp at h

theorem match_numeric_agree (a b b' v : List Char) (n : Nat)
    (h : match_numeric (a ++ b) = some (v, n)) (hn : n < a.length) :
    match_numeric (a ++ b') = some (v, n) := by
  unfold match_numeric at h
  simp only at h
  split at h
  · rename_i c r1 hd
    split at h
    · rename_i hc
      simp only [Option.some.injEq, Prod.mk.injEq] at h
      have e0 : space_len (a ++ b) = ((a ++ b).takeWhile is_space).length := rfl
      obtain ⟨x, r', hd1, hd1', ht1, hl1⟩ := run_agree is_space a b b' (by omega)
      have hsp : space_len (a ++ b') = space_len (a ++ b) := by
        unfold space_len
        rw [ht1]
      rw [hd1] at hd h
      have hx : (x :: (r' ++ b)) = (x :: r') ++ b := rfl
      rw [hx] at hd h
      obtain ⟨y, r2, hd2, hd2', ht2, hl2⟩ := run_agree is_digit (x :: r') b b' (by
        simp only [List.length_cons] at *
        omega)
      rw [hd2] at hd
      simp only [List.cons.injEq] at hd
      obtain ⟨rfl, rfl⟩ := hd
      obtain ⟨z, r3, hd3, hd3', ht3, hl3⟩ := run_agree is_digit r2 b b' (by
        simp only [List.length_cons] at *
        omega)
      have hr : space_len ((z :: r3) ++ b') = space_len ((z :: r3) ++ b) :=
        space_len_agree (z :: r3) b b' (by
          rw [hd3] at h
          have e3 : space_len (z :: (r3 ++ b)) =
            ((z :: (r3 ++ b)).takeWhile is_space).length := rfl
          simp only [List.length_cons, List.cons_append] at *
          omega)
      simp only [List.cons_append] at hr hd2' ht2
      simp only [match_numeric, hd1', hd2', hc, if_true, hsp, ht2, ht3, hd3', hr]
      rw [hd3] at h
      rw [← h.1, ← h.2]
      rfl
    · simp at h
  · simp at h

theorem match_string_agree (a b b' v : List Char) (n : Nat)
    (h : match_string (a ++ b) = some (v, n)) (hn : n < a.length) :
    match_string (a ++ b') = some (v, n) := by
  unfold match_string at h
  split at h
  · rename_i q r hd
    split at h
    · rename_i hq
      split at h
      · rename_i q2 r1 hd2
        split at h
        · rename_i hq2
          simp only [Option.some.injEq, Prod.mk.injEq] at h
          have e0 : space_len (a ++ b) = ((a ++ b).takeWhile is_space).length := rfl
          obtain ⟨x, r', hd1, hd1', ht1, hl1⟩ := run_agree is_space a b b' (by omega)
          rw [hd1] at hd
          simp only [List.cons.injEq] at hd
          obtain ⟨rfl, rfl⟩ := hd
          have hsp : space_len (a ++ b') = space_len (a ++ b) := by
            unfold space_len
            rw [ht1]
          obtain ⟨y, r2, hd3, hd3', ht3, hl3⟩ := run_agree is_string_char r' b b' (by omega)
          rw [hd3] at hd2
          simp only [List.cons.injEq] at hd2
          obtain ⟨rfl, rfl⟩ := hd2
          have hr : space_len (r2 ++ b') = space_len (r2 ++ b) :=
            space_len_agree r2 b b' (by omega)
          simp only [match_string, hd1', hq, if_true, hd3', hq2, hsp, ht3, hr]
          rw [← h.1, ← h.2]
        · simp at h
      · simp at h
    · simp at h
  · simp at h

theorem regex_match_agree (type : TerminalSymbol) (a b b' v : List Char) (n : Nat)
    (h : regex_match type (a ++ b) = some (v, n)) (hn : n < a.length) :
    regex_match type (a ++ b') = some (v, n) := by
  cases type <;> simp only [regex_match, Option.map_eq_some', Prod.mk.injEq] at h ⊢
  · exact match_name_agree a b b' v n h hn
  · exact match_numeric_agree a b b' v n h hn
  · exact match_string_agree a b b' v n h hn
  all_goals
    obtain ⟨m, hm, hv, rfl⟩ := h
    obtain ⟨n', hn', hnn⟩ := match_punct_agree _ a b b' m hm (Nat.le_of_lt hn)
    exact ⟨n', hn', hv, hnn hn⟩

theorem closing_agree (a b b' v : List Char) (n : Nat)
    (h : regex_match .CLOSING_PAREN (a ++ b) = some (v, n)) (hle : n ≤ a.length) :
    ∃ n', regex_match .CLOSING_PAREN (a ++ b') = some (v, n') ∧ (n < a.length → n' = n) := by
  simp only [regex_match, Option.map_eq_some', Prod.mk.injEq] at h ⊢
  obtain ⟨m, hm, hv, rfl⟩ := h
  obtain ⟨n', hn', hnn⟩ := match_punct_agree _ a b b' m hm hle
  exact ⟨n', ⟨n', hn', hv, rfl⟩, hnn⟩

theorem drop_split (e : List Char) (pos k : Nat) (hpk : pos ≤ k) (hk : k ≤ e.length) :
    e.drop pos = (e.take k).drop pos ++ e.drop k := by
  conv_lhs => rw [← List.take_append_drop k e]
  exact List.drop_append_of_le_length (by rw [List.length_take]; omega)

theorem agree_length (e e' : List Char) (k : Nat) (hagree : e'.take k = e.take k)
    (hk : k ≤ e.length) : k ≤ e'.length := by
  have h := congrArg List.length hagree
  simp only [List.length_take] at h
  omega

theorem regex_match_with_expr (type : TerminalSymbol) (e' : List Char) (k : Nat)
    (ctx : GstControlParserContext) (v : List Char) (n : Nat)
    (hagree : e'.take k = ctx.expr.take k) (hk : k ≤ ctx.expr.length)
    (h : regex_match type (ctx.expr.drop ctx.pos) = some (v, n))
    (hn : ctx.pos + n < k) :
    regex_match type ((with_expr e' ctx).expr.drop (with_expr e' ctx).pos) = some (v, n) := by
  show regex_match type (e'.drop ctx.pos) = some (v, n)
  rw [drop_split e' ctx.pos k (by omega) (agree_length _ _ k hagree hk), hagree]
  rw [drop_split ctx.expr ctx.pos k (by omega) hk] at h
  exact regex_match_agree type _ _ _ v n h (by
    rw [List.length_drop, List.length_take]
    omega)

theorem closing_with_expr (e' : List Char) (k : Nat) (ctx : GstControlParserContext)
    (v : List Char) (n : Nat)
    (hagree : e'.take k = ctx.expr.take k) (hk : k ≤ ctx.expr.length)
    (h : regex_match .CLOSING_PAREN (ctx.expr.drop ctx.pos) = some (v, n))
    (hn : ctx.pos + n ≤ k) :
    ∃ n', regex_match .CLOSING_PAREN
        ((with_expr e' ctx).expr.drop (with_expr e' ctx).pos) = some (v, n') ∧
      (ctx.pos + n < k → n' = n) := by
  show ∃ n', regex_match .CLOSING_PAREN (e'.drop ctx.pos) = some (v, n') ∧ _
  rw [drop_split e' ctx.pos k (by omega) (agree_length _ _ k hagree hk), hagree]
  rw [drop_split ctx.expr ctx.pos k (by omega) hk] at h
  obtain ⟨n', hn', hnn⟩ := closing_agree _ _ (e'.drop k) v n h (by
    rw [List.length_drop, List.length_take]
    omega)
  refine ⟨n', hn', fun hlt => hnn ?_⟩
  rw [List.length_drop, List.length_take]
  omega

theorem parameter_starts_with_name (ts : TypeSystem) (reg : Registry) (fuel : Nat)
    (ctx c' : GstControlParserContext) (fatal : Bool) (w w' : World)
    (h : parse ts reg fuel .NAMED_PARAMETER ctx fatal w = some (true, c', w')) :
    ∃ name n, regex_match .NAME (ctx.expr.drop ctx.pos) = some (name, n) ∧
      ctx.pos + n < c'.pos := by
  cases fuel with
  | zero => simp [parse] at h
  | succ fuel =>
    simp only [parse] at h
    split at h
    · simp at h
    · rename_i ctx1 name h1
      split at h
      · simp at h
      · rename_i ctx2 x h2
        obtain ⟨n1, hm1, rfl, -, -⟩ := parse_terminal_some h1
        obtain ⟨n2, -, rfl, hn2, -⟩ := parse_terminal_some h2
        refine ⟨name, n1, hm1, ?_⟩
        split at h
        · simp at h
        · rename_i cf wf hf
          have fadv := ((parse_advanced ts reg fuel).1 _ _ _ _ _ _ _ hf).1.2.2.1
          simp only [Option.some.injEq, Prod.mk.injEq, true_and] at h
          rw [← h.1]
          simp only at fadv ⊢
          omega
        · rename_i cf wf hf
          have fadv := ((parse_advanced ts reg fuel).1 _ _ _ _ _ _ _ hf).1.2.2.1
          split at h
          · simp at h
          · rename_i cv wv hv
            have vadv := ((parse_advanced ts reg fuel).1 _ _ _ _ _ _ _ hv).1.2.2.1
            simp only [Option.some.injEq, Prod.mk.injEq, true_and] at h
            rw [← h.1]
            simp only at fadv vadv ⊢
            omega
          · simp at h

theorem loop_starts_with_name (ts : TypeSystem) (reg : Registry) (fuel : Nat)
    (ctx c' : GstControlParserContext) (fatal : Bool) (w w' : World)
    (h : named_parameters_loop ts reg fuel ctx fatal w = some (true, c', w')) :
    ∃ name n, regex_match .NAME (ctx.expr.drop ctx.pos) = some (name, n) ∧
      ctx.pos + n < c'.pos := by
  cases fuel with
  | zero => simp [named_parameters_loop] at h
  | succ fuel =>
    rw [named_parameters_loop] at h
    split at h
    · simp at h
    · simp at h
    · rename_i c1 w1 hp
      obtain ⟨name, n, hm, hn⟩ := parameter_starts_with_name ts reg fuel ctx c1 fatal w w1 hp
      refine ⟨name, n, hm, ?_⟩
      split at h
      · rename_i c2 x hcomma
        have f2 := parse_terminal_facts hcomma
        have ladv := ((parse_advanced ts reg fuel).2 _ _ _ _ _ _ h).1.2.2.1
        omega
      · split at h
        · rename_i c2 x hclose
          have f2 := parse_terminal_facts hclose
          simp only [Option.some.injEq, Prod.mk.injEq, true_and] at h
          rw [← h.1]
          omega
        · simp at h

theorem parameters_start_with_name (ts : TypeSystem) (reg : Registry) (fuel : Nat)
    (ctx c' : GstControlParserContext) (fatal : Bool) (w w' : World)
    (h : parse ts reg fuel .NAMED_PARAMETERS ctx fatal w = some (true, c', w')) :
    ∃ name n, regex_match .NAME (ctx.expr.drop ctx.pos) = some (name, n) ∧
      ctx.pos + n < c'.pos := by
  cases fuel with
  | zero => simp [parse] at h
  | succ fuel =>
    simp only [parse] at h
    split at h
    · simp at h
    · rename_i c1 w1 hl
      obtain ⟨name, n, hm, hn⟩ := loop_starts_with_name ts reg fuel ctx c1 fatal w w1 hl
      simp only [Option.some.injEq, Prod.mk.injEq, true_and] at h
      rw [← h.1]
      exact ⟨name, n, hm, hn⟩
    · simp at h

theorem parameter_with_expr (ts : TypeSystem) (reg : Registry) (fuel : Nat) (e' : List Char)
    (k : Nat)
    (ih : ∀ ctx fatal w c' w', e'.take k = ctx.expr.take k → k ≤ ctx.expr.length →
      parse ts reg fuel .FUNCTION ctx fatal w = some (true, c', w') → c'.pos ≤ k →
      ∃ p, parse ts reg fuel .FUNCTION (with_expr e' ctx) fatal w =
          some (true, { with_expr e' c' with pos := p }, w') ∧
        (c'.pos < k → p = c'.pos))
    (ctx c' : GstControlParserContext) (fatal : Bool) (w w' : World)
    (hagree : e'.take k = ctx.expr.take k) (hk : k ≤ ctx.expr.length)
    (h : parse ts reg (fuel + 1) .NAMED_PARAMETER ctx fatal w = some (true, c', w'))
    (hlt : c'.pos < k) :
    parse ts reg (fuel + 1) .NAMED_PARAMETER (with_expr e' ctx) fatal w =
      some (true, with_expr e' c', w') := by
  cases hname : regex_match .NAME (ctx.expr.drop ctx.pos) with
  | none =>
    simp only [parse, parse_terminal_of_no_match _ _ hname] at h
    simp at h
  | some r1 =>
    obtain ⟨name, n1⟩ := r1
    have h1 := parse_terminal_of_match .NAME ctx name n1 hname
    cases hassign : regex_match .ASSIGNMENT (ctx.expr.drop (ctx.pos + n1)) with
    | none =>
      have h2 := parse_terminal_of_no_match .ASSIGNMENT { ctx with pos := ctx.pos + n1 } hassign
      simp only [parse, h1, h2] at h
      simp at h
    | some r2 =>
      obtain ⟨x, n2⟩ := r2
      have h2 := parse_terminal_of_match .ASSIGNMENT { ctx with pos := ctx.pos + n1 } x n2 hassign
      have b1 := regex_match_bounds _ _ _ _ hname
      have b2 := regex_match_bounds _ _ _ _ hassign
      rw [parse] at h
      simp only [h1, h2] at h
      cases hf : parse ts reg fuel .FUNCTION
          { ctx with pos := ctx.pos + n1 + n2, prop_name := name } false w with
      | none => rw [hf] at h; simp at h
      | some rf =>
        obtain ⟨b, cf, wf⟩ := rf
        rw [hf] at h
        cases b with
        | true =>
          simp only [Option.some.injEq, Prod.mk.injEq, true_and] at h
          obtain ⟨rfl, rfl⟩ := h
          simp only at hlt
          have fadv := ((parse_advanced ts reg fuel).1 _ _ _ _ _ _ _ hf).1.2.2.2.1 rfl
          simp only at fadv
          obtain ⟨p, hp, hpp⟩ := ih { ctx with pos := ctx.pos + n1 + n2, prop_name := name }
            false w cf wf hagree hk hf (by omega)
          rw [hpp hlt] at hp
          have hname' := regex_match_with_expr .NAME e' k ctx name n1 hagree hk hname (by omega)
          have hassign' := regex_match_with_expr .ASSIGNMENT e' k { ctx with pos := ctx.pos + n1 }
            x n2 hagree hk hassign (by simp only; omega)
          cases fuel with
          | zero => simp [parse] at hf
          | succ fuel =>
            exact parameter_step_function ts reg (fuel + 1) (with_expr e' ctx) (with_expr e' cf)
              fatal w wf name x n1 n2 hname' hassign' hp
        | false =>
          simp only at h
          have hcf := function_silent_failure ts reg fuel _ _ _ _ hf
          subst hcf
          cases hv : parse ts reg fuel .VALUE
              { ctx with pos := ctx.pos + n1 + n2, prop_name := name } false wf with
          | none => rw [hv] at h; simp at h
          | some rv =>
            obtain ⟨bv, cv, wv⟩ := rv
            rw [hv] at h
            cases bv with
            | false => simp at h
            | true =>
              obtain ⟨type, value, n3, htype, hm, -⟩ := value_success ts reg fuel _ _ _ _ _ hv
              simp only at hm
              cases fuel with
              | zero => simp [parse] at hf
              | succ fuel =>
                have hlit := named_parameter_literal ts reg fuel ctx fatal w type name x value
                  n1 n2 n3 hname hassign htype hm
                rw [parse] at hlit
                simp only [h1, h2, hf, hv] at hlit
                simp only at h
                rw [hlit] at h
                simp only [Option.some.injEq, Prod.mk.injEq, true_and] at h
                obtain ⟨rfl, rfl⟩ := h
                simp only at hlt
                have b3 := regex_match_bounds _ _ _ _ hm
                have hname' := regex_match_with_expr .NAME e' k ctx name n1 hagree hk hname
                  (by omega)
                have hassign' := regex_match_with_expr .ASSIGNMENT e' k
                  { ctx with pos := ctx.pos + n1 } x n2 hagree hk hassign (by simp only; omega)
                have hm' := regex_match_with_expr type e' k
                  { ctx with pos := ctx.pos + n1 + n2 } value n3 hagree hk hm
                  (by simp only; omega)
                rw [named_parameter_literal ts reg fuel (with_expr e' ctx) fatal w type name x
                  value n1 n2 n3 hname' hassign' htype hm']
                rfl

theorem function_with_expr (ts : TypeSystem) (reg : Registry) (fuel : Nat) (e' : List Char)
    (k : Nat)
    (ih : ∀ ctx fatal w c' w', e'.take k = ctx.expr.take k → k ≤ ctx.expr.length →
      parse ts reg fuel .NAMED_PARAMETERS ctx fatal w = some (true, c', w') → c'.pos ≤ k →
      ∃ p, parse ts reg fuel .NAMED_PARAMETERS (with_expr e' ctx) fatal w =
          some (true, { with_expr e' c' with pos := p }, w') ∧
        (c'.pos < k → p = c'.pos))
    (ctx c' : GstControlParserContext) (fatal : Bool) (w w' : World)
    (hagree : e'.take k = ctx.expr.take k) (hk : k ≤ ctx.expr.length)
    (h : parse ts reg (fuel + 1) .FUNCTION ctx fatal w = some (true, c', w'))
    (hle : c'.pos ≤ k) :
    ∃ p, parse ts reg (fuel + 1) .FUNCTION (with_expr e' ctx) fatal w =
        some (true, { with_expr e' c' with pos := p }, w') ∧
      (c'.pos < k → p = c'.pos) := by
  cases hname : regex_match .NAME (ctx.expr.drop ctx.pos) with
  | none =>
    rw [function_no_name ts reg fuel ctx fatal w (parse_terminal_of_no_match _ _ hname)] at h
    simp at h
  | some r1 =>
    obtain ⟨name, n1⟩ := r1
    have h1 := parse_terminal_of_match .NAME ctx name n1 hname
    cases hparen : regex_match .OPENING_PAREN (ctx.expr.drop (ctx.pos + n1)) with
    | none =>
      have h2 := parse_terminal_of_no_match .OPENING_PAREN { ctx with pos := ctx.pos + n1 } hparen
      rw [function_no_paren ts reg fuel ctx _ name fatal w h1 h2] at h
      simp at h
    | some r2 =>
      obtain ⟨x, n2⟩ := r2
      have h2 := parse_terminal_of_match .OPENING_PAREN { ctx with pos := ctx.pos + n1 } x n2
        hparen
      have b1 := regex_match_bounds _ _ _ _ hname
      have b2 := regex_match_bounds _ _ _ _ hparen
      by_cases hreg : dispatch_type ts reg ctx.object name = G_TYPE_INVALID
      · rw [function_lookup_failed ts reg fuel ctx _ _ name x fatal w h1 h2
          (by simpa [dispatch_type] using hreg)] at h
        simp at h
      · rw [function_constructed ts reg fuel ctx fatal w name x n1 n2 hname hparen hreg] at h
        cases hclose : regex_match .CLOSING_PAREN (ctx.expr.drop (ctx.pos + n1 + n2)) with
        | some r3 =>
          obtain ⟨y, n3⟩ := r3
          have b3 := regex_match_bounds _ _ _ _ hclose
          have h3 := parse_terminal_of_match .CLOSING_PAREN
            { ctx with pos := ctx.pos + n1 + n2,
                       object := ⟨w.next_id, dispatch_type ts reg ctx.object name⟩ } y n3 hclose
          simp only [h3, Option.some.injEq, Prod.mk.injEq, true_and] at h
          obtain ⟨rfl, rfl⟩ := h
          simp only at hle
          have hname' := regex_match_with_expr .NAME e' k ctx name n1 hagree hk hname (by omega)
          have hparen' := regex_match_with_expr .OPENING_PAREN e' k
            { ctx with pos := ctx.pos + n1 } x n2 hagree hk hparen (by simp only; omega)
          obtain ⟨n3', hclose', hn3⟩ := closing_with_expr e' k
            { ctx with pos := ctx.pos + n1 + n2,
                       object := ⟨w.next_id, dispatch_type ts reg ctx.object name⟩ } y n3
            hagree hk hclose hle
          have h3' := parse_terminal_of_match .CLOSING_PAREN
            (with_expr e'
              { ctx with pos := ctx.pos + n1 + n2,
                         object := ⟨w.next_id, dispatch_type ts reg ctx.object name⟩ })
            y n3' hclose'
          refine ⟨ctx.pos + n1 + n2 + n3', ?_, ?_⟩
          · rw [function_constructed ts reg fuel (with_expr e' ctx) fatal w name x n1 n2 hname'
              hparen' hreg]
            have h3'' : parse_terminal .CLOSING_PAREN
                { with_expr e' ctx with
                  pos := (with_expr e' ctx).pos + n1 + n2,
                  object := ⟨w.next_id,
                    dispatch_type ts reg (with_expr e' ctx).object name⟩ } = _ := h3'
            simp only [h3'']
            rfl
          · intro hlt
            simp only at hlt
            rw [hn3 (by simp only; omega)]
        | none =>
          have h3 := parse_terminal_of_no_match .CLOSING_PAREN
            { ctx with pos := ctx.pos + n1 + n2,
                       object := ⟨w.next_id, dispatch_type ts reg ctx.object name⟩ } hclose
          simp only [h3] at h
          split at h
          · simp at h
          · simp at h
          · rename_i cp wp hp
            simp only [Option.some.injEq, Prod.mk.injEq, true_and] at h
            obtain ⟨rfl, rfl⟩ := h
            simp only at hle
            obtain ⟨pname, pn, hpname, hpn⟩ := parameters_start_with_name ts reg fuel _ _ _ _ _ hp
            simp only at hpn
            have hname' := regex_match_with_expr .NAME e' k ctx name n1 hagree hk hname
              (by omega)
            have hparen' := regex_match_with_expr .OPENING_PAREN e' k
              { ctx with pos := ctx.pos + n1 } x n2 hagree hk hparen (by simp only; omega)
            have hpname' := regex_match_with_expr .NAME e' k
              { ctx with pos := ctx.pos + n1 + n2,
                         object := ⟨w.next_id, dispatch_type ts reg ctx.object name⟩ }
              pname pn hagree hk hpname (by simp only; omega)
            have h3' := parse_terminal_of_no_match .CLOSING_PAREN _
              (name_excludes_closing _ _ hpname')
            obtain ⟨p, hp', hpp⟩ := ih
              { ctx with pos := ctx.pos + n1 + n2,
                         object := ⟨w.next_id, dispatch_type ts reg ctx.object name⟩ }
              fatal _ cp _ hagree hk hp hle
            refine ⟨p, ?_, ?_⟩
            · rw [function_constructed ts reg fuel (with_expr e' ctx) fatal w name x n1 n2 hname'
                hparen' hreg]
              have h3'' : parse_terminal .CLOSING_PAREN
                  { with_expr e' ctx with
                    pos := (with_expr e' ctx).pos + n1 + n2,
                    object := ⟨w.next_id,
                      dispatch_type ts reg (with_expr e' ctx).object name⟩ } = none := h3'
              have hp'' : parse ts reg fuel .NAMED_PARAMETERS
                  { with_expr e' ctx with
                    pos := (with_expr e' ctx).pos + n1 + n2,
                    object := ⟨w.next_id,
                      dispatch_type ts reg (with_expr e' ctx).object name⟩ } fatal
                  ⟨w.next_id + 1, w.log ++
                    [construct_effect ts (with_expr e' ctx).object (with_expr e' ctx).prop_name
                        ⟨w.next_id, dispatch_type ts reg (with_expr e' ctx).object name⟩,
                      attach_effect ts (with_expr e' ctx).object (with_expr e' ctx).prop_name
                        ⟨w.next_id, dispatch_type ts reg (with_expr e' ctx).object name⟩]⟩ = _ :=
                hp'
              simp only [h3'', hp'']
              rfl
            · intro hlt
              exact hpp hlt

theorem parameters_with_expr (ts : TypeSystem) (reg : Registry) (fuel : Nat) (e' : List Char)
    (k : Nat)
    (ih : ∀ ctx fatal w c' w', e'.take k = ctx.expr.take k → k ≤ ctx.expr.length →
      named_parameters_loop ts reg fuel ctx fatal w = some (true, c', w') → c'.pos ≤ k →
      ∃ p, named_parameters_loop ts reg fuel (with_expr e' ctx) fatal w =
          some (true, { with_expr e' c' with pos := p }, w') ∧
        (c'.pos < k → p = c'.pos))
    (ctx c' : GstControlParserContext) (fatal : Bool) (w w' : World)
    (hagree : e'.take k = ctx.expr.take k) (hk : k ≤ ctx.expr.length)
    (h : parse ts reg (fuel + 1) .NAMED_PARAMETERS ctx fatal w = some (true, c', w'))
    (hle : c'.pos ≤ k) :
    ∃ p, parse ts reg (fuel + 1) .NAMED_PARAMETERS (with_expr e' ctx) fatal w =
        some (true, { with_expr e' c' with pos := p }, w') ∧
      (c'.pos < k → p = c'.pos) := by
  simp only [parse] at h
  split at h
  · simp at h
  · rename_i c1 w1 hl
    simp only [Option.some.injEq, Prod.mk.injEq, true_and] at h
    obtain ⟨rfl, rfl⟩ := h
    obtain ⟨p, hp, hpp⟩ := ih ctx fatal w c1 _ hagree hk hl hle
    refine ⟨p, ?_, hpp⟩
    rw [parameters_step ts reg fuel (with_expr e' ctx) _ fatal w _ hp]
    rfl
  · simp at h

theorem loop_with_expr (ts : TypeSystem) (reg : Registry) (fuel : Nat) (e' : List Char)
    (k : Nat)
    (ihp : ∀ ctx fatal w c' w', e'.take k = ctx.expr.take k → k ≤ ctx.expr.length →
      parse ts reg fuel .NAMED_PARAMETER ctx fatal w = some (true, c', w') →
      c'.pos < k →
      parse ts reg fuel .NAMED_PARAMETER (with_expr e' ctx) fatal w =
        some (true, with_expr e' c', w'))
    (ihl : ∀ ctx fatal w c' w', e'.take k = ctx.expr.take k → k ≤ ctx.expr.length →
      named_parameters_loop ts reg fuel ctx fatal w = some (true, c', w') → c'.pos ≤ k →
      ∃ p, named_parameters_loop ts reg fuel (with_expr e' ctx) fatal w =
          some (true, { with_expr e' c' with pos := p }, w') ∧
        (c'.pos < k → p = c'.pos))
    (ctx c' : GstControlParserContext) (fatal : Bool) (w w' : World)
    (hagree : e'.take k = ctx.expr.take k) (hk : k ≤ ctx.expr.length)
    (h : named_parameters_loop ts reg (fuel + 1) ctx fatal w = some (true, c', w'))
    (hle : c'.pos ≤ k) :
    ∃ p, named_parameters_loop ts reg (fuel + 1) (with_expr e' ctx) fatal w =
        some (true, { with_expr e' c' with pos := p }, w') ∧
      (c'.pos < k → p = c'.pos) := by
  rw [named_parameters_loop] at h
  split at h
  · simp at h
  · simp at h
  · rename_i c1 w1 hp
    have hexpr : c1.expr = ctx.expr := ((parse_advanced ts reg fuel).1 _ _ _ _ _ _ _ hp).1.1
    have hagree1 : e'.take k = c1.expr.take k := by rw [hexpr]; exact hagree
    have hk1 : k ≤ c1.expr.length := by rw [hexpr]; exact hk
    cases hcomma : regex_match .COMMA (c1.expr.drop c1.pos) with
    | some r =>
      obtain ⟨x, n⟩ := r
      simp only [parse_terminal_of_match _ _ _ _ hcomma] at h
      have bc := regex_match_bounds _ _ _ _ hcomma
      obtain ⟨_, n', -, hn'⟩ := loop_starts_with_name ts reg fuel _ _ _ _ _ h
      simp only at hn'
      have hp' := ihp ctx fatal w c1 w1 hagree hk hp (by omega)
      have hcomma' := regex_match_with_expr .COMMA e' k c1 x n hagree1 hk1 hcomma (by omega)
      obtain ⟨p, hl', hpp⟩ := ihl { c1 with pos := c1.pos + n } fatal w1 c' w' hagree1 hk1 h hle
      refine ⟨p, ?_, hpp⟩
      rw [loop_step_more ts reg fuel (with_expr e' ctx) (with_expr e' c1) fatal w w1 x n hp'
        hcomma']
      exact hl'
    | none =>
      simp only [parse_terminal_of_no_match _ _ hcomma] at h
      cases hclose : regex_match .CLOSING_PAREN (c1.expr.drop c1.pos) with
      | none =>
        simp only [parse_terminal_of_no_match _ _ hclose] at h
        simp at h
      | some r =>
        obtain ⟨y, n⟩ := r
        simp only [parse_terminal_of_match _ _ _ _ hclose, Option.some.injEq, Prod.mk.injEq,
          true_and] at h
        obtain ⟨rfl, rfl⟩ := h
        simp only at hle
        have bc := regex_match_bounds _ _ _ _ hclose
        have hp' := ihp ctx fatal w c1 _ hagree hk hp (by omega)
        obtain ⟨n', hclose', hn'⟩ := closing_with_expr e' k c1 y n hagree1 hk1 hclose hle
        have hcomma' := closing_excludes_comma _ _ hclose'
        refine ⟨c1.pos + n', ?_, ?_⟩
        · rw [loop_step_last ts reg fuel (with_expr e' ctx) (with_expr e' c1) fatal w _ y n' hp'
            hcomma' hclose']
          rfl
        · intro hlt
          simp only at hlt
          rw [hn' hlt]

theorem parse_with_expr (ts : TypeSystem) (reg : Registry) (e' : List Char) (k fuel : Nat) :
    (∀ ctx fatal w c' w', e'.take k = ctx.expr.take k → k ≤ ctx.expr.length →
      parse ts reg fuel .FUNCTION ctx fatal w = some (true, c', w') → c'.pos ≤ k →
      ∃ p, parse ts reg fuel .FUNCTION (with_expr e' ctx) fatal w =
          some (true, { with_expr e' c' with pos := p }, w') ∧
        (c'.pos < k → p = c'.pos)) ∧
    (∀ ctx fatal w c' w', e'.take k = ctx.expr.take k → k ≤ ctx.expr.length →
      parse ts reg fuel .NAMED_PARAMETERS ctx fatal w = some (true, c', w') → c'.pos ≤ k →
      ∃ p, parse ts reg fuel .NAMED_PARAMETERS (with_expr e' ctx) fatal w =
          some (true, { with_expr e' c' with pos := p }, w') ∧
        (c'.pos < k → p = c'.pos)) ∧
    (∀ ctx fatal w c' w', e'.take k = ctx.expr.take k → k ≤ ctx.expr.length →
      parse ts reg fuel .NAMED_PARAMETER ctx fatal w = some (true, c', w') →
      c'.pos < k →
      parse ts reg fuel .NAMED_PARAMETER (with_expr e' ctx) fatal w =
        some (true, with_expr e' c', w')) ∧
    (∀ ctx fatal w c' w', e'.take k = ctx.expr.take k → k ≤ ctx.expr.length →
      named_parameters_loop ts reg fuel ctx fatal w = some (true, c', w') → c'.pos ≤ k →
      ∃ p, named_parameters_loop ts reg fuel (with_expr e' ctx) fatal w =
          some (true, { with_expr e' c' with pos := p }, w') ∧
        (c'.pos < k → p = c'.pos)) := by
  induction fuel with
  | zero =>
    refine ⟨?_, ?_, ?_, ?_⟩ <;> intros <;> simp_all [parse, named_parameters_loop]
  | succ fuel ih =>
    obtain ⟨ihf, ihps, ihp, ihl⟩ := ih
    exact ⟨fun ctx fatal w c' w' ha hk =>
        function_with_expr ts reg fuel e' k ihps ctx c' fatal w w' ha hk,
      fun ctx fatal w c' w' ha hk =>
        parameters_with_expr ts reg fuel e' k ihl ctx c' fatal w w' ha hk,
      fun ctx fatal w c' w' ha hk =>
        parameter_with_expr ts reg fuel e' k ihf ctx c' fatal w w' ha hk,
      fun ctx fatal w c' w' ha hk =>
        loop_with_expr ts reg fuel e' k ihp ihl ctx c' fatal w w' ha hk⟩

theorem parse_fuel_irrelevant (ts : TypeSystem) (reg : Registry) (f1 f2 : Nat) (type : Symbol)
    (ctx : GstControlParserContext) (fatal : Bool) (w : World)
    (r r2 : Bool × GstControlParserContext × World)
    (h1 : parse ts reg f1 type ctx fatal w = some r)
    (h2 : parse ts reg f2 type ctx fatal w = some r2) : r2 = r := by
  by_cases hle : f1 ≤ f2
  · have h := parse_fuel_mono ts reg f1 (f2 - f1) type ctx fatal w r h1
    rw [show f1 + (f2 - f1) = f2 by omega, h2] at h
    exact Option.some.inj h
  · have h := parse_fuel_mono ts reg f2 (f1 - f2) type ctx fatal w r2 h2
    rw [show f2 + (f1 - f2) = f1 by omega, h1] at h
    exact (Option.some.inj h).symm

theorem success_with_expr (ts : TypeSystem) (reg : Registry) (e e' : List Char)
    (parent : GstObject) (prop_name : List Char) (error : Bool) (w : World) (o : Outcome)
    (c : GstControlParserContext)
    (h : gst_control_parser_parse ts reg (some e) (some parent) (some prop_name) error w =
      some o)
    (hret : o.ret = true) (hctx : o.ctx = some c)
    (hagree : e'.take c.pos = e.take c.pos) :
    c.pos ≤ e.length ∧
    ∃ o', gst_control_parser_parse ts reg (some e') (some parent) (some prop_name) error w =
        some o' ∧
      o'.ret = true ∧ o'.error = none ∧ o'.world = o.world ∧
      o'.ctx.map (fun c => c.object) = some c.object := by
  unfold gst_control_parser_parse at h ⊢
  simp only at h ⊢
  split at h
  · rename_i hobj
    simp only [hobj, if_true]
    split at h
    · simp at h
    · rename_i c' w' hp
      simp only [Option.some.injEq] at h
      subst h
      simp only [Option.some.injEq] at hctx
      subst hctx
      have hin : c'.pos ≤ e.length :=
        ((parse_advanced ts reg _).1 _ _ _ _ _ _ _ hp).1.2.2.2.2 (Nat.zero_le _)
      refine ⟨hin, ?_⟩
      obtain ⟨p, hp', -⟩ := (parse_with_expr ts reg e' c'.pos (parse_fuel e)).1
        ⟨e, 0, 0, parent, prop_name⟩ true w c' w' hagree hin hp (Nat.le_refl _)
      obtain ⟨r2, hr2⟩ := parse_returns ts reg (parse_fuel e') .FUNCTION
        ⟨e', 0, 0, parent, prop_name⟩ true w (by simp only [parse_fuel]; omega)
      have hr := parse_fuel_irrelevant ts reg _ _ _ _ _ _ _ _ hp' hr2
      subst hr
      simp only [hr2]
      exact ⟨_, rfl, rfl, rfl, rfl, rfl⟩
    · simp only [Option.some.injEq] at h
      subst h
      simp at hret
  · simp only [Option.some.injEq] at h
    subst h
    simp at hret

/-- Claim C23: gst_control_parser_parse does not require the whole expression to
be consumed. If it succeeds on an expression e with final cursor p, then p is
inside e, and for every text s it succeeds on e followed by s with the same
world (the same effect sequence) and the same resulting object; more
generally it succeeds in the same way on every expression that agrees with e on
the first p characters, the prefix up to the closing parenthesis of the
top-level function and the white space after it. -/
theorem trailing_text_is_ignored (ts : TypeSystem) (reg : Registry) (e : List Char)
    (parent : GstObject) (prop_name : List Char) (error : Bool) (w : World) (o : Outcome)
    (c : GstControlParserContext)
    (h : gst_control_parser_parse ts reg (some e) (some parent) (some prop_name) error w =
      some o)
    (hret : o.ret = true) (hctx : o.ctx = some c) :
    c.pos ≤ e.length ∧
    (∀ s, ∃ o', gst_control_parser_parse ts reg (some (e ++ s)) (some parent) (some prop_name)
        error w = some o' ∧
      o'.ret = true ∧ o'.error = none ∧ o'.world = o.world ∧
      o'.ctx.map (fun c => c.object) = some c.object) ∧
    (∀ e', e'.take c.pos = e.take c.pos →
      ∃ o', gst_control_parser_parse ts reg (some e') (some parent) (some prop_name) error w =
          some o' ∧
        o'.ret = true ∧ o'.error = none ∧ o'.world = o.world ∧
        o'.ctx.map (fun c => c.object) = some c.object) := by
  have hin := (success_with_expr ts reg e e parent prop_name error w o c h hret hctx rfl).1
  refine ⟨hin, ?_, ?_⟩
  · intro s
    exact (success_with_expr ts reg e (e ++ s) parent prop_name error w o c h hret hctx
      (List.take_append_of_le_length hin)).2
  · intro e' hagree
    exact (success_with_expr ts reg e e' parent prop_name error w o c h hret hctx hagree).2

/-- Witness of C23: direct() succeeds, and so does direct()garbage, with the
same binding constructed and attached. -/
theorem trailing_text_is_ignored_witness :
    ∃ o', gst_control_parser_parse example_types example_registry
        (some ("direct()".toList ++ "garbage".toList)) (some example_src) (some "freq".toList)
        true example_world = some o' ∧
      o'.ret = true ∧ o'.error = none ∧
      o'.world = ⟨2, [Effect.new_binding ⟨1, example_direct_type⟩ example_src "freq".toList,
        Effect.add_control_binding example_src ⟨1, example_direct_type⟩]⟩ ∧
      o'.ctx.map (fun c => c.object) = some ⟨1, example_direct_type⟩ :=
  (trailing_text_is_ignored example_types example_registry "direct()".toList
    example_src "freq".toList true example_world
    ⟨true, none, some ⟨"direct()".toList, 8, 0, ⟨1, example_direct_type⟩, "freq".toList⟩,
      ⟨2, [Effect.new_binding ⟨1, example_direct_type⟩ example_src "freq".toList,
        Effect.add_control_binding example_src ⟨1, example_direct_type⟩]⟩⟩
    ⟨"direct()".toList, 8, 0, ⟨1, example_direct_type⟩, "freq".toList⟩
    (by decide) rfl rfl).2.1 "garbage".toList

/-! ## The cursor stays inside the expression -/

theorem occurs_in_bounds (ts : TypeSystem) (reg : Registry) (expr : List Char)
    (ctx : GstControlParserContext) (h : Occurs ts reg expr ctx) :
    ctx.expr = expr ∧ ctx.pos ≤ expr.length := by
  induction h with
  | start parent prop_name => exact ⟨rfl, Nat.zero_le _⟩
  | terminal type ctx ctx1 value _ hm ih =>
    have f := parse_terminal_facts hm
    rw [ih.1] at f
    exact ⟨f.1, f.2.2.2.2.2⟩
  | rule fuel type ctx ctx' fatal b w w' _ hp ih =>
    have a := ((parse_advanced ts reg fuel).1 _ _ _ _ _ _ _ hp).1
    unfold Advanced at a
    rw [ih.1] at a
    exact ⟨a.1, a.2.2.2.2 ih.2⟩
  | loop fuel ctx ctx' fatal b w w' _ hp ih =>
    have a := ((parse_advanced ts reg fuel).2 _ _ _ _ _ _ hp).1
    unfold Advanced at a
    rw [ih.1] at a
    exact ⟨a.1, a.2.2.2.2 ih.2⟩
  | fields ctx error_code object prop_name _ ih => exact ih

theorem final_context_occurs (ts : TypeSystem) (reg : Registry) (expr : List Char)
    (parent : Option GstObject) (prop_name : Option (List Char)) (error : Bool) (w : World)
    (o : Outcome) (c : GstControlParserContext)
    (h : gst_control_parser_parse ts reg (some expr) parent prop_name error w = some o)
    (hctx : o.ctx = some c) : Occurs ts reg expr c := by
  cases parent with
  | none => simp [gst_control_parser_parse] at h; subst h; simp at hctx
  | some p =>
    cases prop_name with
    | none => simp [gst_control_parser_parse] at h; subst h; simp at hctx
    | some n =>
      simp only [gst_control_parser_parse] at h
      by_cases hobj : GST_IS_OBJECT ts (some p) = true
      · simp only [hobj, if_true] at h
        cases hp : parse ts reg (parse_fuel expr) .FUNCTION ⟨expr, 0, 0, p, n⟩ true w with
        | none => rw [hp] at h; simp at h
        | some r =>
          obtain ⟨b, c', w'⟩ := r
          rw [hp] at h
          have hc : o.ctx = some c' := by
            cases b <;> simp only [Option.some.injEq] at h <;> rw [← h]
          rw [hc] at hctx
          simp only [Option.some.injEq] at hctx
          subst hctx
          exact Occurs.rule _ _ _ _ _ _ _ _ (Occurs.start p n) hp
      · simp only [hobj] at h
        simp at h
        subst h
        simp at hctx

theorem to_gint_of_lt {n : Nat} (h : n < 2 ^ 31) : to_gint n = n := by
  unfold to_gint
  have h1 : n % 2 ^ 32 = n := Nat.mod_eq_of_lt (by omega)
  rw [h1, if_pos h]

/-- Claim C24: every context that occurs during a top-level parse of an
expression, which starts at cursor 0, has that expression and a cursor that is at
most the length of the expression. So the tokenizer is always applied at an
offset inside the buffer (at most at its end), a terminal that matches ends
inside the buffer, and the final context of gst_control_parser_parse, whose
cursor is the reported one, occurs and holds a valid offset. For an expression
shorter than 2^31 bytes the gint that holds the cursor is that offset: it is not
negative, the length of every match fits a gint, and the addition that advances
the cursor does not wrap. -/
theorem cursor_stays_in_buffer (ts : TypeSystem) (reg : Registry) (expr : List Char)
    (ctx : GstControlParserContext) (h : Occurs ts reg expr ctx) :
    ctx.expr = expr ∧ ctx.pos ≤ expr.length ∧
    (∀ type ctx1 value, parse_terminal type ctx = some (ctx1, value) →
      ctx.pos < ctx1.pos ∧ ctx1.pos ≤ expr.length) ∧
    (∀ parent prop_name error w o c,
      gst_control_parser_parse ts reg (some expr) parent prop_name error w = some o →
      o.ctx = some c → Occurs ts reg expr c ∧ c.expr = expr ∧ c.pos ≤ expr.length) ∧
    (expr.length < 2 ^ 31 →
      0 ≤ to_gint ctx.pos ∧ to_gint ctx.pos = ctx.pos ∧
      (∀ type ctx1 value, parse_terminal type ctx = some (ctx1, value) →
        ∃ consumed, ctx1.pos = ctx.pos + consumed ∧ to_gint consumed = consumed ∧
          to_gint ctx1.pos = to_gint ctx.pos + to_gint consumed) ∧
      (∀ parent prop_name error w o c,
        gst_control_parser_parse ts reg (some expr) parent prop_name error w = some o →
        o.ctx = some c → 0 ≤ to_gint c.pos ∧ to_gint c.pos ≤ expr.length)) := by
  have hb := occurs_in_bounds ts reg expr ctx h
  refine ⟨hb.1, hb.2, ?_, ?_, ?_⟩
  · intro type ctx1 value hm
    have f := parse_terminal_facts hm
    rw [hb.1] at f
    exact ⟨f.2.2.2.2.1, f.2.2.2.2.2⟩
  · intro parent prop_name error w o c ho hc
    have hocc := final_context_occurs ts reg expr parent prop_name error w o c ho hc
    exact ⟨hocc, occurs_in_bounds ts reg expr c hocc⟩
  · intro hlen
    have hpos : to_gint ctx.pos = ctx.pos := to_gint_of_lt (by omega)
    refine ⟨by rw [hpos]; exact Int.ofNat_nonneg _, hpos, ?_, ?_⟩
    · intro type ctx1 value hm
      obtain ⟨n, -, rfl, -, hn⟩ := parse_terminal_some hm
      rw [hb.1] at hn
      refine ⟨n, rfl, to_gint_of_lt (by omega), ?_⟩
      show to_gint (ctx.pos + n) = to_gint ctx.pos + to_gint n
      rw [hpos, to_gint_of_lt (show n < 2 ^ 31 by omega),
        to_gint_of_lt (show ctx.pos + n < 2 ^ 31 by omega)]
      simp
    · intro parent prop_name error w o c ho hc
      have hocc := final_context_occurs ts reg expr parent prop_name error w o c ho hc
      have hc2 := (occurs_in_bounds ts reg expr c hocc).2
      rw [to_gint_of_lt (show c.pos < 2 ^ 31 by omega)]
      exact ⟨Int.ofNat_nonneg _, by exact_mod_cast hc2⟩

/-- Witness of C24: the local context of the top-level FUNCTION of direct(x=)
after the name, the parenthesis and the construction of the binding occurs; its
cursor 7 is inside the expression, and the gint that holds it is 7. -/
theorem cursor_stays_in_buffer_witness :
    (7 : Nat) ≤ "direct(x=)".toList.length ∧
    (0 ≤ to_gint 7 ∧ to_gint 7 = (7 : Nat)) :=
  have h := cursor_stays_in_buffer example_types example_registry "direct(x=)".toList
    ⟨"direct(x=)".toList, 7, 0, ⟨1, example_direct_type⟩, "freq".toList⟩
    (Occurs.fields _ 0 ⟨1, example_direct_type⟩ "freq".toList
      (Occurs.terminal .OPENING_PAREN
        ⟨"direct(x=)".toList, 6, 0, example_src, "freq".toList⟩
        ⟨"direct(x=)".toList, 7, 0, example_src, "freq".toList⟩ []
        (Occurs.terminal .NAME
          ⟨"direct(x=)".toList, 0, 0, example_src, "freq".toList⟩
          ⟨"direct(x=)".toList, 6, 0, example_src, "freq".toList⟩ "direct".toList
          (Occurs.start example_src "freq".toList) (by decide))
        (by decide)))
  ⟨h.2.1, (h.2.2.2.2 (by decide)).1, (h.2.2.2.2 (by decide)).2.1⟩

/-! ## Type descriptors in the registry -/

/-- Claim C25, refuted: the registry does not keep a 64 bit type descriptor. The
lookup of a name just registered with type t yields t stored through
GINT_TO_POINTER and read back through GPOINTER_TO_INT, which is t cut to a
signed 32 bit integer and sign-extended: descriptors below 2^31 come back
unchanged, but 2^32, which is not zero, comes back as the invalid type 0 (the
factory then yields nothing for the registered name), 2^32 + 81 comes back as
81, and 2^31 comes back as 2^64 - 2^31. -/
theorem type_descriptor_is_cut_to_int :
    (∀ (reg : Registry) (name : List Char) (t : GType),
      (gst_control_binding_register reg name t).binding_type name =
        GPOINTER_TO_INT (GINT_TO_POINTER t) ∧
      (gst_control_source_register reg name t).source_type name =
        GPOINTER_TO_INT (GINT_TO_POINTER t)) ∧
    (∀ t : Nat, GPOINTER_TO_INT (GINT_TO_POINTER (t % 2 ^ 31)) = t % 2 ^ 31) ∧
    GPOINTER_TO_INT (GINT_TO_POINTER (2 ^ 32)) = G_TYPE_INVALID ∧
    GPOINTER_TO_INT (GINT_TO_POINTER (2 ^ 32 + 81)) = 81 ∧
    GPOINTER_TO_INT (GINT_TO_POINTER (2 ^ 31)) = 2 ^ 64 - 2 ^ 31 ∧
    (gst_control_binding_register Registry.empty "argb".toList (2 ^ 32)).binding_type
      "argb".toList = G_TYPE_INVALID ∧
    gst_control_binding_facory_make
        (gst_control_binding_register Registry.empty "argb".toList (2 ^ 32)) "argb".toList
        example_src "color".toList example_world = none := by
  refine ⟨fun reg name t => ⟨?_, ?_⟩, fun t => int_pointer_roundtrip _ (Nat.mod_lt _ (by norm_num)),
    by decide, by decide, by decide, by decide, by decide⟩
  · rw [binding_type_register_binding, if_pos rfl]
  · rw [source_type_register_source, if_pos rfl]

end GstControlParser
